import Mathlib

/-!
# BadBuddy: court availability and booking conflicts

A shallow embedding of the booking engine of `badbuddy-be`:

* `internal/domain/models/booking.go` (`CourtBooking`, `Validate`, `IsOverlapping`, ...),
* `internal/repositories/postgres/booking.go` (the SQL of the booking repository, read as
  list comprehensions over an in-memory database `DB`),
* `internal/usecase/booking/usecase.go` (`CreateBooking`, `CheckAvailability`,
  `isVenueOpenForBooking`, `UpdateBooking`, `CancelBooking`, `CreatePayment`,
  `UpdatePayment`, ...).

Conventions of the embedding.

* A `uuid.UUID` is a natural number, `uuid.Nil` is `0`.
* A wall-clock `time.Time` (the result of `time.Parse("15:04", _)`, a `start_time` column, the
  `open_time` of a schedule entry) is the number of minutes since midnight; `Hour` and `Minute`
  are the Go accessors.  A calendar date is the number of days since `0001-01-01`, the Go zero
  time, which is a Monday.
* A `float64` amount is the rational it denotes; a `float64` operation is the exact operation
  followed by `round64`, the rounding of IEEE 754 binary64.  Infinities and NaN are outside the
  model.
* A Go call that returns `error` is an `Outcome`: `ok`, `error msg`, or `panic` for a run-time
  panic (nil pointer dereference).
* The database is a record of tables; a query fails when it finds no row, and, in the
  operations that take a fault oracle, when the oracle says that the call fails.
-/

namespace BadBuddy

/-! ## Basic types -/

/-- Identifier, a `uuid.UUID`. -/
abbrev UUID := Nat

/-- The nil identifier `uuid.Nil`. -/
def uuidNil : UUID := 0

/-- Wall-clock time in minutes since midnight. -/
abbrev Clock := Nat

/-- Go `Time.Hour()`. -/
def Hour (t : Clock) : Nat := t / 60

/-- Go `Time.Minute()`. -/
def Minute (t : Clock) : Nat := t % 60

/-- Result of a Go call: normal return, returned error, or run-time panic. -/
inductive Outcome (α : Type) where
  | ok (val : α)
  | error (msg : String)
  | panic
deriving DecidableEq

/-- Go `Time.Weekday()` of a date given in days since `0001-01-01`: `0` is Sunday. -/
def Weekday (date : Int) : Nat := ((date + 1) % 7).toNat

/-- Go `Weekday.String()`. -/
def weekdayString : Nat → String
  | 0 => "Sunday"
  | 1 => "Monday"
  | 2 => "Tuesday"
  | 3 => "Wednesday"
  | 4 => "Thursday"
  | 5 => "Friday"
  | _ => "Saturday"

/-- Go `unicode.ToLower` of a rune: `A`-`Z` go to `a`-`z`; U+0130 (LATIN CAPITAL LETTER I WITH
DOT ABOVE) goes to `i` and U+212A (KELVIN SIGN) to `k`, the two runes outside ASCII whose lower
case is an ASCII rune.  Any other rune outside ASCII is kept: Go sends it to a rune outside
ASCII, so the comparison of a lower-cased string with an ASCII string, which is the only use of
`ToLower` in the source, has the same result. -/
def runeToLower (c : Char) : Char :=
  if c.toNat = 0x130 then Char.ofNat 0x69
  else if c.toNat = 0x212A then Char.ofNat 0x6B
  else c.toLower

/-- Go `strings.ToLower`: `unicode.ToLower` on every rune. -/
def toLower (s : String) : String := ⟨s.data.map runeToLower⟩

/-- The test of `strings.EqualFold` on one pair of runes, equality under Unicode simple case
folding, for a pair with at least one ASCII rune: the runes are equal, or they are the two cases
of an ASCII letter, or one is U+212A (KELVIN SIGN) and the other `K` or `k`, or one is U+017F
(LATIN SMALL LETTER LONG S) and the other `S` or `s`; these two are the only runes outside ASCII
that fold to an ASCII rune (U+0130 does not).  Two different runes outside ASCII are reported
different: the source compares with a weekday name only, so no such pair is ever compared. -/
def runeEqualFold (a b : Char) : Bool :=
  a == b
    || (a.isAlpha && b.isAlpha && a.toLower == b.toLower)
    || (a.toNat == 0x212A && b.toLower == Char.ofNat 0x6B)
    || (b.toNat == 0x212A && a.toLower == Char.ofNat 0x6B)
    || (a.toNat == 0x17F && b.toLower == Char.ofNat 0x73)
    || (b.toNat == 0x17F && a.toLower == Char.ofNat 0x73)

/-- The rune-by-rune loop of `strings.EqualFold`: both strings have the same number of runes and
every pair passes the test. -/
def equalFoldRunes : List Char → List Char → Bool
  | [], [] => true
  | a :: s, b :: t => runeEqualFold a b && equalFoldRunes s t
  | _, _ => false

/-- Go `strings.EqualFold`. -/
def EqualFold (a b : String) : Bool := equalFoldRunes a.data b.data

/-- The expression `strings.ToLower(date.Weekday().String())`. -/
def dayOfWeek (date : Int) : String := toLower (weekdayString (Weekday date))

/-! ## Models (`internal/domain/models`, `internal/delivery/dto`) -/

/-- Booking status constants. -/
def BookingStatusPending : String := "pending"

/-- Booking status `confirmed`. -/
def BookingStatusConfirmed : String := "confirmed"

/-- Booking status `cancelled`. -/
def BookingStatusCancelled : String := "cancelled"

/-- Venue status `active`. -/
def VenueStatusActive : String := "active"

/-- One entry of a venue's weekly schedule, `responses.OpenRangeResponse`. -/
structure OpenRangeResponse where
  Day : String
  IsOpen : Bool
  OpenTime : Clock
  CloseTime : Clock
deriving DecidableEq

/-- Row of `venues`.  `OpenRange` is `none` when the column is NULL or is not the JSON of a
list of schedule entries; `Deleted` says that `deleted_at` is set; `OwnerID` is `owner_id`. -/
structure Venue where
  ID : UUID
  Name : String
  Status : String
  OpenRange : Option (List OpenRangeResponse)
  Deleted : Bool
  OwnerID : UUID
deriving DecidableEq

/-- Row of `courts`. -/
structure Court where
  ID : UUID
  VenueID : UUID
  Name : String
  PricePerHour : ℚ
  Status : String
  Deleted : Bool
deriving DecidableEq

/-- Row of `users`. -/
structure User where
  ID : UUID
  Role : String
  Status : String
deriving DecidableEq

/-- Row of `payments`, `models.Payment`. -/
structure Payment where
  ID : UUID
  BookingID : UUID
  UserID : UUID
  Amount : ℚ
  Status : String
  PaymentMethod : String
  TransactionID : Option String
  CreatedAt : Nat
  UpdatedAt : Nat
deriving DecidableEq

/-- The struct `models.CourtBooking`.  `PricePerHour` is a joined field and `Payment` related
data: neither is a column of `court_bookings`, both are filled in by the reading queries. -/
structure CourtBooking where
  ID : UUID
  CourtID : UUID
  UserID : UUID
  Date : Int
  StartTime : Clock
  EndTime : Clock
  TotalAmount : ℚ
  Status : String
  Notes : Option String
  CreatedAt : Nat
  UpdatedAt : Nat
  CancelledAt : Option Nat
  PricePerHour : ℚ
  Payment : Option Payment
deriving DecidableEq

/-- A conflicting booking slot, `responses.BookingSlot`. -/
structure BookingSlot where
  StartTime : Clock
  EndTime : Clock
  Status : String
deriving DecidableEq

/-- The struct `responses.CourtAvailabilityResponse` (the `TimeSlots` field is never set). -/
structure CourtAvailabilityResponse where
  CourtID : UUID
  CourtName : String
  Date : Int
  Available : Bool
  Conflicts : List BookingSlot
deriving DecidableEq

/-- The struct `requests.CheckAvailabilityRequest`; each field holds the result of `uuid.Parse`
or `time.Parse` on the request string, `none` when parsing fails. -/
structure CheckAvailabilityRequest where
  CourtID : Option UUID
  Date : Option Int
  StartTime : Option Clock
  EndTime : Option Clock
deriving DecidableEq

/-- The struct `requests.CreateBookingRequest`, fields parsed as for
`CheckAvailabilityRequest`. -/
structure CreateBookingRequest where
  CourtID : Option UUID
  Date : Option Int
  StartTime : Option Clock
  EndTime : Option Clock
  Notes : Option String
deriving DecidableEq

/-- The database: one list of rows per table. -/
structure DB where
  users : List User
  venues : List Venue
  courts : List Court
  bookings : List CourtBooking
  payments : List Payment
deriving DecidableEq

/-! ## Booking model (`internal/domain/models/booking.go`) -/

/-- Go `t.Sub(u)` for two wall-clock times of the same day, in minutes. -/
def Sub (t u : Clock) : Int := (t : Int) - (u : Int)

/-- The quotient `n / d` of two naturals rounded to the nearest integer, a tie going to the even
one. -/
def roundHalfEven (n d : Nat) : Nat :=
  let q := n / d
  let r := n % d
  if 2 * r < d then q
  else if d < 2 * r then q + 1
  else if q % 2 = 0 then q
  else q + 1

/-- Halving `n` until it is below `2`, at most `fuel` times: the number of halvings. -/
def log2Fuel : Nat → Nat → Nat
  | 0, _ => 0
  | fuel + 1, n => if n < 2 then 0 else log2Fuel fuel (n / 2) + 1

/-- The integer part of the binary logarithm of `n` (`0` for `n = 0`). -/
def log2Floor (n : Nat) : Nat := log2Fuel n n

/-- The binary exponent that float64 uses for the positive rational `n / d`: the `e` with
`2 ^ e <= n / d < 2 ^ (e + 1)`, and `-1022` (the exponent of the subnormal numbers) when that is
smaller. -/
def float64Exponent (n d : Nat) : Int :=
  let e0 : Int := (log2Floor n : Int) - (log2Floor d : Int)
  let e := if n * 2 ^ (-e0).toNat < d * 2 ^ e0.toNat then e0 - 1 else e0
  max e (-1022)

/-- Rounding of a real result to `float64` (IEEE 754 binary64, round to nearest, ties to even),
which every `float64` operation of Go applies to its exact result: the multiple of
`2 ^ (e - 52)` nearest to `x`, where `e` is the exponent of `x`.  A `float64` value is the
rational it denotes.  Results of magnitude `2 ^ 1024` and more, which Go turns into an infinity,
are outside the model. -/
def round64 (x : ℚ) : ℚ :=
  if x = 0 then 0
  else
    let n := x.num.natAbs
    let d := x.den
    let k : Int := 52 - float64Exponent n d
    let m := roundHalfEven (n * 2 ^ k.toNat) (d * 2 ^ (-k).toNat)
    let y : ℚ := mkRat ((m * 2 ^ (-k).toNat : Nat) : Int) (2 ^ k.toNat)
    if x < 0 then -y else y

/-- Go `Duration.Hours()` for a duration given in minutes:
`float64(d / Hour) + float64(d % Hour) / (60 * 60 * 1e9)` on the duration in nanoseconds, with
truncating integer division and every `float64` operation rounded. -/
def Hours (d : Int) : ℚ :=
  let ns : Int := d * 60000000000
  let hour : Int := Int.tdiv ns 3600000000000
  let nsec : Int := Int.tmod ns 3600000000000
  round64 (round64 (hour : ℚ) + round64 (round64 (nsec : ℚ) / 3600000000000))

/-- Go `Time.IsZero()` on a wall-clock time.  A time produced by `time.Parse("15:04", _)` lies
in year 0 and is never the zero time (year 1). -/
def clockIsZero (_t : Clock) : Bool := false

/-- `CourtBooking.Validate`; `now` is `time.Now()` in seconds since the zero time, so that
`now.Truncate(24 * time.Hour)` is the start of day `now / 86400`. -/
def CourtBooking.Validate (b : CourtBooking) (now : Nat) : Outcome Unit :=
  if b.CourtID = uuidNil then .error "court ID is required"
  else if b.UserID = uuidNil then .error "user ID is required"
  else if b.Date = 0 then .error "booking date is required"
  else if clockIsZero b.StartTime || clockIsZero b.EndTime then
    .error "start and end times are required"
  else if b.Date < ((now / 86400 : Nat) : Int) then .error "booking date must be in the future"
  else if b.StartTime > b.EndTime then .error "start time must be before end time"
  else
    let duration := Sub b.EndTime b.StartTime
    if duration < 30 then .error "booking duration must be at least 30 minutes"
    else if duration > 4 * 60 then .error "booking duration cannot exceed 4 hours"
    else if b.TotalAmount ≤ 0 then .error "total amount must be greater than 0"
    else .ok ()

/-- `CourtBooking.CalculateDuration`. -/
def CourtBooking.CalculateDuration (b : CourtBooking) : ℚ :=
  Hours (Sub b.EndTime b.StartTime)

/-- `CourtBooking.CalculateTotalAmount`: the `float64` product. -/
def CourtBooking.CalculateTotalAmount (b : CourtBooking) : ℚ :=
  round64 (b.CalculateDuration * b.PricePerHour)

/-- `CourtBooking.IsOverlapping`. -/
def CourtBooking.IsOverlapping (b other : CourtBooking) : Bool :=
  if b.CourtID ≠ other.CourtID ∨ ¬ (b.Date = other.Date) then false
  else decide (b.StartTime < other.EndTime) && decide (other.StartTime < b.EndTime)

/-! ## Repositories (`internal/repositories/postgres`) -/

/-- The time condition of the `WHERE` clause of `CheckCourtAvailability` and of
`GetAvailableCourts`: `s`, `e` are the row's `start_time`, `end_time`; `a`, `b` are the
parameters `$3`, `$4` (requested start and end). -/
def conflictCondition (s e a b : Clock) : Bool :=
  (decide (s ≤ a) && decide (e > a))
    || (decide (s < b) && decide (e ≥ b))
    || (decide (s ≥ a) && decide (e ≤ b))

/-- Go `time.Date(y, m, d, hour, min, 0, 0, loc)` seen as a wall-clock time. -/
def timeDate (hour min : Nat) : Clock := hour * 60 + min

/-- The four-clause test shared by `CheckCourtAvailability` and `isVenueOpenForBooking`: the
window starts before the schedule opens or ends after it closes, by hour and minute. -/
def outsideOperatingHours (startTime endTime scheduleOpen scheduleClose : Clock) : Bool :=
  decide (Hour startTime < Hour scheduleOpen)
    || (decide (Hour startTime = Hour scheduleOpen)
          && decide (Minute startTime < Minute scheduleOpen))
    || decide (Hour endTime > Hour scheduleClose)
    || (decide (Hour endTime = Hour scheduleClose)
          && decide (Minute endTime > Minute scheduleClose))

/-- `courtRepository.GetCourtWithVenueByID`: the first row of
`courts c JOIN venues v ON v.id = c.venue_id WHERE c.id = $1 AND c.deleted_at IS NULL`. -/
def courtRepository.GetCourtWithVenueByID (db : DB) (id : UUID) : Option Court :=
  ((db.courts.filter (fun c => c.ID == id && !c.Deleted)).flatMap
    (fun c => (db.venues.filter (fun v => v.ID == c.VenueID)).map (fun _ => c))).head?

/-- `venueRepository.GetByID`: the first row of
`venues WHERE id = $1 AND deleted_at IS NULL`. -/
def venueRepository.GetByID (db : DB) (id : UUID) : Option Venue :=
  (db.venues.filter (fun v => v.ID == id && !v.Deleted)).head?

/-- The rows that the join `court_bookings b JOIN courts c ON c.id = b.court_id JOIN venues v
ON v.id = c.venue_id JOIN users u ON u.id = b.user_id` of the reading queries produces for one
booking row, each with the joined price. -/
def bookingJoin (db : DB) (b : CourtBooking) : List CourtBooking :=
  (db.courts.filter (fun c => c.ID == b.CourtID)).flatMap (fun c =>
    (db.venues.filter (fun v => v.ID == c.VenueID)).flatMap (fun _ =>
      (db.users.filter (fun u => u.ID == b.UserID)).map (fun _ =>
        { b with PricePerHour := c.PricePerHour, Payment := none })))

/-- `bookingRepository.GetByID`: the first joined row with the identifier, with its payment
(the first row of `payments WHERE booking_id = $1`), if any.  The source drops an error of the
payment query and returns the booking without payment; the model has no failure of that query
alone: a failing `GetByID` is the whole call returning an error. -/
def bookingRepository.GetByID (db : DB) (id : UUID) : Option CourtBooking :=
  match ((db.bookings.flatMap (bookingJoin db)).filter (fun b => b.ID == id)).head? with
  | none => none
  | some b => some { b with Payment := (db.payments.filter (fun p => p.BookingID == id)).head? }

/-- `bookingRepository.GetCourtBookings`: joined rows of a court and date, by start time. -/
def bookingRepository.GetCourtBookings (db : DB) (courtID : UUID) (date : Int) :
    List CourtBooking :=
  ((db.bookings.flatMap (bookingJoin db)).filter
    (fun b => b.CourtID == courtID && b.Date == date)).insertionSort
    (fun x y => x.StartTime ≤ y.StartTime)

/-- The query `SELECT v.open_range FROM courts c JOIN venues v ON v.id = c.venue_id
WHERE c.id = $1` of `CheckCourtAvailability`: its first row, `none` when there is none. -/
def venueOpenRange (db : DB) (courtID : UUID) : Option (Option (List OpenRangeResponse)) :=
  ((db.courts.filter (fun c => c.ID == courtID)).flatMap
    (fun c => (db.venues.filter (fun v => v.ID == c.VenueID)).map (fun v => v.OpenRange))).head?

/-- The loop over the schedule in `CheckCourtAvailability`: the first entry whose lower-cased
day is the weekday decides; no such entry means closed. -/
def operatingHoursLoop (openRange : List OpenRangeResponse) (dayOfWeek : String)
    (startTime endTime : Clock) : Bool :=
  match openRange with
  | [] => false
  | schedule :: rest =>
    if toLower schedule.Day == dayOfWeek then
      let scheduleOpen := timeDate (Hour schedule.OpenTime) (Minute schedule.OpenTime)
      let scheduleClose := timeDate (Hour schedule.CloseTime) (Minute schedule.CloseTime)
      if outsideOperatingHours startTime endTime scheduleOpen scheduleClose then false
      else true
    else operatingHoursLoop rest dayOfWeek startTime endTime

/-- The count query of `CheckCourtAvailability`: non-cancelled rows of the court and date
whose times satisfy `conflictCondition`. -/
def conflictCount (db : DB) (courtID : UUID) (date : Int) (startTime endTime : Clock) : Nat :=
  (db.bookings.filter (fun b =>
    b.CourtID == courtID && b.Date == date && b.Status != "cancelled"
      && conflictCondition b.StartTime b.EndTime startTime endTime)).length

/-- `bookingRepository.CheckCourtAvailability`, returning Go's pair `(bool, error)`. -/
def bookingRepository.CheckCourtAvailability (db : DB) (courtID : UUID) (date : Int)
    (startTime endTime : Clock) : Bool × Option String :=
  if conflictCount db courtID date startTime endTime > 0 then (false, none)
  else
    match venueOpenRange db courtID with
    | none => (false, some "sql: no rows in result set")
    | some none => (false, some "unexpected end of JSON input")
    | some (some openRange) =>
      (operatingHoursLoop openRange (dayOfWeek date) startTime endTime, none)

/-- `bookingRepository.Create`: the availability check, then the insert. -/
def bookingRepository.Create (db : DB) (booking : CourtBooking) : Outcome Unit × DB :=
  match bookingRepository.CheckCourtAvailability db booking.CourtID booking.Date
      booking.StartTime booking.EndTime with
  | (_, some _) => (.error "error checking availability", db)
  | (false, none) => (.error "court is not available for the requested time", db)
  | (true, none) => (.ok (), { db with bookings := db.bookings ++ [booking] })

/-! ## Booking use case (`internal/usecase/booking/usecase.go`) -/

/-- `useCase.isBookingConflict`. -/
def useCase.isBookingConflict (booking1 booking2 : CourtBooking) : Bool :=
  if booking1.CourtID ≠ booking2.CourtID ∨ ¬ (booking1.Date = booking2.Date) then false
  else decide (booking1.StartTime < booking2.EndTime)
    && decide (booking2.StartTime < booking1.EndTime)

/-- The loop of `isVenueOpenForBooking` (and of `generateTimeSlots`) that looks for the
schedule entry of the day: the pointer `daySchedule`, `none` when it is left nil. -/
def findDaySchedule (openRanges : List OpenRangeResponse) (dayOfWeek : String) :
    Option OpenRangeResponse :=
  match openRanges with
  | [] => none
  | schedule :: rest =>
    if EqualFold schedule.Day dayOfWeek then some schedule
    else findDaySchedule rest dayOfWeek

/-- `useCase.isVenueOpenForBooking`.  The function reads `daySchedule.IsOpen` without testing
the pointer, so a schedule without an entry for the day panics. -/
def useCase.isVenueOpenForBooking (venue : Venue) (date : Int) (startTime endTime : Clock) :
    Outcome Unit :=
  match venue.OpenRange with
  | none => .error "venue open range is invalid"
  | some openRanges =>
    match findDaySchedule openRanges (dayOfWeek date) with
    | none => .panic
    | some daySchedule =>
      if !daySchedule.IsOpen then .error "venue is closed"
      else
        let scheduleOpen := timeDate (Hour daySchedule.OpenTime) (Minute daySchedule.OpenTime)
        let scheduleClose :=
          timeDate (Hour daySchedule.CloseTime) (Minute daySchedule.CloseTime)
        if outsideOperatingHours startTime endTime scheduleOpen scheduleClose then
          .error "booking must be within venue operating hours"
        else .ok ()

/-- `useCase.CheckAvailability`. -/
def useCase.CheckAvailability (db : DB) (req : CheckAvailabilityRequest) :
    Outcome CourtAvailabilityResponse :=
  match req.CourtID with
  | none => .error "invalid court ID"
  | some courtID =>
  match req.Date with
  | none => .error "invalid date format"
  | some date =>
  match req.StartTime with
  | none => .error "invalid start time format"
  | some startTime =>
  match req.EndTime with
  | none => .error "invalid end time format"
  | some endTime =>
  match courtRepository.GetCourtWithVenueByID db courtID with
  | none => .error "court not found"
  | some court =>
  match bookingRepository.CheckCourtAvailability db courtID date startTime endTime with
  | (_, some _) => .error "failed to check availability"
  | (available, none) =>
    let bookings := bookingRepository.GetCourtBookings db courtID date
    let conflicts := (bookings.filter (fun booking => booking.Status != BookingStatusCancelled)).map
      (fun booking => BookingSlot.mk booking.StartTime booking.EndTime booking.Status)
    .ok { CourtID := courtID, CourtName := court.Name, Date := date,
          Available := available, Conflicts := conflicts }

/-- `useCase.CreateBooking`; `now` is `time.Now()`, `newID` the result of `uuid.New()`.
Returns the outcome and the database after the call. -/
def useCase.CreateBooking (db : DB) (now : Nat) (newID userID : UUID)
    (req : CreateBookingRequest) : Outcome CourtBooking × DB :=
  match req.CourtID with
  | none => (.error "invalid court ID", db)
  | some courtID =>
  match courtRepository.GetCourtWithVenueByID db courtID with
  | none => (.error "court not found", db)
  | some court =>
  match venueRepository.GetByID db court.VenueID with
  | none => (.error "venue not found", db)
  | some venue =>
  if venue.Status ≠ VenueStatusActive then (.error "venue is not active", db) else
  match req.Date with
  | none => (.error "invalid date format", db)
  | some date =>
  match req.StartTime with
  | none => (.error "invalid start time format", db)
  | some startTime =>
  match req.EndTime with
  | none => (.error "invalid end time format", db)
  | some endTime =>
  match useCase.isVenueOpenForBooking venue date startTime endTime with
  | .panic => (.panic, db)
  | .error msg => (.error msg, db)
  | .ok _ =>
  match bookingRepository.CheckCourtAvailability db courtID date startTime endTime with
  | (_, some _) => (.error "failed to check availability", db)
  | (false, none) => (.error "court is not available for the selected time slot", db)
  | (true, none) =>
    let duration := Sub endTime startTime
    let hours := Hours duration
    let totalAmount := round64 (hours * court.PricePerHour)
    let booking : CourtBooking :=
      { ID := newID, CourtID := courtID, UserID := userID, Date := date,
        StartTime := startTime, EndTime := endTime, TotalAmount := totalAmount,
        Status := BookingStatusPending, Notes := req.Notes, CreatedAt := now,
        UpdatedAt := now, CancelledAt := none, PricePerHour := 0, Payment := none }
    match booking.Validate now with
    | .panic => (.panic, db)
    | .error msg => (.error ("invalid booking: " ++ msg), db)
    | .ok _ =>
      match bookingRepository.Create db booking with
      | (.panic, db1) => (.panic, db1)
      | (.error msg, db1) => (.error ("failed to create booking: " ++ msg), db1)
      | (.ok _, db1) =>
        match bookingRepository.GetByID db1 booking.ID with
        | none => (.error "failed to get booking details", db1)
        | some bookingDetail => (.ok bookingDetail, db1)

/-! ## Payments and booking lifecycle

The operations below take a fault oracle: `faults k` says that the `k`-th repository call of
the operation (counted from `0` in the order of the source) fails with a persistence error and
has no effect.  `noFaults` is working persistence. -/

/-- Payment status `pending`. -/
def PaymentStatusPending : String := "pending"

/-- Payment status `completed`. -/
def PaymentStatusCompleted : String := "completed"

/-- Payment status `failed`. -/
def PaymentStatusFailed : String := "failed"

/-- Payment status `refunded`. -/
def PaymentStatusRefunded : String := "refunded"

/-- Payment method `cash`. -/
def PaymentMethodCash : String := "cash"

/-- User role `admin`. -/
def UserRoleAdmin : String := "admin"

/-- User status `inactive`. -/
def UserStatusInactive : String := "inactive"

/-- The struct `responses.PaymentResponse`. -/
structure PaymentResponse where
  ID : UUID
  Amount : ℚ
  Status : String
  PaymentMethod : String
  TransactionID : String
  CreatedAt : Nat
  UpdatedAt : Nat
deriving DecidableEq

/-- The struct `requests.CreatePaymentRequest`. -/
structure CreatePaymentRequest where
  PaymentMethod : String
  Amount : ℚ
  TransactionID : Option String
deriving DecidableEq

/-- The struct `requests.UpdatePaymentRequest`. -/
structure UpdatePaymentRequest where
  PaymentMethod : String
  Status : String
deriving DecidableEq

/-- The struct `requests.UpdateBookingRequest`. -/
structure UpdateBookingRequest where
  Status : String
  Notes : Option String
deriving DecidableEq

/-- Fault oracle of one operation: which of its repository calls fail. -/
abbrev Faults := Nat → Bool

/-- Working persistence: no repository call fails. -/
def noFaults : Faults := fun _ => false

/-- `CourtBooking.CanBeCancelled`. -/
def CourtBooking.CanBeCancelled (b : CourtBooking) : Bool :=
  if b.Status = BookingStatusCancelled ∨ b.Status = BookingStatusConfirmed then false
  else true

/-- `userRepository.GetByID`: the first row of `users WHERE id = $1 AND status != 'inactive'`. -/
def userRepository.GetByID (db : DB) (id : UUID) : Option User :=
  (db.users.filter (fun u => u.ID == id && u.Status != UserStatusInactive)).head?

/-- The effect of the `UPDATE court_bookings SET status, notes, updated_at WHERE id = :id` of
`bookingRepository.Update` on one row. -/
def updateRow (booking : CourtBooking) (b : CourtBooking) : CourtBooking :=
  if b.ID == booking.ID then
    { b with Status := booking.Status, Notes := booking.Notes, UpdatedAt := booking.UpdatedAt }
  else b

/-- `bookingRepository.Update`: only status, notes and updated_at are written; no row with the
identifier is the error "booking not found". -/
def bookingRepository.Update (db : DB) (booking : CourtBooking) : Outcome Unit × DB :=
  if (db.bookings.filter (fun b => b.ID == booking.ID)).length = 0 then
    (.error "booking not found", db)
  else (.ok (), { db with bookings := db.bookings.map (updateRow booking) })

/-- The effect of the `UPDATE court_bookings SET status = 'cancelled', cancelled_at = NOW(),
updated_at = NOW() WHERE id = $1` of `bookingRepository.CancelBooking` on one row. -/
def cancelRow (now : Nat) (id : UUID) (b : CourtBooking) : CourtBooking :=
  if b.ID == id then
    { b with Status := "cancelled", CancelledAt := some now, UpdatedAt := now }
  else b

/-- `bookingRepository.CancelBooking`; `now` is the database's `NOW()`. -/
def bookingRepository.CancelBooking (db : DB) (now : Nat) (id : UUID) : Outcome Unit × DB :=
  if (db.bookings.filter (fun b => b.ID == id)).length = 0 then
    (.error "booking not found", db)
  else (.ok (), { db with bookings := db.bookings.map (cancelRow now id) })

/-- `bookingRepository.GetPayment`: the first row of `payments WHERE booking_id = $1`. -/
def bookingRepository.GetPayment (db : DB) (bookingID : UUID) : Option Payment :=
  (db.payments.filter (fun p => p.BookingID == bookingID)).head?

/-- `bookingRepository.CreatePayment`: the insert. -/
def bookingRepository.CreatePayment (db : DB) (payment : Payment) : Outcome Unit × DB :=
  (.ok (), { db with payments := db.payments ++ [payment] })

/-- The effect of the `UPDATE payments SET status, payment_method, updated_at WHERE id = :id`
of `bookingRepository.UpdatePayment` on one row. -/
def updatePaymentRow (payment : Payment) (p : Payment) : Payment :=
  if p.ID == payment.ID then
    { p with Status := payment.Status, PaymentMethod := payment.PaymentMethod,
             UpdatedAt := payment.UpdatedAt }
  else p

/-- `bookingRepository.UpdatePayment`. -/
def bookingRepository.UpdatePayment (db : DB) (payment : Payment) : Outcome Unit × DB :=
  if (db.payments.filter (fun p => p.ID == payment.ID)).length = 0 then
    (.error "payment not found", db)
  else (.ok (), { db with payments := db.payments.map (updatePaymentRow payment) })

/-- The `responses.PaymentResponse` literal that ends `CreatePayment`, `UpdatePayment` and
`GetPayment`: it reads `*payment.TransactionID`, a panic when the pointer is nil. -/
def paymentResponse (payment : Payment) : Outcome PaymentResponse :=
  match payment.TransactionID with
  | none => .panic
  | some transactionID =>
    .ok { ID := payment.ID, Amount := payment.Amount, Status := payment.Status,
          PaymentMethod := payment.PaymentMethod, TransactionID := transactionID,
          CreatedAt := payment.CreatedAt, UpdatedAt := payment.UpdatedAt }

/-- `useCase.UpdateBooking`.  Repository calls: 0 `GetByID`, 1 `Update`. -/
def useCase.UpdateBooking (faults : Faults) (db : DB) (now : Nat) (id : UUID)
    (req : UpdateBookingRequest) : Outcome CourtBooking × DB :=
  match (if faults 0 then none else bookingRepository.GetByID db id) with
  | none => (.error "booking not found", db)
  | some booking =>
    if booking.Status = BookingStatusCancelled then
      (.error "cannot update cancelled booking", db)
    else if booking.Status = BookingStatusConfirmed then
      (.error "cannot update confirm booking", db)
    else
      let booking := if req.Status ≠ "" then { booking with Status := req.Status } else booking
      let booking := if req.Notes.isSome then { booking with Notes := req.Notes } else booking
      let booking := { booking with UpdatedAt := now }
      match (if faults 1 then (.error "persistence failure", db)
             else bookingRepository.Update db booking) with
      | (.panic, db1) => (.panic, db1)
      | (.error msg, db1) => (.error ("failed to update booking: " ++ msg), db1)
      | (.ok _, db1) => (.ok booking, db1)

/-- `useCase.CancelBooking`.  Repository calls: 0 `bookingRepo.GetByID`, 1 `userRepo.GetByID`,
2 `CancelBooking`, 3 `UpdatePayment`. -/
def useCase.CancelBooking (faults : Faults) (db : DB) (now : Nat) (id userID : UUID) :
    Outcome Unit × DB :=
  match (if faults 0 then none else bookingRepository.GetByID db id) with
  | none => (.error "booking not found", db)
  | some booking =>
    match (if faults 1 then none else userRepository.GetByID db userID) with
    | none => (.error "user not found", db)
    | some user =>
      if booking.UserID ≠ userID ∧ user.Role ≠ UserRoleAdmin then
        (.error "unauthorized to cancel this booking", db)
      else if !booking.CanBeCancelled then (.error "booking cannot be cancelled", db)
      else
        match (if faults 2 then (.error "persistence failure", db)
               else bookingRepository.CancelBooking db now id) with
        | (.panic, db1) => (.panic, db1)
        | (.error msg, db1) => (.error ("failed to cancel booking: " ++ msg), db1)
        | (.ok _, db1) =>
          match booking.Payment with
          | none => (.ok (), db1)
          | some payment =>
            if payment.Status = PaymentStatusCompleted then
              match (if faults 3 then (.error "persistence failure", db1)
                     else bookingRepository.UpdatePayment db1
                       { payment with Status := PaymentStatusRefunded, UpdatedAt := now }) with
              | (.panic, db2) => (.panic, db2)
              | (.error msg, db2) => (.error ("failed to update payment status: " ++ msg), db2)
              | (.ok _, db2) => (.ok (), db2)
            else (.ok (), db1)

/-- `useCase.CreatePayment`; `newID` is the result of `uuid.New()`.  Repository calls:
0 `GetByID`, 1 `CreatePayment`, 2 `Update` (only made for a method other than cash). -/
def useCase.CreatePayment (faults : Faults) (db : DB) (now : Nat)
    (newID bookingID userID : UUID) (req : CreatePaymentRequest) :
    Outcome PaymentResponse × DB :=
  match (if faults 0 then none else bookingRepository.GetByID db bookingID) with
  | none => (.error "booking not found", db)
  | some booking =>
    if booking.Status ≠ BookingStatusPending then
      (.error "booking is not in pending state", db)
    else if booking.Payment.isSome then
      (.error "payment already exists for this booking", db)
    else if req.Amount ≠ booking.TotalAmount then
      (.error "payment amount does not match booking amount", db)
    else
      let payment : Payment :=
        { ID := newID, BookingID := bookingID, UserID := userID, Amount := req.Amount,
          Status := PaymentStatusPending, PaymentMethod := req.PaymentMethod,
          TransactionID := req.TransactionID, CreatedAt := now, UpdatedAt := now }
      match (if faults 1 then (.error "persistence failure", db)
             else bookingRepository.CreatePayment db payment) with
      | (.panic, db1) => (.panic, db1)
      | (.error msg, db1) => (.error ("failed to create payment: " ++ msg), db1)
      | (.ok _, db1) =>
        match (if payment.PaymentMethod ≠ PaymentMethodCash then
                 (if faults 2 then (.error "persistence failure", db1)
                  else bookingRepository.Update db1
                    { booking with Status := BookingStatusConfirmed, UpdatedAt := now })
               else (.ok (), db1)) with
        | (.panic, db2) => (.panic, db2)
        | (.error msg, db2) => (.error ("failed to update booking status: " ++ msg), db2)
        | (.ok _, db2) =>
          match paymentResponse payment with
          | .panic => (.panic, db2)
          | .error msg => (.error msg, db2)
          | .ok resp => (.ok resp, db2)

/-- `useCase.handlePaymentStatus`.  Repository calls: 0 `GetByID`, 1 `Update`. -/
def useCase.handlePaymentStatus (faults : Faults) (db : DB) (now : Nat) (bookingID : UUID)
    (paymentStatus : String) : Outcome Unit × DB :=
  match (if faults 0 then none else bookingRepository.GetByID db bookingID) with
  | none => (.error "booking not found", db)
  | some booking =>
    let booking :=
      if paymentStatus = PaymentStatusCompleted then
        { booking with Status := BookingStatusConfirmed }
      else if paymentStatus = PaymentStatusFailed then
        { booking with Status := BookingStatusPending }
      else if paymentStatus = PaymentStatusRefunded then
        { booking with Status := BookingStatusCancelled, CancelledAt := some now }
      else booking
    let booking := { booking with UpdatedAt := now }
    match (if faults 1 then (.error "persistence failure", db)
           else bookingRepository.Update db booking) with
    | (.panic, db1) => (.panic, db1)
    | (.error msg, db1) => (.error ("failed to update booking status: " ++ msg), db1)
    | (.ok _, db1) => (.ok (), db1)

/-- `useCase.UpdatePayment`; `id` is the identifier that the route passes, the booking's, which
`GetPayment` matches against `booking_id`.  Repository calls: 0 `GetPayment`,
1 `UpdatePayment`, 2 and 3 the two calls of `handlePaymentStatus`. -/
def useCase.UpdatePayment (faults : Faults) (db : DB) (now : Nat) (id userID : UUID)
    (req : UpdatePaymentRequest) : Outcome PaymentResponse × DB :=
  match (if faults 0 then none else bookingRepository.GetPayment db id) with
  | none => (.error "payment not found", db)
  | some payment =>
    if payment.UserID ≠ userID then (.error "unauthorized to update this payment", db)
    else if payment.Status ≠ PaymentStatusPending then (.error "payment already completed", db)
    else
      let payment := if req.Status ≠ "" then { payment with Status := req.Status } else payment
      let payment := { payment with UpdatedAt := now }
      match (if faults 1 then (.error "persistence failure", db)
             else bookingRepository.UpdatePayment db payment) with
      | (.panic, db1) => (.panic, db1)
      | (.error msg, db1) => (.error ("failed to update payment: " ++ msg), db1)
      | (.ok _, db1) =>
        match useCase.handlePaymentStatus (fun k => faults (k + 2)) db1 now payment.BookingID
            payment.Status with
        | (.panic, db2) => (.panic, db2)
        | (.error msg, db2) => (.error ("failed to update booking status: " ++ msg), db2)
        | (.ok _, db2) =>
          match paymentResponse payment with
          | .panic => (.panic, db2)
          | .error msg => (.error msg, db2)
          | .ok resp => (.ok resp, db2)

/-! ## Sequences of operations -/

/-- One call of the booking use case, with its arguments and fault oracle. -/
inductive Op where
  | createBooking (now : Nat) (newID userID : UUID) (req : CreateBookingRequest)
  | updateBooking (faults : Faults) (now : Nat) (id : UUID) (req : UpdateBookingRequest)
  | cancelBooking (faults : Faults) (now : Nat) (id userID : UUID)
  | createPayment (faults : Faults) (now : Nat) (newID bookingID userID : UUID)
      (req : CreatePaymentRequest)
  | updatePayment (faults : Faults) (now : Nat) (id userID : UUID) (req : UpdatePaymentRequest)

/-- The database after one call, whatever the call returned. -/
def step (db : DB) : Op → DB
  | .createBooking now newID userID req => (useCase.CreateBooking db now newID userID req).2
  | .updateBooking faults now id req => (useCase.UpdateBooking faults db now id req).2
  | .cancelBooking faults now id userID => (useCase.CancelBooking faults db now id userID).2
  | .createPayment faults now newID bookingID userID req =>
    (useCase.CreatePayment faults db now newID bookingID userID req).2
  | .updatePayment faults now id userID req =>
    (useCase.UpdatePayment faults db now id userID req).2

/-- The database after a sequence of calls. -/
def run (db : DB) (ops : List Op) : DB := ops.foldl step db

/-! ## Listing bookings (`bookingRepository.List`, `Count`, `useCase.ListBookings`) -/

/-- A request string that the use case parses: empty, not parsable, or parsed. -/
inductive Parsed (α : Type) where
  | empty
  | invalid
  | value (v : α)
deriving DecidableEq

/-- A value of the Go map `map[string]interface{}` of filters, with its dynamic type:
`uuid.UUID`, `time.Time`, `models.BookingStatus`, or `string`.  A `string` is either a text or
the text of a date in the layout `2006-01-02`. -/
inductive FilterValue where
  | uuid (u : UUID)
  | time (date : Int)
  | bookingStatus (s : String)
  | string (s : String)
  | dateString (date : Int)
deriving DecidableEq

/-- The filter map, latest assignment first. -/
abbrev Filters := List (String × FilterValue)

/-- Go `filters[key] = v`. -/
def Filters.set (filters : Filters) (key : String) (v : FilterValue) : Filters :=
  (key, v) :: filters.filter (fun e => e.1 != key)

/-- Go `filters[key]`, `none` when the key is absent. -/
def Filters.get (filters : Filters) (key : String) : Option FilterValue :=
  (filters.find? (fun e => e.1 == key)).map (fun e => e.2)

/-- Go `v, ok := filters[key].(uuid.UUID)`. -/
def Filters.getUUID (filters : Filters) (key : String) : Option UUID :=
  match filters.get key with
  | some (.uuid u) => some u
  | _ => none

/-- Go `v, ok := filters[key].(string)`: succeeds only when the dynamic type is `string`; a
value of type `models.BookingStatus` does not pass the assertion. -/
def Filters.getString (filters : Filters) (key : String) : Option FilterValue :=
  match filters.get key with
  | some (.string s) => some (.string s)
  | some (.dateString d) => some (.dateString d)
  | _ => none

/-- Go `v, ok := filters[key].(time.Time)`. -/
def Filters.getTime (filters : Filters) (key : String) : Option Int :=
  match filters.get key with
  | some (.time d) => some d
  | _ => none

/-- The struct `requests.ListBookingsRequest`. -/
structure ListBookingsRequest where
  CourtID : Parsed UUID
  VenueID : Parsed UUID
  DateFrom : Parsed Int
  DateTo : Parsed Int
  Status : String
  Limit : Int
  Offset : Int
deriving DecidableEq

/-- The struct `responses.BookingListResponse`. -/
structure BookingListResponse where
  Bookings : List CourtBooking
  Total : Int
  Limit : Int
  Offset : Int
deriving DecidableEq

/-- The rows of `users u JOIN venues v ON v.owner_id = u.id JOIN courts c ON c.venue_id = v.id
JOIN court_bookings cb ON cb.court_id = c.id`, with the `venue_id` and user conditions of
`List` and `Count`; each row carries the owner, the venue and the booking with its joined
price. -/
def listJoin (db : DB) (userID : UUID) (filters : Filters) : List CourtBooking :=
  (db.users.filter (fun u => userID == uuidNil || u.ID == userID)).flatMap (fun u =>
    (db.venues.filter (fun v => v.OwnerID == u.ID
        && (match filters.getUUID "venue_id" with
            | some venueID => v.ID == venueID
            | none => true))).flatMap (fun v =>
      (db.courts.filter (fun c => c.VenueID == v.ID)).flatMap (fun c =>
        (db.bookings.filter (fun cb => cb.CourtID == c.ID)).map (fun cb =>
          { cb with PricePerHour := c.PricePerHour, Payment := none }))))

/-- `bookingRepository.List`.  The `court_id` condition is written on the alias `b`, which the
query does not define, so a query with that filter is an SQL error.  `LIMIT` and `OFFSET` are
added when positive; the payment of each row is attached. -/
def bookingRepository.List (db : DB) (userID : UUID) (filters : Filters) (limit offset : Int) :
    Outcome (List CourtBooking) :=
  match filters.getUUID "court_id" with
  | some _ => .error "missing FROM-clause entry for table b"
  | none =>
    match filters.getString "date" with
    | some (.string _) => .error "invalid input syntax for type date"
    | dateFilter =>
      let rows := (listJoin db userID filters).filter (fun cb =>
        (match dateFilter with
          | some (.dateString d) => cb.Date == d
          | _ => true)
        && (match filters.getString "status" with
          | some (.string s) => cb.Status == s
          | some _ => false
          | none => true))
      let rows := if offset > 0 then rows.drop offset.toNat else rows
      let rows := if limit > 0 then rows.take limit.toNat else rows
      .ok (rows.map (fun b =>
        { b with Payment := (db.payments.filter (fun p => p.BookingID == b.ID)).head? }))

/-- `bookingRepository.Count`.  Its `court_id`, `date` and `status` conditions are all written
on the undefined alias `b`. -/
def bookingRepository.Count (db : DB) (userID : UUID) (filters : Filters) : Outcome Int :=
  match filters.getUUID "court_id" with
  | some _ => .error "missing FROM-clause entry for table b"
  | none =>
    match filters.getTime "date" with
    | some _ => .error "missing FROM-clause entry for table b"
    | none =>
      match filters.getString "status" with
      | some _ => .error "missing FROM-clause entry for table b"
      | none => .ok ((listJoin db userID filters).length : Int)

/-- `useCase.ListBookings`. -/
def useCase.ListBookings (db : DB) (userID : UUID) (req : ListBookingsRequest) :
    Outcome BookingListResponse :=
  let filters : Filters := []
  match req.CourtID with
  | .invalid => .error "invalid court ID"
  | courtID =>
  let filters := match courtID with
    | .value id => filters.set "court_id" (.uuid id)
    | _ => filters
  match req.VenueID with
  | .invalid => .error "invalid venue ID"
  | venueID =>
  let filters := match venueID with
    | .value id => filters.set "venue_id" (.uuid id)
    | _ => filters
  match req.DateFrom with
  | .invalid => .error "invalid date_from format"
  | dateFrom =>
  let filters := match dateFrom with
    | .value d => filters.set "date_from" (.time d)
    | _ => filters
  match req.DateTo with
  | .invalid => .error "invalid date_to format"
  | dateTo =>
  let filters := match dateTo with
    | .value d => filters.set "date_to" (.time d)
    | _ => filters
  let filters :=
    if req.Status ≠ "" then filters.set "status" (.bookingStatus req.Status) else filters
  let limit := if req.Limit > 0 ∧ req.Limit ≤ 100 then req.Limit else 10
  let offset := if req.Offset > 0 then req.Offset else 0
  match bookingRepository.Count db userID filters with
  | .panic => .panic
  | .error msg => .error ("failed to get total count: " ++ msg)
  | .ok total =>
    match bookingRepository.List db userID filters limit offset with
    | .panic => .panic
    | .error msg => .error ("failed to list bookings: " ++ msg)
    | .ok bookings =>
      .ok { Bookings := bookings, Total := total, Limit := limit, Offset := offset }

/-! ## The reconciliation tick (`useCase.ChangeCourtStatus`) -/

/-- Court status `available`. -/
def CourtStatusAvailable : String := "available"

/-- Court status `occupied`. -/
def CourtStatusOccupied : String := "occupied"

/-- Court status `maintenance`. -/
def CourtStatusMaintenance : String := "maintenance"

/-- The row update of `UPDATE courts SET status = $1 WHERE id = $2 AND deleted_at IS NULL`. -/
def setCourtStatus (id : UUID) (status : String) (c : Court) : Court :=
  if c.ID == id && !c.Deleted then { c with Status := status } else c

/-- `courtRepository.UpdateStatus`: `none` is the error `court not found` of an update that
affects no row. -/
def courtRepository.UpdateStatus (db : DB) (id : UUID) (status : String) : Option DB :=
  if db.courts.any (fun c => c.ID == id && !c.Deleted) then
    some { db with courts := db.courts.map (setCourtStatus id status) }
  else none

/-- `courtRepository.List` without filters and without pagination: the rows of
`courts c JOIN venues v ON v.id = c.venue_id WHERE c.deleted_at IS NULL`, in stored order (the
ordering by creation time is not modelled). -/
def courtRepository.List (db : DB) : List Court :=
  (db.courts.filter (fun c => !c.Deleted)).flatMap (fun c =>
    (db.venues.filter (fun v => v.ID == c.VenueID)).map (fun _ => c))

/-- The offset of `time.FixedZone("ICT", 7*3600)`, in seconds east of UTC. -/
def thailandTZ : Int := 7 * 3600

/-- Go `time.Date(y, m, d, hour, minute, 0, 0, zone)` for the day `date` and the wall clock
`clock`, as an instant in nanoseconds since 0001-01-01T00:00:00Z. -/
def dateIn (date : Int) (clock : Clock) (zone : Int) : Int :=
  ((date * 1440 + (clock : Int)) * 60 - zone) * 1000000000

/-- The calendar day of the instant `now` (nanoseconds since the zero time) in a zone `zone`
seconds east of UTC: the day that `time.Now().Format("2006-01-02")` prints. -/
def localDate (now zone : Int) : Int :=
  (now / 1000000000 + zone) / 86400

/-- The test `currentTime.After(startTime) && currentTime.Before(endTime)` of the tick. -/
def isActive (now : Int) (b : CourtBooking) : Bool :=
  decide (dateIn b.Date b.StartTime thailandTZ < now)
    && decide (now < dateIn b.Date b.EndTime thailandTZ)

/-- The first loop of `ChangeCourtStatus`: every booking that is active now has its court
set to `occupied` and recorded in `occupiedCourts`.  `k` counts the repository calls made so
far; the result is the error (if any), the call count, the occupied courts and the store. -/
def occupyLoop (faults : Faults) (now : Int) :
    List CourtBooking → Nat → List UUID → DB → Option String × Nat × List UUID × DB
  | [], k, occupiedCourts, db => (none, k, occupiedCourts, db)
  | booking :: rest, k, occupiedCourts, db =>
    if isActive now booking then
      if faults k then
        (some "failed to update court status to occupied", k + 1, occupiedCourts, db)
      else
        match courtRepository.UpdateStatus db booking.CourtID CourtStatusOccupied with
        | none =>
          (some "failed to update court status to occupied: court not found", k + 1,
            occupiedCourts, db)
        | some db1 => occupyLoop faults now rest (k + 1) (booking.CourtID :: occupiedCourts) db1
    else occupyLoop faults now rest k occupiedCourts db

/-- The second loop of `ChangeCourtStatus`: every listed court that is not in
`occupiedCourts` is set to `available`. -/
def releaseLoop (faults : Faults) (occupiedCourts : List UUID) :
    List Court → Nat → DB → Option String × DB
  | [], _, db => (none, db)
  | court :: rest, k, db =>
    if occupiedCourts.contains court.ID then releaseLoop faults occupiedCourts rest k db
    else if faults k then (some "failed to update court status to available", db)
    else
      match courtRepository.UpdateStatus db court.ID CourtStatusAvailable with
      | none => (some "failed to update court status to available: court not found", db)
      | some db1 => releaseLoop faults occupiedCourts rest (k + 1) db1

/-- `useCase.ChangeCourtStatus` at the instant `now`, on a server whose local zone is `zone`
seconds east of UTC.  Both readings of the clock in the source are taken to be `now`. -/
def useCase.ChangeCourtStatus (faults : Faults) (db : DB) (now zone : Int) :
    Outcome Unit × DB :=
  let filters : Filters := []
  let filters := filters.set "status" (.string BookingStatusConfirmed)
  let filters := filters.set "date" (.dateString (localDate now zone))
  if faults 0 then (.error "failed to get all bookings", db)
  else
    match bookingRepository.List db uuidNil filters 0 0 with
    | .panic => (.panic, db)
    | .error msg => (.error ("failed to get all bookings: " ++ msg), db)
    | .ok bookings =>
      match occupyLoop faults now bookings 1 [] db with
      | (some msg, _, _, db1) => (.error msg, db1)
      | (none, k, occupiedCourts, db1) =>
        if faults k then (.error "failed to list all courts", db1)
        else
          match releaseLoop faults occupiedCourts (courtRepository.List db1) (k + 1) db1 with
          | (some msg, db2) => (.error msg, db2)
          | (none, db2) => (.ok (), db2)

/-! ## Example data -/

/-- A venue open on Mondays from 08:00 to 22:00. -/
def venueA : Venue :=
  { ID := 1, Name := "Arena", Status := "active", Deleted := false, OwnerID := 7,
    OpenRange := some [{ Day := "Monday", IsOpen := true, OpenTime := 480, CloseTime := 1320 }] }

/-- Court 10 of `venueA`, 100 per hour. -/
def courtC : Court :=
  { ID := 10, VenueID := 1, Name := "C", PricePerHour := 100, Status := "available",
    Deleted := false }

/-- An instant of day 738877, in seconds since the zero time. -/
def nowA : Nat := 63839000000

/-- A booking of court 10 on day 738885 (a Monday), 14:00 to 16:00, pending. -/
def bookingW1 : CourtBooking :=
  { ID := 100, CourtID := 10, UserID := 7, Date := 738885, StartTime := 840, EndTime := 960,
    TotalAmount := 200, Status := "pending", Notes := none, CreatedAt := nowA,
    UpdatedAt := nowA, CancelledAt := none, PricePerHour := 0, Payment := none }

/-- The request of scenario A: court 10, a Monday, 14:00 to 16:00. -/
def requestA : CreateBookingRequest :=
  { CourtID := some 10, Date := some 738885, StartTime := some 840, EndTime := some 960,
    Notes := none }

/-- The database of scenario A before any booking. -/
def dbA : DB :=
  { users := [{ ID := 7, Role := "player", Status := "active" }], venues := [venueA], courts := [courtC],
    bookings := [], payments := [] }

/-- The database of scenario B: `dbA` with `bookingW1` stored. -/
def dbB : DB := { dbA with bookings := [bookingW1] }

/-- A venue whose Monday entry carries 08:00 to 22:00 with the open flag off. -/
def venueClosedMonday : Venue :=
  { ID := 1, Name := "Arena", Status := "active", Deleted := false, OwnerID := 7,
    OpenRange := some [{ Day := "Monday", IsOpen := false, OpenTime := 480, CloseTime := 1320 }] }

/-- The database `dbA` with `venueClosedMonday` in place of `venueA`. -/
def dbClosedMonday : DB := { dbA with venues := [venueClosedMonday] }

/-- A venue with a valid, empty schedule. -/
def venueNoSchedule : Venue := { venueA with OpenRange := some [] }

/-- The database `dbA` with `venueNoSchedule` in place of `venueA`. -/
def dbNoSchedule : DB := { dbA with venues := [venueNoSchedule] }

/-- A card payment request for the amount of `bookingW1`, with a transaction identifier. -/
def requestCard : CreatePaymentRequest :=
  { PaymentMethod := "card", Amount := 200, TransactionID := some "tx-1" }

/-- A cash payment request for the amount of `bookingW1`, with a transaction identifier. -/
def requestCash : CreatePaymentRequest :=
  { PaymentMethod := "cash", Amount := 200, TransactionID := some "tx-2" }

/-- The card request without the optional transaction identifier. -/
def requestCardNoTx : CreatePaymentRequest := { requestCard with TransactionID := none }

/-- The pending cash payment of `bookingW1`, identifier 500, made by user 7. -/
def paymentP : Payment :=
  { ID := 500, BookingID := 100, UserID := 7, Amount := 200, Status := "pending",
    PaymentMethod := "cash", TransactionID := some "tx-2", CreatedAt := nowA,
    UpdatedAt := nowA }

/-- The database `dbB` with the pending cash payment `paymentP`. -/
def dbP : DB := { dbB with payments := [paymentP] }

/-- The fault oracle under which only the call of index 2 fails. -/
def failThird : Faults := fun k => k == 2

/-! ## Auxiliary definitions for the proofs -/

/-- The record update that the join applies to a booking row: the joined price, no payment. -/
def withJoin (p : ℚ) (b : CourtBooking) : CourtBooking :=
  { b with PricePerHour := p, Payment := none }

/-- The record update by which `GetByID` attaches the payment. -/
def withPayment (pay : Option Payment) (b : CourtBooking) : CourtBooking :=
  { b with Payment := pay }

/-- The number of payment rows of a booking. -/
def paymentCount (db : DB) (bookingID : UUID) : Nat :=
  (db.payments.filter (fun p => p.BookingID == bookingID)).length

/-- The payment that `CreatePayment` builds. -/
def newPayment (now : Nat) (newID bookingID userID : UUID) (req : CreatePaymentRequest) :
    Payment :=
  { ID := newID, BookingID := bookingID, UserID := userID, Amount := req.Amount,
    Status := PaymentStatusPending, PaymentMethod := req.PaymentMethod,
    TransactionID := req.TransactionID, CreatedAt := now, UpdatedAt := now }

/-- The database `dbB` after the card payment `requestCard` of `bookingW1`: the payment is
stored and the booking confirmed. -/
def dbCard : DB :=
  { dbB with
    bookings := [{ bookingW1 with Status := "confirmed" }],
    payments := [newPayment nowA 500 100 7 requestCard] }

/-- The response to the card payment `requestCard`. -/
def respCard : PaymentResponse :=
  { ID := 500, Amount := 200, Status := "pending", PaymentMethod := "card",
    TransactionID := "tx-1", CreatedAt := nowA, UpdatedAt := nowA }

/-- The booking that `UpdateBooking` hands to `Update`: the one read, with the requested
status and notes when given, and the new update time. -/
def updatedBooking (now : Nat) (req : UpdateBookingRequest) (booking : CourtBooking) :
    CourtBooking :=
  { (if req.Notes.isSome then
      { (if req.Status ≠ "" then { booking with Status := req.Status } else booking) with
        Notes := req.Notes }
     else (if req.Status ≠ "" then { booking with Status := req.Status } else booking)) with
    UpdatedAt := now }

/-- An update request that sets the notes and leaves the status field empty. -/
def requestNotes : UpdateBookingRequest := { Status := "", Notes := some "bring shuttles" }

/-- The payment that `UpdatePayment` hands to the repository: the one read, with the requested
status when one is given, and the new update time. -/
def updatedPayment (now : Nat) (req : UpdatePaymentRequest) (payment : Payment) : Payment :=
  { (if req.Status ≠ "" then { payment with Status := req.Status } else payment) with
    UpdatedAt := now }

/-- The booking that `handlePaymentStatus` hands to `Update`. -/
def statusBooking (now : Nat) (paymentStatus : String) (booking : CourtBooking) :
    CourtBooking :=
  { (if paymentStatus = PaymentStatusCompleted then
      { booking with Status := BookingStatusConfirmed }
    else if paymentStatus = PaymentStatusFailed then
      { booking with Status := BookingStatusPending }
    else if paymentStatus = PaymentStatusRefunded then
      { booking with Status := BookingStatusCancelled, CancelledAt := some now }
    else booking) with
    UpdatedAt := now }

/-- The database `dbB` with user 7 set inactive. -/
def dbInactive : DB := { dbB with users := [{ ID := 7, Role := "player", Status := "inactive" }] }

/-- The database `dbP` after its payment was updated to `completed` at `nowA + 5`. -/
def dbCompleted : DB :=
  { dbP with
    bookings := [{ bookingW1 with Status := "confirmed", UpdatedAt := nowA + 5 }],
    payments := [{ paymentP with Status := "completed", UpdatedAt := nowA + 5 }] }

/-- The database `dbP` after its payment was updated to `refunded` at `nowA + 5`: the booking
row is cancelled and its `cancelled_at` is still empty. -/
def dbRefunded : DB :=
  { dbP with
    bookings := [{ bookingW1 with Status := "cancelled", UpdatedAt := nowA + 5 }],
    payments := [{ paymentP with Status := "refunded", UpdatedAt := nowA + 5 }] }

/-- The database `dbP` after the owner cancelled the booking at `nowA + 5`. -/
def dbCancelled : DB :=
  { dbP with
    bookings :=
      [{ bookingW1 with Status := "cancelled", CancelledAt := some (nowA + 5),
                        UpdatedAt := nowA + 5 }] }

/-- A store in which the pending booking 100 carries a completed payment. -/
def dbPaid : DB := { dbB with payments := [{ paymentP with Status := "completed" }] }

/-- The response to the cash payment `requestCash`. -/
def respCash : PaymentResponse :=
  { ID := 500, Amount := 200, Status := "pending", PaymentMethod := "cash",
    TransactionID := "tx-2", CreatedAt := nowA, UpdatedAt := nowA }

/-- The cash request without the optional transaction identifier. -/
def requestCashNoTx : CreatePaymentRequest := { requestCash with TransactionID := none }

/-- Calls on the pending booking 100: cash payment, cancellation by the owner, then the
owner reports the payment completed. -/
def opsRevive : List Op :=
  [Op.createPayment noFaults nowA 500 100 7 requestCash,
   Op.cancelBooking noFaults (nowA + 5) 100 7,
   Op.updatePayment noFaults (nowA + 9) 100 7 ⟨"", "completed"⟩]

/-- The request of a second booking of court 10 on the same Monday, 15:00 to 17:00. -/
def requestB : CreateBookingRequest :=
  { CourtID := some 10, Date := some 738885, StartTime := some 900, EndTime := some 1020,
    Notes := none }

/-- From the store without bookings: booking 100 (14:00-16:00) is created, paid in cash and
cancelled; booking 101 (15:00-17:00) is created; the payment of booking 100 is reported
completed. -/
def opsDouble : List Op :=
  [Op.createBooking nowA 100 7 requestA,
   Op.createPayment noFaults nowA 500 100 7 requestCash,
   Op.cancelBooking noFaults (nowA + 5) 100 7,
   Op.createBooking (nowA + 7) 101 7 requestB,
   Op.updatePayment noFaults (nowA + 9) 100 7 ⟨"", "completed"⟩]

/-- The filters that `ListBookings` builds from a request without parse errors. -/
def listFilters (req : ListBookingsRequest) : Filters :=
  let filters : Filters := []
  let filters := match req.CourtID with
    | .value id => filters.set "court_id" (.uuid id)
    | _ => filters
  let filters := match req.VenueID with
    | .value id => filters.set "venue_id" (.uuid id)
    | _ => filters
  let filters := match req.DateFrom with
    | .value d => filters.set "date_from" (.time d)
    | _ => filters
  let filters := match req.DateTo with
    | .value d => filters.set "date_to" (.time d)
    | _ => filters
  if req.Status ≠ "" then filters.set "status" (.bookingStatus req.Status) else filters

/-- A request for the confirmed bookings, with no other filter and no page size. -/
def requestConfirmed : ListBookingsRequest :=
  { CourtID := .empty, VenueID := .empty, DateFrom := .empty, DateTo := .empty,
    Status := "confirmed", Limit := 0, Offset := 0 }

/-- The bookings that the tick reads: the confirmed bookings of the local day of `now`. -/
def todaysConfirmed (db : DB) (now zone : Int) : List CourtBooking :=
  ((listJoin db uuidNil
      [("date", FilterValue.dateString (localDate now zone)),
       ("status", FilterValue.string BookingStatusConfirmed)]).filter
    (fun cb => cb.Date == localDate now zone && cb.Status == BookingStatusConfirmed)).map
    (fun b => { b with Payment := (db.payments.filter (fun p => p.BookingID == b.ID)).head? })

/-- The row update of a whole tick: a stored court that is not deleted becomes `occupied` when
its ID is in `occ`, else `available` when its ID is in `listed`. -/
def paint (occ listed : List UUID) (c : Court) : Court :=
  if c.Deleted then c
  else if occ.contains c.ID then { c with Status := CourtStatusOccupied }
  else if listed.contains c.ID then { c with Status := CourtStatusAvailable }
  else c

/-- The courts of the bookings that are active at `now`. -/
def activeCourts (now : Int) (bookings : List CourtBooking) : List UUID :=
  (bookings.filter (isActive now)).map (fun b => b.CourtID)

/-- Court 11 of `venueA`, in maintenance. -/
def courtM : Court :=
  { ID := 11, VenueID := 1, Name := "M", PricePerHour := 100, Status := "maintenance",
    Deleted := false }

/-- A store with courts 10 (available) and 11 (in maintenance) and one confirmed booking of
court 10 on day 738885 from 14:00 to 16:00. -/
def dbTick : DB :=
  { dbA with courts := [courtC, courtM], bookings := [{ bookingW1 with Status := "confirmed" }] }

/-- The instant 14:00 of day 738885 in the zone UTC+7, in nanoseconds since the zero time. -/
def nowStart : Int := dateIn 738885 840 thailandTZ

/-- Whether the store has a court row with this ID that is not deleted: the condition under
which `courtRepository.UpdateStatus` affects a row. -/
def hasCourt (db : DB) (id : UUID) : Bool :=
  db.courts.any (fun c => c.ID == id && !c.Deleted)

/-- The store after a successful tick: every stored court that is not deleted is `occupied`
when a booking read by the tick is active on it, else `available` when it is listed. -/
def tickResult (db : DB) (now zone : Int) : DB :=
  { db with
    courts := db.courts.map (paint (activeCourts now (todaysConfirmed db now zone))
      ((courtRepository.List db).map (fun c => c.ID))) }

/-- A call in which no persistence call fails. -/
def Op.faultFree : Op → Prop
  | .createBooking _ _ _ _ => True
  | .updateBooking faults _ _ _ => faults = noFaults
  | .cancelBooking faults _ _ _ => faults = noFaults
  | .createPayment faults _ _ _ _ _ => faults = noFaults
  | .updatePayment faults _ _ _ _ => faults = noFaults

/-- The identifier that a creating call receives from `uuid.New()` is not in use in the store
the call runs on. -/
def Op.fresh (db : DB) : Op → Prop
  | .createBooking _ newID _ _ => ∀ b ∈ db.bookings, b.ID ≠ newID
  | .createPayment _ _ newID _ _ _ => ∀ p ∈ db.payments, p.ID ≠ newID
  | _ => True

/-- A sequence of calls from `db` in which no persistence call fails and every generated
identifier is new. -/
def admissible : DB → List Op → Prop
  | _, [] => True
  | db, op :: rest => op.faultFree ∧ op.fresh db ∧ admissible (step db op) rest

/-- The invariant of the payment lifecycle: the booking rows of a completed payment are
confirmed; the booking of every payment can be read; payment rows with one identifier belong
to one booking; a booking has at most one payment row. -/
def paidInv (db : DB) : Prop :=
  (∀ p ∈ db.payments, p.Status = PaymentStatusCompleted →
      ∀ b ∈ db.bookings, b.ID = p.BookingID → b.Status = BookingStatusConfirmed)
    ∧ (∀ p ∈ db.payments, (bookingRepository.GetByID db p.BookingID).isSome = true)
    ∧ (∀ p ∈ db.payments, ∀ q ∈ db.payments, p.ID = q.ID → p.BookingID = q.BookingID)
    ∧ (∀ bid, paymentCount db bid ≤ 1)

/-- A booking is made, paid in cash, and the payment reported completed. -/
def opsPaid : List Op :=
  [Op.createBooking nowA 100 7 requestA, Op.createPayment noFaults nowA 500 100 7 requestCash,
   Op.updatePayment noFaults (nowA + 9) 100 7 ⟨"", "completed"⟩]

/-- The database `dbB` with court 10 soft-deleted. -/
def dbDeletedCourt : DB := { dbB with courts := [{ courtC with Deleted := true }] }

/-- The database `dbB` without the row of user 7, the user of the stored booking. -/
def dbOrphan : DB := { dbB with users := [] }

/-- A request for court 10 on the Monday, 14:00 to 14:40. -/
def request40 : CreateBookingRequest :=
  { CourtID := some 10, Date := some 738885, StartTime := some 840, EndTime := some 880,
    Notes := none }

theorem timeDate_hour_minute (t : Nat) : timeDate (Hour t) (Minute t) = t := by
  show t / 60 * 60 + t % 60 = t
  omega

/-- The hour and minute test is the comparison of minutes of the day. -/
theorem outsideOperatingHours_iff (s e o c : Nat) :
    outsideOperatingHours s e o c = true ↔ s < o ∨ c < e := by
  unfold outsideOperatingHours Hour Minute
  simp only [Bool.or_eq_true, Bool.and_eq_true, decide_eq_true_eq]
  omega

theorem conflictCondition_of_overlap (s e a b : Nat) (h1 : s < b) (h2 : a < e) :
    conflictCondition s e a b = true := by
  unfold conflictCondition
  simp only [Bool.or_eq_true, Bool.and_eq_true, decide_eq_true_eq]
  dsimp only [Clock] at *
  omega

/-- A duration of 30 minutes to 4 hours that is a multiple of 15 minutes has a length in hours
that `float64` holds exactly: there `Hours` is the duration in minutes divided by 60. -/
theorem Hours_quarter (d : Int) (h1 : 30 ≤ d) (h2 : d ≤ 240) (h3 : d % 15 = 0) :
    Hours d = (d : ℚ) / 60 := by
  obtain ⟨j, rfl⟩ : ∃ j, d = 15 * j := ⟨d / 15, by omega⟩
  have hj1 : 2 ≤ j := by omega
  have hj2 : j ≤ 16 := by omega
  interval_cases j <;> decide!

/-! ## Overlap of bookings -/

/-- C2: `IsOverlapping a b`, and likewise `isBookingConflict a b`, is true exactly when the two
bookings have the same court, the same date, `a.start < b.end` and `b.start < a.end`; a booking
that ends at the time at which another one of the same court and date starts overlaps it in
neither direction. -/
theorem isOverlapping_iff (a b : CourtBooking) :
    (a.IsOverlapping b = true ↔
        a.CourtID = b.CourtID ∧ a.Date = b.Date
          ∧ a.StartTime < b.EndTime ∧ b.StartTime < a.EndTime)
      ∧ (useCase.isBookingConflict a b = true ↔
        a.CourtID = b.CourtID ∧ a.Date = b.Date
          ∧ a.StartTime < b.EndTime ∧ b.StartTime < a.EndTime)
      ∧ a.IsOverlapping
          { b with CourtID := a.CourtID, Date := a.Date, StartTime := a.EndTime } = false
      ∧ CourtBooking.IsOverlapping
          { b with CourtID := a.CourtID, Date := a.Date, StartTime := a.EndTime } a = false
      ∧ useCase.isBookingConflict a
          { b with CourtID := a.CourtID, Date := a.Date, StartTime := a.EndTime } = false := by
  refine ⟨?_, ?_, ?_, ?_, ?_⟩
  · unfold CourtBooking.IsOverlapping
    by_cases hc : a.CourtID = b.CourtID <;> by_cases hd : a.Date = b.Date <;> simp [hc, hd]
  · unfold useCase.isBookingConflict
    by_cases hc : a.CourtID = b.CourtID <;> by_cases hd : a.Date = b.Date <;> simp [hc, hd]
  · simp [CourtBooking.IsOverlapping]
  · simp [CourtBooking.IsOverlapping]
  · simp [useCase.isBookingConflict]

/-- C3: for an existing window `[s, e)` with `s < e` and a requested window `[a, b)` with
`a < b`, the three-clause condition of the availability queries holds exactly when the
half-open test `s < b` and `a < e` holds. -/
theorem conflictCondition_iff_halfOpen (s e a b : Clock) (hse : s < e) (hab : a < b) :
    conflictCondition s e a b = true ↔ (s < b ∧ a < e) := by
  unfold conflictCondition
  simp only [Bool.or_eq_true, Bool.and_eq_true, decide_eq_true_eq]
  dsimp only [Clock] at *
  omega

/-- Witness of C3: an existing 14:00-16:00 window against a requested 15:00-17:00 one. -/
theorem conflictCondition_iff_halfOpen_witness :
    (840 : Clock) < 960 ∧ (900 : Clock) < 1020
      ∧ (conflictCondition 840 960 900 1020 = true ↔ ((840 : Clock) < 1020 ∧ (900 : Clock) < 960)) :=
  ⟨by decide, by decide, conflictCondition_iff_halfOpen 840 960 900 1020 (by decide) (by decide)⟩

/-! ## Operating hours -/

/-- The two day comparisons of the source differ outside ASCII: `EqualFold` matches a day
spelled with U+017F (long s) and `ToLower` does not; `ToLower` matches a day spelled with U+0130
(capital I with dot) and `EqualFold` does not.  On ASCII spellings they agree. -/
theorem day_comparisons :
    EqualFold (String.mk [Char.ofNat 0x17F, 'u', 'n', 'd', 'a', 'y']) "sunday" = true
      ∧ (toLower (String.mk [Char.ofNat 0x17F, 'u', 'n', 'd', 'a', 'y']) == "sunday") = false
      ∧ EqualFold (String.mk ['F', 'R', Char.ofNat 0x130, 'D', 'A', 'Y']) "friday" = false
      ∧ (toLower (String.mk ['F', 'R', Char.ofNat 0x130, 'D', 'A', 'Y']) == "friday") = true
      ∧ EqualFold "MONDAY" "monday" = true ∧ (toLower "MONDAY" == "monday") = true
      ∧ useCase.isVenueOpenForBooking
          { venueA with
            OpenRange := some
              [{ Day := String.mk [Char.ofNat 0x17F, 'u', 'n', 'd', 'a', 'y'], IsOpen := false,
                 OpenTime := 480, CloseTime := 1320 },
               { Day := "sunday", IsOpen := true, OpenTime := 480, CloseTime := 1320 }] }
          738884 840 960
        = .error "venue is closed" := by
  refine ⟨by decide, by decide, by decide, by decide, by decide, by decide, by decide⟩

theorem getCourtWithVenueByID_some (db : DB) (id : UUID) (court : Court)
    (h : courtRepository.GetCourtWithVenueByID db id = some court) :
    court ∈ db.courts ∧ court.ID = id ∧ court.Deleted = false
      ∧ ∃ v ∈ db.venues, v.ID = court.VenueID := by
  unfold courtRepository.GetCourtWithVenueByID at h
  have hm := List.mem_of_mem_head? h
  simp only [List.mem_flatMap, List.mem_filter, List.mem_map, Bool.and_eq_true, beq_iff_eq,
    Bool.not_eq_true'] at hm
  obtain ⟨c, ⟨hc, hid, hdel⟩, v, ⟨hv, hvid⟩, rfl⟩ := hm
  exact ⟨hc, hid, hdel, v, hv, hvid⟩

theorem mem_bookingJoin (db : DB) (b : CourtBooking) (c : Court) (hc : c ∈ db.courts)
    (hid : c.ID = b.CourtID) (hv : ∃ v ∈ db.venues, v.ID = c.VenueID)
    (hu : ∃ u ∈ db.users, u.ID = b.UserID) :
    { b with PricePerHour := c.PricePerHour, Payment := none } ∈ bookingJoin db b := by
  obtain ⟨v, hv, hvid⟩ := hv
  obtain ⟨u, hu, huid⟩ := hu
  unfold bookingJoin
  simp only [List.mem_flatMap, List.mem_filter, List.mem_map, beq_iff_eq]
  exact ⟨c, ⟨hc, hid⟩, v, ⟨hv, hvid⟩, u, ⟨hu, huid⟩, rfl⟩

/-- A stored non-cancelled booking that overlaps the window is counted by the query. -/
theorem conflictCount_pos (db : DB) (courtID : UUID) (date : Int) (s e : Clock)
    (w1 : CourtBooking) (hmem : w1 ∈ db.bookings) (hc : w1.CourtID = courtID)
    (hd : w1.Date = date) (hst : w1.Status ≠ BookingStatusCancelled)
    (h1 : w1.StartTime < e) (h2 : s < w1.EndTime) :
    conflictCount db courtID date s e > 0 := by
  unfold conflictCount
  apply List.length_pos_of_mem (a := w1)
  simp only [List.mem_filter, Bool.and_eq_true, beq_iff_eq, bne_iff_ne, ne_eq]
  exact ⟨hmem, ⟨⟨hc, hd⟩, hst⟩, conflictCondition_of_overlap _ _ _ _ h1 h2⟩

/-- C1 (counterexample): the stored pending 14:00-16:00 booking against a 15:00-17:00 request
for its court and date.  When court 10 is soft-deleted, `CheckAvailability` returns the error
"court not found" and no response, although `CheckCourtAvailability` answers `false`; when the
row of the booking's user is missing, `CheckAvailability` reports `Available = false` with an
empty conflicts list, the reading query being an inner join on `users`. -/
theorem checkAvailability_conflict_not_reported :
    bookingW1 ∈ dbDeletedCourt.bookings ∧ bookingW1 ∈ dbOrphan.bookings
      ∧ bookingW1.CourtID = 10 ∧ bookingW1.Date = 738885
      ∧ bookingW1.Status ≠ BookingStatusCancelled
      ∧ bookingW1.StartTime < 1020 ∧ 900 < bookingW1.EndTime
      ∧ useCase.CheckAvailability dbDeletedCourt ⟨some 10, some 738885, some 900, some 1020⟩
        = .error "court not found"
      ∧ bookingRepository.CheckCourtAvailability dbDeletedCourt 10 738885 900 1020
        = (false, none)
      ∧ useCase.CheckAvailability dbOrphan ⟨some 10, some 738885, some 900, some 1020⟩
        = .ok { CourtID := 10, CourtName := "C", Date := 738885, Available := false,
                Conflicts := [] } := by
  refine ⟨by decide!, by decide!, rfl, rfl, by decide, by decide, by decide, by decide!,
    by decide!, by decide!⟩

/-- C1 as amended: for a court that the court lookup finds (it is not soft-deleted and its venue
exists), if the store holds a non-cancelled booking `w1` of the court and date whose user is a
row of `users`, with `w1.start < end` and `start < w1.end`, then `CheckCourtAvailability`
answers `false` without error, and `CheckAvailability` returns a response with
`Available = false` whose conflicts contain the slot `(w1.start, w1.end, w1.status)`. -/
theorem checkAvailability_reports_conflict (db : DB) (courtID : UUID) (date : Int)
    (s e : Clock) (w1 : CourtBooking)
    (hcourt : (courtRepository.GetCourtWithVenueByID db courtID).isSome = true)
    (hmem : w1 ∈ db.bookings) (huser : ∃ u ∈ db.users, u.ID = w1.UserID)
    (hc : w1.CourtID = courtID) (hd : w1.Date = date)
    (hst : w1.Status ≠ BookingStatusCancelled)
    (h1 : w1.StartTime < e) (h2 : s < w1.EndTime) :
    bookingRepository.CheckCourtAvailability db courtID date s e = (false, none)
      ∧ ∃ resp, useCase.CheckAvailability db ⟨some courtID, some date, some s, some e⟩
            = .ok resp
          ∧ resp.Available = false
          ∧ BookingSlot.mk w1.StartTime w1.EndTime w1.Status ∈ resp.Conflicts := by
  have hcnt := conflictCount_pos db courtID date s e w1 hmem hc hd hst h1 h2
  have hca : bookingRepository.CheckCourtAvailability db courtID date s e = (false, none) := by
    unfold bookingRepository.CheckCourtAvailability
    simp [hcnt]
  obtain ⟨court, hcourt⟩ := Option.isSome_iff_exists.1 hcourt
  obtain ⟨hcm, hcid, -, hv⟩ := getCourtWithVenueByID_some db courtID court hcourt
  refine ⟨hca, ?_⟩
  unfold useCase.CheckAvailability
  simp only [hcourt, hca]
  refine ⟨_, rfl, rfl, ?_⟩
  simp only [List.mem_map, List.mem_filter, bookingRepository.GetCourtBookings,
    List.mem_insertionSort, List.mem_flatMap, Bool.and_eq_true, beq_iff_eq, bne_iff_ne, ne_eq]
  refine ⟨{ w1 with PricePerHour := court.PricePerHour, Payment := none },
    ⟨⟨⟨w1, hmem, mem_bookingJoin db w1 court hcm (hcid.trans hc.symm) hv huser⟩, hc, hd⟩, hst⟩,
    rfl⟩

/-- Witness of amended C1: scenario B, the stored 14:00-16:00 booking against a 15:00-17:00
request. -/
theorem checkAvailability_reports_conflict_witness :
    bookingRepository.CheckCourtAvailability dbB 10 738885 900 1020 = (false, none)
      ∧ ∃ resp, useCase.CheckAvailability dbB ⟨some 10, some 738885, some 900, some 1020⟩
            = .ok resp
          ∧ resp.Available = false
          ∧ BookingSlot.mk 840 960 "pending" ∈ resp.Conflicts :=
  checkAvailability_reports_conflict dbB 10 738885 900 1020 bookingW1
    (by decide) (by decide) (by decide) (by decide) (by decide) (by decide) (by decide)
    (by decide)

theorem toLower_dayOfWeek (date : Int) : toLower (dayOfWeek date) = dayOfWeek date := by
  unfold dayOfWeek
  generalize Weekday date = n
  match n with
  | 0 => decide
  | 1 => decide
  | 2 => decide
  | 3 => decide
  | 4 => decide
  | 5 => decide
  | k + 6 =>
    have hk : weekdayString (k + 6) = "Saturday" := rfl
    rw [hk]
    decide

/-- The schedule loop of `CheckCourtAvailability` decides on the first entry whose lower-cased
day is the weekday, and answers `false` when there is none. -/
theorem operatingHoursLoop_eq (openRange : List OpenRangeResponse) (day : String) (s e : Clock) :
    operatingHoursLoop openRange day s e =
      match openRange.find? (fun schedule => toLower schedule.Day == day) with
      | none => false
      | some entry => !outsideOperatingHours s e entry.OpenTime entry.CloseTime := by
  induction openRange with
  | nil => rfl
  | cons sch rest ih =>
    unfold operatingHoursLoop
    rw [List.find?_cons]
    by_cases h : (toLower sch.Day == day) = true
    · simp only [h, if_true, timeDate_hour_minute]
      cases outsideOperatingHours s e sch.OpenTime sch.CloseTime <;> simp
    · have h2 : (toLower sch.Day == day) = false := by simpa using h
      simp only [h2, Bool.false_eq_true, if_false]
      exact ih

/-- A valid schedule without an entry for the weekday makes `isVenueOpenForBooking` panic. -/
theorem isVenueOpenForBooking_panic (venue : Venue) (date : Int) (s e : Clock)
    (openRanges : List OpenRangeResponse) (hv : venue.OpenRange = some openRanges)
    (hf : findDaySchedule openRanges (dayOfWeek date) = none) :
    useCase.isVenueOpenForBooking venue date s e = .panic := by
  unfold useCase.isVenueOpenForBooking
  simp only [hv, hf]

/-- C6: when the schedule of the court's venue has no entry for the weekday of the date, or the
entry has, by hour and minute, the start before the opening time or the end after the closing
time, `CheckCourtAvailability` answers `false`, whatever bookings the store holds.  The entry
for the weekday is the one the function's loop takes: the first whose lower-cased day is the
lower-cased name of the weekday. -/
theorem checkCourtAvailability_outside_hours (db : DB) (courtID : UUID) (date : Int)
    (s e : Clock) (openRange : List OpenRangeResponse)
    (hv : venueOpenRange db courtID = some (some openRange))
    (h : openRange.find? (fun schedule => toLower schedule.Day == dayOfWeek date) = none
      ∨ ∃ entry,
          openRange.find? (fun schedule => toLower schedule.Day == dayOfWeek date) = some entry
          ∧ (s < entry.OpenTime ∨ entry.CloseTime < e)) :
    (bookingRepository.CheckCourtAvailability db courtID date s e).1 = false := by
  unfold bookingRepository.CheckCourtAvailability
  split
  · rfl
  · simp only [hv, operatingHoursLoop_eq]
    rcases h with h | ⟨entry, h, hout⟩
    · simp only [h]
    · simp only [h, Bool.not_eq_false', outsideOperatingHours_iff]
      exact hout

/-- Witness of C6: scenario C, 21:00-23:00 on a Monday that closes at 22:00, no booking. -/
theorem checkCourtAvailability_outside_hours_witness :
    (bookingRepository.CheckCourtAvailability dbA 10 738885 1260 1380).1 = false :=
  checkCourtAvailability_outside_hours dbA 10 738885 1260 1380
    [{ Day := "Monday", IsOpen := true, OpenTime := 480, CloseTime := 1320 }] (by decide)
    (Or.inr ⟨{ Day := "Monday", IsOpen := true, OpenTime := 480, CloseTime := 1320 },
      by decide, Or.inr (by decide)⟩)

/-- C5: on a valid schedule without an entry for the weekday (the empty schedule, or `venueA`
on a Tuesday) `isVenueOpenForBooking` does not return: it dereferences the nil `daySchedule`
and panics, and `CreateBooking` panics with it, the store unchanged; on the same input
`CheckCourtAvailability` answers "closed" normally. -/
theorem isVenueOpenForBooking_missing_day_panics :
    useCase.isVenueOpenForBooking venueNoSchedule 738885 840 960 = .panic
      ∧ useCase.isVenueOpenForBooking venueA 738886 840 960 = .panic
      ∧ useCase.CreateBooking dbNoSchedule nowA 100 7
          ⟨some 10, some 738885, some 840, some 960, none⟩ = (.panic, dbNoSchedule)
      ∧ bookingRepository.CheckCourtAvailability dbNoSchedule 10 738885 840 960
          = (false, none) := by
  refine ⟨by decide, by decide, by decide!, by decide⟩

/-- C7: for a venue whose Monday entry has the open flag off and times 08:00-22:00, with no
booking stored, `CheckCourtAvailability` answers `true` for 14:00-16:00 on a Monday and
`CheckAvailability` reports the court available, while `isVenueOpenForBooking` rejects the same
window with "venue is closed". -/
theorem checkCourtAvailability_ignores_open_flag :
    bookingRepository.CheckCourtAvailability dbClosedMonday 10 738885 840 960 = (true, none)
      ∧ useCase.CheckAvailability dbClosedMonday ⟨some 10, some 738885, some 840, some 960⟩
          = .ok { CourtID := 10, CourtName := "C", Date := 738885, Available := true,
                  Conflicts := [] }
      ∧ useCase.isVenueOpenForBooking venueClosedMonday 738885 840 960
          = .error "venue is closed" := by
  refine ⟨by decide, by decide, by decide⟩

/-- C8: with the pending 14:00-16:00 booking stored, a request for 10:00-11:00 on the same court
and day is answered `Available = true` with the 14:00-16:00 slot in the conflicts list, although
that booking does not overlap the requested window. -/
theorem checkAvailability_lists_non_overlapping :
    useCase.CheckAvailability dbB ⟨some 10, some 738885, some 600, some 660⟩
        = .ok { CourtID := 10, CourtName := "C", Date := 738885, Available := true,
                Conflicts := [⟨840, 960, "pending"⟩] }
      ∧ ¬ ((840 : Nat) < 660 ∧ (600 : Nat) < 960)
      ∧ bookingW1.IsOverlapping { bookingW1 with StartTime := 600, EndTime := 660 } = false := by
  refine ⟨by decide, by decide, by decide!⟩

/-- Every slot that `CheckAvailability` lists is a stored, non-cancelled booking of the
requested court and date. -/
theorem checkAvailability_conflicts_sound (db : DB) (req : CheckAvailabilityRequest)
    (resp : CourtAvailabilityResponse) (slot : BookingSlot)
    (h : useCase.CheckAvailability db req = .ok resp) (hs : slot ∈ resp.Conflicts) :
    ∃ b ∈ db.bookings, some b.CourtID = req.CourtID ∧ some b.Date = req.Date
      ∧ b.Status ≠ BookingStatusCancelled
      ∧ slot = ⟨b.StartTime, b.EndTime, b.Status⟩ := by
  obtain ⟨cid, date, st, en⟩ := req
  cases cid <;> cases date <;> cases st <;> cases en <;>
    simp only [useCase.CheckAvailability] at h <;> try cases h
  rename_i courtID date s e
  split at h
  · cases h
  split at h
  · cases h
  simp only [Outcome.ok.injEq] at h
  subst h
  simp only [List.mem_map, List.mem_filter, bookingRepository.GetCourtBookings,
    List.mem_insertionSort, List.mem_flatMap, Bool.and_eq_true, beq_iff_eq, bne_iff_ne,
    ne_eq] at hs
  obtain ⟨b', ⟨⟨⟨b, hb, hjoin⟩, hc, hd⟩, hst⟩, rfl⟩ := hs
  unfold bookingJoin at hjoin
  simp only [List.mem_flatMap, List.mem_filter, List.mem_map, beq_iff_eq] at hjoin
  obtain ⟨c, _, v, _, u, _, rfl⟩ := hjoin
  exact ⟨b, hb, congrArg some hc, congrArg some hd, hst, rfl⟩

/-- `Validate` passes exactly when every one of its checks does. -/
theorem validate_ok_iff (b : CourtBooking) (now : Nat) :
    b.Validate now = .ok () ↔
      b.CourtID ≠ uuidNil ∧ b.UserID ≠ uuidNil ∧ b.Date ≠ 0
        ∧ ¬ b.Date < ((now / 86400 : Nat) : Int)
        ∧ 30 ≤ Sub b.EndTime b.StartTime ∧ Sub b.EndTime b.StartTime ≤ 240
        ∧ 0 < b.TotalAmount := by
  unfold CourtBooking.Validate Sub clockIsZero
  dsimp only [Clock] at *
  split_ifs <;> simp_all <;> omega

/-- The two ways `CreateBooking` can end: without success and with the store untouched, or
with a validated pending booking of the requested window appended to the store. -/
theorem createBooking_cases (db : DB) (now : Nat) (newID userID : UUID)
    (req : CreateBookingRequest) :
    ((∀ r, (useCase.CreateBooking db now newID userID req).1 ≠ .ok r)
        ∧ (useCase.CreateBooking db now newID userID req).2 = db)
      ∨ ∃ courtID date s e court b,
          req.CourtID = some courtID ∧ req.Date = some date ∧ req.StartTime = some s
            ∧ req.EndTime = some e
            ∧ courtRepository.GetCourtWithVenueByID db courtID = some court
            ∧ b.ID = newID ∧ b.CourtID = courtID ∧ b.UserID = userID ∧ b.Date = date
            ∧ b.StartTime = s ∧ b.EndTime = e ∧ b.Status = BookingStatusPending
            ∧ b.TotalAmount = round64 (Hours (Sub e s) * court.PricePerHour)
            ∧ b.Validate now = .ok ()
            ∧ (useCase.CreateBooking db now newID userID req).2
                = { db with bookings := db.bookings ++ [b] } := by
  obtain ⟨cid, date, st, en, notes⟩ := req
  cases cid with
  | none => left; exact ⟨fun r h => (by simp [useCase.CreateBooking] at h), rfl⟩
  | some courtID =>
    unfold useCase.CreateBooking
    simp only
    split
    · left; exact ⟨fun r h => (by cases h), rfl⟩
    rename_i court hcourt
    split
    · left; exact ⟨fun r h => (by cases h), rfl⟩
    rename_i venue hvenue
    split
    · left; exact ⟨fun r h => (by cases h), rfl⟩
    split
    · left; exact ⟨fun r h => (by cases h), rfl⟩
    split
    · left; exact ⟨fun r h => (by cases h), rfl⟩
    split
    · left; exact ⟨fun r h => (by cases h), rfl⟩
    split
    · left; exact ⟨fun r h => (by cases h), rfl⟩
    · left; exact ⟨fun r h => (by cases h), rfl⟩
    split
    · left; exact ⟨fun r h => (by cases h), rfl⟩
    · left; exact ⟨fun r h => (by cases h), rfl⟩
    split
    · left; exact ⟨fun r h => (by cases h), rfl⟩
    · left; exact ⟨fun r h => (by cases h), rfl⟩
    rename_i hca _ _ hval
    have hcreate : ∀ b : CourtBooking,
        bookingRepository.CheckCourtAvailability db b.CourtID b.Date b.StartTime b.EndTime
          = (true, none) →
        bookingRepository.Create db b
          = (.ok (), { db with bookings := db.bookings ++ [b] }) := by
      intro b hb
      unfold bookingRepository.Create
      simp only [hb]
    rw [hcreate _ hca]
    right
    refine ⟨courtID, _, _, _, court, _, rfl, rfl, rfl, rfl, hcourt, rfl, rfl, rfl, rfl, rfl, rfl,
      rfl, rfl, hval, ?_⟩
    dsimp only
    split <;> rfl

/-- C9 (counterexample): 14:00-14:40 on a Monday at 100 per hour.  `CreateBooking` succeeds and
stores a pending booking whose `total_amount` is the `float64` 66.66666666666666, that is
`4691249611844266 / 2 ^ 46`, and not the product `(40 / 60) * 100 = 200 / 3` of the duration in
hours and the price. -/
theorem createBooking_amount_rounded :
    useCase.CreateBooking dbA nowA 100 7 request40
        = (.ok { bookingW1 with
                 EndTime := 880, TotalAmount := mkRat 4691249611844266 (2 ^ 46),
                 PricePerHour := 100 },
           { dbA with
             bookings := [{ bookingW1 with
                            EndTime := 880, TotalAmount := mkRat 4691249611844266 (2 ^ 46) }] })
      ∧ bookingW1.StartTime = 840 ∧ bookingW1.Status = "pending"
      ∧ courtC.PricePerHour = 100
      ∧ mkRat 4691249611844266 (2 ^ 46) ≠ (((880 : ℚ) - 840) / 60) * 100
      ∧ Hours 40 = mkRat 6004799503160661 (2 ^ 53) := by
  refine ⟨by decide!, rfl, rfl, rfl, by decide!, by decide!⟩

/-- C9 as amended: every successful `CreateBooking` appends to the stored bookings one booking
of the requested court, date and window, with status `pending` and `total_amount` equal to the
`float64` product of the length of the window in hours, as `Duration.Hours` gives it, and the
court's price per hour (which is what `CalculateTotalAmount` gives for it).  When the window is
a multiple of 15 minutes and the exact product `((end - start) / 60) * price` is a `float64`,
the amount is that product.  Prices are below `2 ^ 1021`, so that no product overflows. -/
theorem createBooking_stores_pending (db : DB) (now : Nat) (newID userID : UUID)
    (req : CreateBookingRequest) (resp : CourtBooking) (db1 : DB)
    (hfinite : ∀ c ∈ db.courts, c.PricePerHour < 2 ^ 1021)
    (h : useCase.CreateBooking db now newID userID req = (.ok resp, db1)) :
    ∃ courtID date s e court b,
      req.CourtID = some courtID ∧ req.Date = some date ∧ req.StartTime = some s
        ∧ req.EndTime = some e
        ∧ courtRepository.GetCourtWithVenueByID db courtID = some court
        ∧ db1 = { db with bookings := db.bookings ++ [b] }
        ∧ b.ID = newID ∧ b.CourtID = courtID ∧ b.UserID = userID ∧ b.Date = date
        ∧ b.StartTime = s ∧ b.EndTime = e
        ∧ b.Status = BookingStatusPending
        ∧ b.TotalAmount = round64 (Hours (Sub e s) * court.PricePerHour)
        ∧ b.TotalAmount
            = CourtBooking.CalculateTotalAmount { b with PricePerHour := court.PricePerHour }
        ∧ (Sub e s % 15 = 0 →
            round64 ((((e : ℚ) - (s : ℚ)) / 60) * court.PricePerHour)
              = (((e : ℚ) - (s : ℚ)) / 60) * court.PricePerHour →
            b.TotalAmount = (((e : ℚ) - (s : ℚ)) / 60) * court.PricePerHour) := by
  have _ := hfinite
  rcases createBooking_cases db now newID userID req with ⟨hno, -⟩ | hyes
  · exact absurd (congrArg Prod.fst h) (hno resp)
  · obtain ⟨courtID, date, s, e, court, b, h1, h2, h3, h4, hcourt, hid, hcid, huid, hdate, hs,
      he, hst, hamt, hval, hdb⟩ := hyes
    refine ⟨courtID, date, s, e, court, b, h1, h2, h3, h4, hcourt, ?_, hid, hcid, huid, hdate,
      hs, he, hst, hamt, ?_, ?_⟩
    · rw [← hdb, h]
    · rw [hamt]
      simp [CourtBooking.CalculateTotalAmount, CourtBooking.CalculateDuration, hs, he]
    · intro h15 hexact
      obtain ⟨-, -, -, -, hd1, hd2, -⟩ := (validate_ok_iff b now).1 hval
      rw [hs, he] at hd1 hd2
      have hq := Hours_quarter (Sub e s) hd1 hd2 h15
      have hsub : ((Sub e s : Int) : ℚ) = (e : ℚ) - (s : ℚ) := by simp [Sub]
      rw [hamt, hq, hsub]
      exact hexact

/-- Witness of amended C9: scenario A, 14:00-16:00 on a Monday at 100 per hour gives a pending
booking of amount 200. -/
theorem createBooking_stores_pending_witness :
    useCase.CreateBooking dbA nowA 100 7 requestA
        = (.ok { bookingW1 with PricePerHour := 100 }, dbB)
      ∧ bookingW1.TotalAmount = 200 ∧ bookingW1.Status = "pending"
      ∧ ∃ courtID date s e court b,
        requestA.CourtID = some courtID ∧ requestA.Date = some date
        ∧ requestA.StartTime = some s ∧ requestA.EndTime = some e
        ∧ courtRepository.GetCourtWithVenueByID dbA courtID = some court
        ∧ dbB = { dbA with bookings := dbA.bookings ++ [b] }
        ∧ b.ID = 100 ∧ b.CourtID = courtID ∧ b.UserID = 7 ∧ b.Date = date
        ∧ b.StartTime = s ∧ b.EndTime = e
        ∧ b.Status = BookingStatusPending
        ∧ b.TotalAmount = round64 (Hours (Sub e s) * court.PricePerHour)
        ∧ b.TotalAmount
            = CourtBooking.CalculateTotalAmount { b with PricePerHour := court.PricePerHour }
        ∧ (Sub e s % 15 = 0 →
            round64 ((((e : ℚ) - (s : ℚ)) / 60) * court.PricePerHour)
              = (((e : ℚ) - (s : ℚ)) / 60) * court.PricePerHour →
            b.TotalAmount = (((e : ℚ) - (s : ℚ)) / 60) * court.PricePerHour) :=
  ⟨by decide!, rfl, rfl,
    createBooking_stores_pending dbA nowA 100 7 requestA { bookingW1 with PricePerHour := 100 }
      dbB (by decide!) (by decide!)⟩

theorem validate_not_panic (b : CourtBooking) (now : Nat) : b.Validate now ≠ .panic := by
  unfold CourtBooking.Validate
  dsimp only
  split_ifs <;> simp

theorem validate_error_iff (b : CourtBooking) (now : Nat) :
    (∃ msg, b.Validate now = .error msg) ↔ b.Validate now ≠ .ok () := by
  constructor
  · rintro ⟨msg, h⟩ h2
    rw [h] at h2
    cases h2
  · intro h
    cases hv : b.Validate now with
    | ok u => exact absurd hv h
    | error msg => exact ⟨msg, rfl⟩
    | panic => exact absurd hv (validate_not_panic b now)

theorem getByID_isSome_of_mem (db : DB) (b : CourtBooking) (c : Court) (hb : b ∈ db.bookings)
    (hc : c ∈ db.courts) (hid : c.ID = b.CourtID) (hv : ∃ v ∈ db.venues, v.ID = c.VenueID)
    (hu : ∃ u ∈ db.users, u.ID = b.UserID) :
    ∃ r, bookingRepository.GetByID db b.ID = some r := by
  have hmem : ({ b with PricePerHour := c.PricePerHour, Payment := none } : CourtBooking)
      ∈ (db.bookings.flatMap (bookingJoin db)).filter (fun x => x.ID == b.ID) := by
    simp only [List.mem_filter, List.mem_flatMap, beq_self_eq_true, and_true]
    exact ⟨b, hb, mem_bookingJoin db b c hc hid hv hu⟩
  unfold bookingRepository.GetByID
  cases hl : (db.bookings.flatMap (bookingJoin db)).filter (fun x => x.ID == b.ID) with
  | nil => rw [hl] at hmem; cases hmem
  | cons x xs => exact ⟨_, rfl⟩

/-- When every other check passes, the window lasts between 30 minutes and 4 hours and the
amount is positive, `CreateBooking` returns a booking and stores it. -/
theorem createBooking_succeeds (db : DB) (now : Nat) (newID userID : UUID)
    (req : CreateBookingRequest) (courtID : UUID) (date : Int) (s e : Clock) (court : Court)
    (venue : Venue)
    (hcid : req.CourtID = some courtID) (hdate : req.Date = some date)
    (hs : req.StartTime = some s) (he : req.EndTime = some e)
    (hcourt : courtRepository.GetCourtWithVenueByID db courtID = some court)
    (hvenue : venueRepository.GetByID db court.VenueID = some venue)
    (hact : venue.Status = VenueStatusActive)
    (hopen : useCase.isVenueOpenForBooking venue date s e = .ok ())
    (hav : bookingRepository.CheckCourtAvailability db courtID date s e = (true, none))
    (huser : ∃ u ∈ db.users, u.ID = userID)
    (hnil : courtID ≠ uuidNil ∧ userID ≠ uuidNil ∧ date ≠ 0)
    (hfut : ¬ date < ((now / 86400 : Nat) : Int))
    (hdur : 30 ≤ Sub e s ∧ Sub e s ≤ 240)
    (hamt : 0 < round64 (Hours (Sub e s) * court.PricePerHour)) :
    ∃ resp b, useCase.CreateBooking db now newID userID req
        = (.ok resp, { db with bookings := db.bookings ++ [b] })
      ∧ b.StartTime = s ∧ b.EndTime = e ∧ b.Status = BookingStatusPending := by
  obtain ⟨hcm, hcid', -, hv⟩ := getCourtWithVenueByID_some db courtID court hcourt
  obtain ⟨cid, d, st, en, notes⟩ := req
  simp only at hcid hdate hs he
  subst hcid hdate hs he
  have hval : ∀ bk : CourtBooking,
      bk =
        { ID := newID, CourtID := courtID, UserID := userID, Date := date, StartTime := s,
          EndTime := e, TotalAmount := round64 (Hours (Sub e s) * court.PricePerHour),
          Status := BookingStatusPending, Notes := notes, CreatedAt := now, UpdatedAt := now,
          CancelledAt := none, PricePerHour := 0, Payment := none } →
      bk.Validate now = .ok ()
        ∧ ∃ r, bookingRepository.GetByID { db with bookings := db.bookings ++ [bk] } newID
            = some r := by
    intro bk hbk
    constructor
    · rw [validate_ok_iff, hbk]
      exact ⟨hnil.1, hnil.2.1, hnil.2.2, hfut, hdur.1, hdur.2, hamt⟩
    · have h := getByID_isSome_of_mem { db with bookings := db.bookings ++ [bk] } bk court
        (by simp) hcm (by rw [hbk]; exact hcid') hv (by rw [hbk]; exact huser)
      rw [hbk] at h
      rw [hbk]
      exact h
  obtain ⟨hval, r, hr⟩ := hval _ rfl
  refine ⟨r,
    { ID := newID, CourtID := courtID, UserID := userID, Date := date, StartTime := s,
      EndTime := e, TotalAmount := round64 (Hours (Sub e s) * court.PricePerHour),
      Status := BookingStatusPending, Notes := notes, CreatedAt := now, UpdatedAt := now,
      CancelledAt := none, PricePerHour := 0, Payment := none }, ?_, rfl, rfl, rfl⟩
  unfold useCase.CreateBooking
  simp only [hcourt, hvenue, hact, ne_eq, not_true_eq_false, if_false, hopen, hav, hval,
    bookingRepository.Create]
  simp only [hr]

/-- C10: for a booking whose other fields are valid (court, user and date set, date not before
today, positive amount), `Validate` returns an error exactly when `end - start` is under 30
minutes (which covers `end <= start`) or over 4 hours; windows of exactly 30 minutes and exactly
4 hours pass; and `CreateBooking` for a window of such a length does not succeed and leaves the
store as it was. -/
theorem validate_rejects_iff_duration (b : CourtBooking) (now : Nat)
    (hc : b.CourtID ≠ uuidNil) (hu : b.UserID ≠ uuidNil) (hd : b.Date ≠ 0)
    (hfut : ¬ b.Date < ((now / 86400 : Nat) : Int)) (ha : 0 < b.TotalAmount) :
    ((∃ msg, b.Validate now = .error msg) ↔
        (Sub b.EndTime b.StartTime < 30 ∨ Sub b.EndTime b.StartTime > 4 * 60))
      ∧ (b.EndTime ≤ b.StartTime → ∃ msg, b.Validate now = .error msg)
      ∧ CourtBooking.Validate { b with EndTime := b.StartTime + 30 } now = .ok ()
      ∧ CourtBooking.Validate { b with EndTime := b.StartTime + 4 * 60 } now = .ok ()
      ∧ ∀ (db : DB) (newID userID : UUID) (req : CreateBookingRequest),
          req.StartTime = some b.StartTime → req.EndTime = some b.EndTime →
          (Sub b.EndTime b.StartTime < 30 ∨ Sub b.EndTime b.StartTime > 4 * 60) →
          (∀ r, (useCase.CreateBooking db now newID userID req).1 ≠ .ok r)
            ∧ (useCase.CreateBooking db now newID userID req).2 = db := by
  have hiff : (∃ msg, b.Validate now = .error msg) ↔
      (Sub b.EndTime b.StartTime < 30 ∨ Sub b.EndTime b.StartTime > 4 * 60) := by
    rw [validate_error_iff, Ne, validate_ok_iff]
    constructor
    · intro h
      by_contra hcon
      apply h
      refine ⟨hc, hu, hd, hfut, ?_, ?_, ha⟩ <;> omega
    · rintro h ⟨-, -, -, -, h1, h2, -⟩
      omega
  refine ⟨hiff, ?_, ?_, ?_, ?_⟩
  · intro hle
    apply hiff.2
    left
    unfold Sub
    dsimp only [Clock] at *
    omega
  · rw [validate_ok_iff]
    refine ⟨hc, hu, hd, hfut, ?_, ?_, ha⟩ <;> simp [Sub]
  · rw [validate_ok_iff]
    refine ⟨hc, hu, hd, hfut, ?_, ?_, ha⟩ <;> simp [Sub]
  · intro db newID userID req hs he hdur
    rcases createBooking_cases db now newID userID req with hno | hyes
    · exact hno
    · exfalso
      obtain ⟨courtID, date, s, e, court, b1, -, -, h3, h4, -, -, -, -, -, hs1, he1, -, -, hval,
        -⟩ := hyes
      rw [hs] at h3
      rw [he] at h4
      injection h3 with h3
      injection h4 with h4
      rw [validate_ok_iff] at hval
      obtain ⟨-, -, -, -, h1, h2, -⟩ := hval
      rw [hs1, he1, ← h3, ← h4] at h1 h2
      omega

/-- Witness of C10: the 14:00-16:00 booking of scenario A has valid other fields; requests for
the same day of 20 minutes and of 5 hours are rejected by validation with the store unchanged. -/
theorem validate_rejects_iff_duration_witness :
    (useCase.CreateBooking dbA nowA 100 7 { requestA with EndTime := some 860 }
        = (.error "invalid booking: booking duration must be at least 30 minutes", dbA))
      ∧ (useCase.CreateBooking dbA nowA 100 7 { requestA with EndTime := some 1140 }
        = (.error "invalid booking: booking duration cannot exceed 4 hours", dbA))
      ∧ ((∃ msg, bookingW1.Validate nowA = .error msg) ↔
        (Sub bookingW1.EndTime bookingW1.StartTime < 30
          ∨ Sub bookingW1.EndTime bookingW1.StartTime > 4 * 60))
      ∧ (bookingW1.EndTime ≤ bookingW1.StartTime → ∃ msg, bookingW1.Validate nowA = .error msg)
      ∧ CourtBooking.Validate { bookingW1 with EndTime := bookingW1.StartTime + 30 } nowA = .ok ()
      ∧ CourtBooking.Validate { bookingW1 with EndTime := bookingW1.StartTime + 4 * 60 } nowA
          = .ok ()
      ∧ ∀ (db : DB) (newID userID : UUID) (req : CreateBookingRequest),
          req.StartTime = some bookingW1.StartTime → req.EndTime = some bookingW1.EndTime →
          (Sub bookingW1.EndTime bookingW1.StartTime < 30
            ∨ Sub bookingW1.EndTime bookingW1.StartTime > 4 * 60) →
          (∀ r, (useCase.CreateBooking db nowA newID userID req).1 ≠ .ok r)
            ∧ (useCase.CreateBooking db nowA newID userID req).2 = db :=
  ⟨by decide!, by decide!,
    validate_rejects_iff_duration bookingW1 nowA (by decide) (by decide) (by decide)
      (by decide!) (by decide!)⟩

theorem bookingJoin_eq (db : DB) (b : CourtBooking) :
    bookingJoin db b
      = (db.courts.filter (fun c => c.ID == b.CourtID)).flatMap (fun c =>
          (db.venues.filter (fun v => v.ID == c.VenueID)).flatMap (fun _ =>
            (db.users.filter (fun u => u.ID == b.UserID)).map (fun _ =>
              withJoin c.PricePerHour b))) := rfl

theorem getByID_eq (db : DB) (id : UUID) :
    bookingRepository.GetByID db id
      = (((db.bookings.flatMap (bookingJoin db)).filter (fun b => b.ID == id)).head?).map
          (withPayment (bookingRepository.GetPayment db id)) := by
  unfold bookingRepository.GetByID
  cases ((db.bookings.flatMap (bookingJoin db)).filter (fun b => b.ID == id)).head? <;> rfl

/-- The joined rows of a booking depend on the database only through its users, venues and
courts. -/
theorem bookingJoin_congr (db db1 : DB) (hu : db1.users = db.users)
    (hv : db1.venues = db.venues) (hc : db1.courts = db.courts) (b : CourtBooking) :
    bookingJoin db1 b = bookingJoin db b := by
  unfold bookingJoin
  rw [hu, hv, hc]

/-- A row update that keeps the identifiers commutes with the join. -/
theorem bookingJoin_map (db : DB) (f : CourtBooking → CourtBooking)
    (hcourt : ∀ b, (f b).CourtID = b.CourtID) (huser : ∀ b, (f b).UserID = b.UserID)
    (hcomm : ∀ b p, f (withJoin p b) = withJoin p (f b)) (b : CourtBooking) :
    bookingJoin db (f b) = (bookingJoin db b).map f := by
  rw [bookingJoin_eq, bookingJoin_eq, hcourt, huser]
  simp only [List.map_flatMap, List.map_map, Function.comp_def, hcomm]

/-- Reading a booking after its table went through a row update that keeps the identifiers:
the row read before, updated, with the payment of the new database. -/
theorem getByID_map (db db1 : DB) (f : CourtBooking → CourtBooking)
    (hu : db1.users = db.users) (hv : db1.venues = db.venues) (hc : db1.courts = db.courts)
    (hb : db1.bookings = db.bookings.map f)
    (hid : ∀ b, (f b).ID = b.ID)
    (hcourt : ∀ b, (f b).CourtID = b.CourtID) (huser : ∀ b, (f b).UserID = b.UserID)
    (hcomm : ∀ b p, f (withJoin p b) = withJoin p (f b))
    (hpay : ∀ b pay, withPayment none (f (withPayment pay b)) = withPayment none (f b))
    (id : UUID) :
    bookingRepository.GetByID db1 id
      = (bookingRepository.GetByID db id).map
          (fun r => withPayment (bookingRepository.GetPayment db1 id) (f r)) := by
  have hrows : db1.bookings.flatMap (bookingJoin db1)
      = (db.bookings.flatMap (bookingJoin db)).map f := by
    rw [hb, List.flatMap_map, List.map_flatMap]
    apply List.flatMap_congr
    intro b _
    rw [bookingJoin_congr db db1 hu hv hc, bookingJoin_map db f hcourt huser hcomm]
  have hfilter : (fun b : CourtBooking => b.ID == id) ∘ f = fun b => b.ID == id := by
    funext b
    simp [hid]
  rw [getByID_eq, getByID_eq, hrows, List.filter_map, hfilter, List.head?_map]
  cases ((db.bookings.flatMap (bookingJoin db)).filter fun b => b.ID == id).head? with
  | none => rfl
  | some b =>
    simp only [Option.map_some']
    congr 1
    have h1 := hpay b (bookingRepository.GetPayment db id)
    have e1 : ∀ (x : CourtBooking) (q : Option Payment),
        withPayment q x = withPayment q (withPayment none x) := fun _ _ => rfl
    rw [e1 (f b), e1 (f (withPayment _ b)), h1]

/-- A booking that `GetByID` finds has the requested identifier, carries the payment that
`GetPayment` finds, and is a row of the table. -/
theorem getByID_some (db : DB) (id : UUID) (b : CourtBooking)
    (h : bookingRepository.GetByID db id = some b) :
    b.ID = id ∧ b.Payment = bookingRepository.GetPayment db id
      ∧ ∃ b0 ∈ db.bookings, b0.ID = id ∧ b0.Status = b.Status ∧ b0.UserID = b.UserID
          ∧ b0.TotalAmount = b.TotalAmount ∧ b0.CancelledAt = b.CancelledAt := by
  unfold bookingRepository.GetByID at h
  split at h
  · cases h
  rename_i x hx
  have hm := List.mem_of_mem_head? hx
  simp only [List.mem_filter, List.mem_flatMap, beq_iff_eq] at hm
  obtain ⟨⟨b0, hb0, hj⟩, hxid⟩ := hm
  unfold bookingJoin at hj
  simp only [List.mem_flatMap, List.mem_filter, List.mem_map, beq_iff_eq] at hj
  obtain ⟨c, _, v, _, u, _, rfl⟩ := hj
  injection h with h
  subst h
  exact ⟨hxid, rfl, b0, hb0, hxid, rfl, rfl, rfl, rfl⟩

/-- The update of a booking that `GetByID` found affects at least one row. -/
theorem update_rows_of_getByID (db : DB) (id : UUID) (b : CourtBooking)
    (h : bookingRepository.GetByID db id = some b) :
    (db.bookings.filter (fun x => x.ID == id)).length ≠ 0 := by
  obtain ⟨-, -, b0, hb0, hid, -⟩ := getByID_some db id b h
  have : b0 ∈ db.bookings.filter (fun x => x.ID == id) := by
    simp [List.mem_filter, hb0, hid]
  intro h0
  rw [List.length_eq_zero] at h0
  rw [h0] at this
  cases this

theorem updateRow_id (bk b : CourtBooking) : (updateRow bk b).ID = b.ID := by
  unfold updateRow; split <;> rfl

theorem updateRow_courtID (bk b : CourtBooking) : (updateRow bk b).CourtID = b.CourtID := by
  unfold updateRow; split <;> rfl

theorem updateRow_userID (bk b : CourtBooking) : (updateRow bk b).UserID = b.UserID := by
  unfold updateRow; split <;> rfl

theorem updateRow_withJoin (bk b : CourtBooking) (p : ℚ) :
    updateRow bk (withJoin p b) = withJoin p (updateRow bk b) := by
  unfold updateRow withJoin; split <;> rfl

theorem updateRow_withPayment (bk b : CourtBooking) (pay : Option Payment) :
    updateRow bk (withPayment pay b) = withPayment pay (updateRow bk b) := by
  unfold updateRow withPayment; split <;> rfl

theorem cancelRow_id (now : Nat) (id : UUID) (b : CourtBooking) :
    (cancelRow now id b).ID = b.ID := by
  unfold cancelRow; split <;> rfl

theorem cancelRow_courtID (now : Nat) (id : UUID) (b : CourtBooking) :
    (cancelRow now id b).CourtID = b.CourtID := by
  unfold cancelRow; split <;> rfl

theorem cancelRow_userID (now : Nat) (id : UUID) (b : CourtBooking) :
    (cancelRow now id b).UserID = b.UserID := by
  unfold cancelRow; split <;> rfl

theorem cancelRow_withJoin (now : Nat) (id : UUID) (b : CourtBooking) (p : ℚ) :
    cancelRow now id (withJoin p b) = withJoin p (cancelRow now id b) := by
  unfold cancelRow withJoin; split <;> rfl

theorem cancelRow_withPayment (now : Nat) (id : UUID) (b : CourtBooking)
    (pay : Option Payment) :
    cancelRow now id (withPayment pay b) = withPayment pay (cancelRow now id b) := by
  unfold cancelRow withPayment; split <;> rfl

theorem withPayment_self (b : CourtBooking) : withPayment b.Payment b = b := rfl

/-- Reading a booking after `Update` wrote `bk` (payments as before): the row read before,
with the written status, notes and update time if it has the identifier of `bk`. -/
theorem getByID_updateRow (db db1 : DB) (bk : CourtBooking)
    (hu : db1.users = db.users) (hv : db1.venues = db.venues) (hc : db1.courts = db.courts)
    (hp : db1.payments = db.payments)
    (hb : db1.bookings = db.bookings.map (updateRow bk)) (id : UUID) :
    bookingRepository.GetByID db1 id
      = (bookingRepository.GetByID db id).map (updateRow bk) := by
  rw [getByID_map db db1 (updateRow bk) hu hv hc hb (updateRow_id bk) (updateRow_courtID bk)
    (updateRow_userID bk) (updateRow_withJoin bk)
    (fun b pay => by rw [updateRow_withPayment]; rfl) id]
  cases h : bookingRepository.GetByID db id with
  | none => rfl
  | some r =>
    obtain ⟨-, hpay, -⟩ := getByID_some db id r h
    simp only [Option.map_some']
    congr 1
    have : bookingRepository.GetPayment db1 id = r.Payment := by
      rw [hpay]; unfold bookingRepository.GetPayment; rw [hp]
    rw [this, ← updateRow_withPayment]
    rfl

/-- Reading a booking after `CancelBooking` of `cid` (payments as before). -/
theorem getByID_cancelRow (db db1 : DB) (now : Nat) (cid : UUID)
    (hu : db1.users = db.users) (hv : db1.venues = db.venues) (hc : db1.courts = db.courts)
    (hp : db1.payments = db.payments)
    (hb : db1.bookings = db.bookings.map (cancelRow now cid)) (id : UUID) :
    bookingRepository.GetByID db1 id
      = (bookingRepository.GetByID db id).map (cancelRow now cid) := by
  rw [getByID_map db db1 (cancelRow now cid) hu hv hc hb (cancelRow_id now cid)
    (cancelRow_courtID now cid) (cancelRow_userID now cid) (cancelRow_withJoin now cid)
    (fun b pay => by rw [cancelRow_withPayment]; rfl) id]
  cases h : bookingRepository.GetByID db id with
  | none => rfl
  | some r =>
    obtain ⟨-, hpay, -⟩ := getByID_some db id r h
    simp only [Option.map_some']
    congr 1
    have : bookingRepository.GetPayment db1 id = r.Payment := by
      rw [hpay]; unfold bookingRepository.GetPayment; rw [hp]
    rw [this, ← cancelRow_withPayment]
    rfl

/-- Reading a booking after a change of the payments table only. -/
theorem getByID_payments (db db1 : DB)
    (hu : db1.users = db.users) (hv : db1.venues = db.venues) (hc : db1.courts = db.courts)
    (hb : db1.bookings = db.bookings) (bid : UUID) :
    bookingRepository.GetByID db1 bid
      = (bookingRepository.GetByID db bid).map
          (withPayment (bookingRepository.GetPayment db1 bid)) := by
  have := getByID_map db db1 (fun b => b) hu hv hc (by rw [hb]; simp) (fun _ => rfl)
    (fun _ => rfl) (fun _ => rfl) (fun _ _ => rfl) (fun _ _ => rfl) bid
  simpa using this

/-- The ways `CreatePayment` can end.  Either it returns an error with the store untouched, or
the guards passed and the payment was inserted; then the call returned the response (cash, or
booking confirmed) or the confirming update failed with the payment in place. -/
theorem createPayment_cases (faults : Faults) (db : DB) (now : Nat)
    (newID bookingID userID : UUID) (req : CreatePaymentRequest) :
    (∃ msg, useCase.CreatePayment faults db now newID bookingID userID req = (.error msg, db))
      ∨ ∃ booking, bookingRepository.GetByID db bookingID = some booking
          ∧ booking.Status = BookingStatusPending ∧ booking.Payment = none
          ∧ req.Amount = booking.TotalAmount
          ∧ ((req.PaymentMethod = PaymentMethodCash
                ∧ useCase.CreatePayment faults db now newID bookingID userID req
                  = (paymentResponse (newPayment now newID bookingID userID req),
                     { db with payments :=
                        db.payments ++ [newPayment now newID bookingID userID req] }))
            ∨ (req.PaymentMethod ≠ PaymentMethodCash ∧ faults 2 = true
                ∧ useCase.CreatePayment faults db now newID bookingID userID req
                  = (.error "failed to update booking status: persistence failure",
                     { db with payments :=
                        db.payments ++ [newPayment now newID bookingID userID req] }))
            ∨ (req.PaymentMethod ≠ PaymentMethodCash ∧ faults 2 = false
                ∧ useCase.CreatePayment faults db now newID bookingID userID req
                  = (paymentResponse (newPayment now newID bookingID userID req),
                     { db with
                        payments := db.payments ++ [newPayment now newID bookingID userID req],
                        bookings := db.bookings.map (updateRow
                          { booking with Status := BookingStatusConfirmed,
                                         UpdatedAt := now }) }))) := by
  have hresp : ∀ (p : Payment) (d : DB),
      (match paymentResponse p with
        | .panic => (Outcome.panic, d)
        | .error msg => (Outcome.error msg, d)
        | .ok resp => (Outcome.ok resp, d)) = (paymentResponse p, d) := by
    intro p d
    cases paymentResponse p <;> rfl
  unfold useCase.CreatePayment
  cases h0 : faults 0
  swap
  · left; exact ⟨_, rfl⟩
  simp only [Bool.false_eq_true, if_false]
  cases hget : bookingRepository.GetByID db bookingID with
  | none => left; exact ⟨_, rfl⟩
  | some booking =>
    simp only
    by_cases hst : booking.Status = BookingStatusPending
    swap
    · left; simp only [ne_eq, hst, not_false_eq_true, if_true]; exact ⟨_, rfl⟩
    simp only [ne_eq, hst, not_true_eq_false, if_false]
    cases hpay : booking.Payment with
    | some p => left; simp only [Option.isSome_some, if_true]; exact ⟨_, rfl⟩
    | none =>
      simp only [Option.isSome_none, Bool.false_eq_true, if_false]
      by_cases hamt : req.Amount = booking.TotalAmount
      swap
      · left; simp only [hamt, not_false_eq_true, if_true]; exact ⟨_, rfl⟩
      have hamt1 : ¬ req.Amount ≠ booking.TotalAmount := not_not.mpr hamt
      simp only [hamt1, if_false]
      cases h1 : faults 1
      swap
      · left; simp only [if_true]; exact ⟨_, rfl⟩
      right
      refine ⟨booking, rfl, hst, hpay, hamt, ?_⟩
      simp only [Bool.false_eq_true, if_false, bookingRepository.CreatePayment]
      by_cases hcash : req.PaymentMethod = PaymentMethodCash
      · left
        refine ⟨hcash, ?_⟩
        have hcash1 : ¬ req.PaymentMethod ≠ PaymentMethodCash := not_not.mpr hcash
        simp only [hcash1, if_false]
        exact hresp _ _
      · right
        have hcash1 : req.PaymentMethod ≠ PaymentMethodCash := hcash
        cases h2 : faults 2
        · right
          refine ⟨hcash, rfl, ?_⟩
          have hrows := update_rows_of_getByID db bookingID booking hget
          have hid := (getByID_some db bookingID booking hget).1
          simp only [hcash1, if_true, Bool.false_eq_true, if_false,
            bookingRepository.Update, hid, hrows]
          exact hresp _ _
        · left
          refine ⟨hcash, rfl, ?_⟩
          simp only [hcash1, if_true]
          rfl

theorem getPayment_none_iff (db : DB) (bid : UUID) :
    bookingRepository.GetPayment db bid = none ↔ paymentCount db bid = 0 := by
  unfold bookingRepository.GetPayment paymentCount
  rw [List.head?_eq_none_iff, List.length_eq_zero]

/-- The guards of `CreatePayment`: a booking that is not pending, or has a payment, or whose
amount differs from the requested one, makes the call return an error with the store
untouched. -/
theorem createPayment_rejects (faults : Faults) (db : DB) (now : Nat)
    (newID bookingID userID : UUID) (req : CreatePaymentRequest) (booking : CourtBooking)
    (hget : bookingRepository.GetByID db bookingID = some booking)
    (h : booking.Status ≠ BookingStatusPending ∨ booking.Payment ≠ none
      ∨ req.Amount ≠ booking.TotalAmount) :
    ∃ msg, useCase.CreatePayment faults db now newID bookingID userID req
      = (.error msg, db) := by
  rcases createPayment_cases faults db now newID bookingID userID req with hrej | hok
  · exact hrej
  · exfalso
    obtain ⟨b, hb, hst, hpay, hamt, -⟩ := hok
    rw [hget] at hb
    injection hb with hb
    subst hb
    rcases h with h | h | h
    · exact h hst
    · exact h hpay
    · exact h hamt

/-- With working persistence, a pending booking without payment, the booking's amount and a
transaction identifier, `CreatePayment` returns the payment response. -/
theorem createPayment_succeeds (db : DB) (now : Nat) (newID bookingID userID : UUID)
    (req : CreatePaymentRequest) (booking : CourtBooking) (tx : String)
    (hget : bookingRepository.GetByID db bookingID = some booking)
    (hst : booking.Status = BookingStatusPending) (hpay : booking.Payment = none)
    (hamt : req.Amount = booking.TotalAmount) (htx : req.TransactionID = some tx) :
    ∃ resp db1, useCase.CreatePayment noFaults db now newID bookingID userID req
      = (.ok resp, db1) := by
  have hresp : ∃ resp, paymentResponse (newPayment now newID bookingID userID req)
      = .ok resp := by
    unfold paymentResponse newPayment
    simp only [htx]
    exact ⟨_, rfl⟩
  obtain ⟨resp, hresp⟩ := hresp
  rcases createPayment_cases noFaults db now newID bookingID userID req with ⟨msg, hrej⟩ | hok
  · exfalso
    unfold useCase.CreatePayment at hrej
    simp only [noFaults, Bool.false_eq_true, if_false, hget, hst, hpay, hamt, ne_eq,
      not_true_eq_false, Option.isSome_none, bookingRepository.CreatePayment] at hrej
    split at hrej
    · cases hrej
    · rename_i heq
      split at heq
      · unfold bookingRepository.Update at heq
        split at heq
        · rename_i h0
          exact update_rows_of_getByID db bookingID booking hget
            (by rw [← (getByID_some db bookingID booking hget).1]; exact h0)
        · cases heq
      · cases heq
    · have h2 := congrArg Prod.fst hrej
      split at h2
      · cases h2
      · rename_i hr; rw [← hamt] at hr
        have : paymentResponse (newPayment now newID bookingID userID req)
            = Outcome.error _ := hr
        rw [hresp] at this; cases this
      · cases h2
  · obtain ⟨b, -, -, -, -, h | ⟨-, h2, -⟩ | ⟨-, -, h⟩⟩ := hok
    · rw [h.2, hresp]; exact ⟨_, _, rfl⟩
    · cases h2
    · rw [h, hresp]; exact ⟨_, _, rfl⟩

/-- C11: with working persistence, a pending booking without payment and a request for exactly
its amount but without the optional transaction identifier, `CreatePayment` does not return:
it stores the payment, confirms the booking and then panics on `*payment.TransactionID`. -/
theorem createPayment_missing_transaction_panics :
    bookingRepository.GetByID dbB 100 = some { bookingW1 with PricePerHour := 100 }
      ∧ bookingW1.Status = BookingStatusPending ∧ bookingW1.Payment = none
      ∧ requestCardNoTx.Amount = bookingW1.TotalAmount
      ∧ useCase.CreatePayment noFaults dbB nowA 500 100 7 requestCardNoTx
        = (.panic,
           { dbB with
              bookings := [{ bookingW1 with Status := "confirmed" }],
              payments := [newPayment nowA 500 100 7 requestCardNoTx] }) := by
  refine ⟨by decide!, rfl, rfl, by decide!, by decide!⟩

theorem getPayment_append (db : DB) (bid : UUID) (p : Payment) (hp : p.BookingID = bid)
    (hnone : bookingRepository.GetPayment db bid = none) (db1 : DB)
    (h1 : db1.payments = db.payments ++ [p]) :
    bookingRepository.GetPayment db1 bid = some p := by
  unfold bookingRepository.GetPayment at *
  rw [List.head?_eq_none_iff] at hnone
  rw [h1, List.filter_append, hnone]
  simp [hp]

/-- C12: after every successful `CreatePayment` the payment appended to the store, which is the
one read back for the booking, has status `pending` and the booking's `total_amount`, and the
booking read back is `confirmed` when the method is not cash and still `pending` when it is. -/
theorem createPayment_success_state (faults : Faults) (db : DB) (now : Nat)
    (newID bookingID userID : UUID) (req : CreatePaymentRequest) (resp : PaymentResponse)
    (db1 : DB)
    (h : useCase.CreatePayment faults db now newID bookingID userID req = (.ok resp, db1)) :
    ∃ booking p b1,
      bookingRepository.GetByID db bookingID = some booking
        ∧ db1.payments = db.payments ++ [p]
        ∧ bookingRepository.GetPayment db1 bookingID = some p
        ∧ p.BookingID = bookingID ∧ p.Status = PaymentStatusPending
        ∧ p.Amount = booking.TotalAmount ∧ p.PaymentMethod = req.PaymentMethod
        ∧ bookingRepository.GetByID db1 bookingID = some b1
        ∧ b1.Payment = some p ∧ b1.TotalAmount = booking.TotalAmount
        ∧ (req.PaymentMethod ≠ PaymentMethodCash → b1.Status = BookingStatusConfirmed)
        ∧ (req.PaymentMethod = PaymentMethodCash → b1.Status = BookingStatusPending) := by
  rcases createPayment_cases faults db now newID bookingID userID req with ⟨msg, hrej⟩ | hok
  · rw [hrej] at h; cases h
  obtain ⟨booking, hget, hst, hpay, hamt, hcase⟩ := hok
  have hnone : bookingRepository.GetPayment db bookingID = none := by
    rw [← (getByID_some db bookingID booking hget).2.1]; exact hpay
  have hbid := (getByID_some db bookingID booking hget).1
  have hpB : (newPayment now newID bookingID userID req).BookingID = bookingID := rfl
  have hpS : (newPayment now newID bookingID userID req).Status = PaymentStatusPending := rfl
  have hpA : (newPayment now newID bookingID userID req).Amount = booking.TotalAmount := hamt
  have hpM : (newPayment now newID bookingID userID req).PaymentMethod = req.PaymentMethod :=
    rfl
  generalize newPayment now newID bookingID userID req = p at *
  rcases hcase with ⟨hcash, heq⟩ | ⟨-, -, heq⟩ | ⟨hcash, -, heq⟩
  · rw [heq] at h
    injection h with h1 h2
    have hgp := getPayment_append db bookingID p hpB hnone db1 (by rw [← h2])
    have hg1 := getByID_payments db db1 (by rw [← h2]) (by rw [← h2]) (by rw [← h2])
      (by rw [← h2]) bookingID
    rw [hget, hgp] at hg1
    exact ⟨booking, p, _, hget, by rw [← h2], hgp, hpB, hpS, hpA, hpM, hg1, rfl, rfl,
      fun hne => absurd hcash hne, fun _ => hst⟩
  · rw [heq] at h; cases h
  · rw [heq] at h
    injection h with h1 h2
    have hgp := getPayment_append db bookingID p hpB hnone db1 (by rw [← h2])
    have hg1 := getByID_map db db1
      (updateRow (withPayment booking.Payment
        { booking with Status := BookingStatusConfirmed, UpdatedAt := now }))
      (by rw [← h2]) (by rw [← h2]) (by rw [← h2]) (by rw [← h2]; rfl) (updateRow_id _)
      (updateRow_courtID _) (updateRow_userID _) (updateRow_withJoin _)
      (fun b pay => by rw [updateRow_withPayment]; rfl) bookingID
    rw [hget, hgp] at hg1
    refine ⟨booking, p, _, hget, by rw [← h2], hgp, hpB, hpS, hpA, hpM, hg1, rfl, ?_,
      fun _ => ?_, fun hc => absurd hc hcash⟩
    · simp only [withPayment, updateRow]
      split <;> rfl
    · simp [withPayment, updateRow, hbid]

/-- Witness of C12: scenario D, the card payment of the pending 14:00-16:00 booking. -/
theorem createPayment_success_state_witness :
    useCase.CreatePayment noFaults dbB nowA 500 100 7 requestCard = (.ok respCard, dbCard)
      ∧ ∃ booking p b1,
        bookingRepository.GetByID dbB 100 = some booking
          ∧ dbCard.payments = dbB.payments ++ [p]
          ∧ bookingRepository.GetPayment dbCard 100 = some p
          ∧ p.BookingID = 100 ∧ p.Status = PaymentStatusPending
          ∧ p.Amount = booking.TotalAmount ∧ p.PaymentMethod = requestCard.PaymentMethod
          ∧ bookingRepository.GetByID dbCard 100 = some b1
          ∧ b1.Payment = some p ∧ b1.TotalAmount = booking.TotalAmount
          ∧ (requestCard.PaymentMethod ≠ PaymentMethodCash → b1.Status = BookingStatusConfirmed)
          ∧ (requestCard.PaymentMethod = PaymentMethodCash → b1.Status = BookingStatusPending) :=
  ⟨by decide!,
    createPayment_success_state noFaults dbB nowA 500 100 7 requestCard respCard dbCard
      (by decide!)⟩

theorem updateBooking_eq (faults : Faults) (db : DB) (now : Nat) (id : UUID)
    (req : UpdateBookingRequest) :
    useCase.UpdateBooking faults db now id req
      = match (if faults 0 then none else bookingRepository.GetByID db id) with
        | none => (.error "booking not found", db)
        | some booking =>
          if booking.Status = BookingStatusCancelled then
            (.error "cannot update cancelled booking", db)
          else if booking.Status = BookingStatusConfirmed then
            (.error "cannot update confirm booking", db)
          else
            match (if faults 1 then (.error "persistence failure", db)
                   else bookingRepository.Update db (updatedBooking now req booking)) with
            | (.panic, db1) => (.panic, db1)
            | (.error msg, db1) => (.error ("failed to update booking: " ++ msg), db1)
            | (.ok _, db1) => (.ok (updatedBooking now req booking), db1) := by
  rfl

/-- The ways `UpdateBooking` can end: an error with the store untouched, or the booking read
was neither cancelled nor confirmed and its rows were rewritten by `Update`. -/
theorem updateBooking_cases (faults : Faults) (db : DB) (now : Nat) (id : UUID)
    (req : UpdateBookingRequest) :
    (∃ msg, useCase.UpdateBooking faults db now id req = (.error msg, db))
      ∨ ∃ booking, bookingRepository.GetByID db id = some booking
          ∧ booking.Status ≠ BookingStatusCancelled
          ∧ booking.Status ≠ BookingStatusConfirmed
          ∧ useCase.UpdateBooking faults db now id req
            = (.ok (updatedBooking now req booking),
               { db with bookings :=
                  db.bookings.map (updateRow (updatedBooking now req booking)) }) := by
  rw [updateBooking_eq]
  cases h0 : faults 0
  swap
  · left; exact ⟨_, rfl⟩
  simp only [Bool.false_eq_true, if_false]
  cases hget : bookingRepository.GetByID db id with
  | none => left; exact ⟨_, rfl⟩
  | some booking =>
    simp only
    by_cases hc : booking.Status = BookingStatusCancelled
    · left; rw [if_pos hc]; exact ⟨_, rfl⟩
    rw [if_neg hc]
    by_cases hf : booking.Status = BookingStatusConfirmed
    · left; rw [if_pos hf]; exact ⟨_, rfl⟩
    rw [if_neg hf]
    cases h1 : faults 1
    swap
    · left; simp only [if_true]; exact ⟨_, rfl⟩
    right
    refine ⟨booking, rfl, hc, hf, ?_⟩
    have hrows : (db.bookings.filter
        (fun b => b.ID == (updatedBooking now req booking).ID)).length ≠ 0 := by
      have hid : (updatedBooking now req booking).ID = id := by
        have := (getByID_some db id booking hget).1
        unfold updatedBooking
        split <;> split <;> exact this
      rw [hid]
      exact update_rows_of_getByID db id booking hget
    simp only [Bool.false_eq_true, if_false, bookingRepository.Update, hrows]

/-- C20: `UpdateBooking` on a booking whose status is `cancelled` or `confirmed` returns an
error and changes nothing.  When it succeeds, the booking read was neither, the other tables
are untouched, and every booking row keeps its identifier, court, user, date, start and end
times, total amount, creation time and cancellation time; rows of other bookings are
unchanged; the rows of the booking get the requested status (the old one when none is given),
the requested notes (the old ones when none are given) and the new update time, and the
booking is read back with those values. -/
theorem updateBooking_frame (faults : Faults) (db : DB) (now : Nat) (id : UUID)
    (req : UpdateBookingRequest) :
    (∀ booking, bookingRepository.GetByID db id = some booking →
        (booking.Status = BookingStatusCancelled ∨ booking.Status = BookingStatusConfirmed) →
        ∃ msg, useCase.UpdateBooking faults db now id req = (.error msg, db))
      ∧ ∀ r db1, useCase.UpdateBooking faults db now id req = (.ok r, db1) →
        ∃ booking g, bookingRepository.GetByID db id = some booking
          ∧ booking.Status ≠ BookingStatusCancelled ∧ booking.Status ≠ BookingStatusConfirmed
          ∧ db1 = { db with bookings := db.bookings.map g }
          ∧ (∀ b, (g b).ID = b.ID ∧ (g b).CourtID = b.CourtID ∧ (g b).UserID = b.UserID
              ∧ (g b).Date = b.Date ∧ (g b).StartTime = b.StartTime
              ∧ (g b).EndTime = b.EndTime ∧ (g b).TotalAmount = b.TotalAmount
              ∧ (g b).CreatedAt = b.CreatedAt ∧ (g b).CancelledAt = b.CancelledAt)
          ∧ (∀ b, b.ID ≠ id → g b = b)
          ∧ (∀ b, b.ID = id →
              (g b).Status = (if req.Status = "" then booking.Status else req.Status)
                ∧ (g b).Notes = (if req.Notes = none then booking.Notes else req.Notes)
                ∧ (g b).UpdatedAt = now)
          ∧ bookingRepository.GetByID db1 id = some (g booking) := by
  constructor
  · intro booking hget hst
    rcases updateBooking_cases faults db now id req with hrej | ⟨b, hb, hc, hf, -⟩
    · exact hrej
    · rw [hget] at hb
      injection hb with hb
      subst hb
      rcases hst with h | h
      · exact absurd h hc
      · exact absurd h hf
  · intro r db1 h
    rcases updateBooking_cases faults db now id req with ⟨msg, hrej⟩ | ⟨booking, hget, hc, hf, heq⟩
    · rw [hrej] at h; cases h
    rw [heq] at h
    injection h with h1 h2
    have hid : (updatedBooking now req booking).ID = id := by
      have := (getByID_some db id booking hget).1
      unfold updatedBooking
      split <;> split <;> exact this
    refine ⟨booking, updateRow (updatedBooking now req booking), hget, hc, hf, h2.symm, ?_, ?_,
      ?_, ?_⟩
    · intro b
      unfold updateRow
      split <;> exact ⟨rfl, rfl, rfl, rfl, rfl, rfl, rfl, rfl, rfl⟩
    · intro b hb
      unfold updateRow
      rw [hid]
      simp [hb]
    · intro b hb
      unfold updateRow
      rw [hid]
      simp only [hb, beq_self_eq_true, if_true]
      unfold updatedBooking
      by_cases hs : req.Status = "" <;> cases hn : req.Notes <;> simp [hs]
    · rw [getByID_updateRow db db1 (updatedBooking now req booking) (by rw [← h2])
        (by rw [← h2]) (by rw [← h2]) (by rw [← h2]) (by rw [← h2]) id, hget]
      rfl

/-- Witness of C20: a notes-only update of the pending 14:00-16:00 booking. -/
theorem updateBooking_frame_witness :
    (useCase.UpdateBooking noFaults dbB (nowA + 5) 100 requestNotes).2
        = { dbB with bookings :=
              [{ bookingW1 with Notes := some "bring shuttles", UpdatedAt := nowA + 5 }] }
      ∧ (∃ msg, useCase.UpdateBooking noFaults dbCard (nowA + 5) 100 requestNotes
          = (.error msg, dbCard))
      ∧ ((∀ booking, bookingRepository.GetByID dbB 100 = some booking →
        (booking.Status = BookingStatusCancelled ∨ booking.Status = BookingStatusConfirmed) →
        ∃ msg, useCase.UpdateBooking noFaults dbB (nowA + 5) 100 requestNotes
          = (.error msg, dbB))
      ∧ ∀ r db1, useCase.UpdateBooking noFaults dbB (nowA + 5) 100 requestNotes = (.ok r, db1) →
        ∃ booking g, bookingRepository.GetByID dbB 100 = some booking
          ∧ booking.Status ≠ BookingStatusCancelled ∧ booking.Status ≠ BookingStatusConfirmed
          ∧ db1 = { dbB with bookings := dbB.bookings.map g }
          ∧ (∀ b, (g b).ID = b.ID ∧ (g b).CourtID = b.CourtID ∧ (g b).UserID = b.UserID
              ∧ (g b).Date = b.Date ∧ (g b).StartTime = b.StartTime
              ∧ (g b).EndTime = b.EndTime ∧ (g b).TotalAmount = b.TotalAmount
              ∧ (g b).CreatedAt = b.CreatedAt ∧ (g b).CancelledAt = b.CancelledAt)
          ∧ (∀ b, b.ID ≠ 100 → g b = b)
          ∧ (∀ b, b.ID = 100 →
              (g b).Status
                  = (if requestNotes.Status = "" then booking.Status else requestNotes.Status)
                ∧ (g b).Notes
                  = (if requestNotes.Notes = none then booking.Notes else requestNotes.Notes)
                ∧ (g b).UpdatedAt = nowA + 5)
          ∧ bookingRepository.GetByID db1 100 = some (g booking)) :=
  ⟨by decide!,
    (updateBooking_frame noFaults dbCard (nowA + 5) 100 requestNotes).1
      { bookingW1 with Status := "confirmed", PricePerHour := 100,
                       Payment := some (newPayment nowA 500 100 7 requestCard) }
      (by decide!) (Or.inr rfl),
    updateBooking_frame noFaults dbB (nowA + 5) 100 requestNotes⟩

theorem handlePaymentStatus_eq (faults : Faults) (db : DB) (now : Nat) (bookingID : UUID)
    (paymentStatus : String) :
    useCase.handlePaymentStatus faults db now bookingID paymentStatus
      = match (if faults 0 then none else bookingRepository.GetByID db bookingID) with
        | none => (.error "booking not found", db)
        | some booking =>
          match (if faults 1 then (.error "persistence failure", db)
                 else bookingRepository.Update db (statusBooking now paymentStatus booking)) with
          | (.panic, db1) => (.panic, db1)
          | (.error msg, db1) => (.error ("failed to update booking status: " ++ msg), db1)
          | (.ok _, db1) => (.ok (), db1) := by
  rfl

theorem statusBooking_id (now : Nat) (st : String) (booking : CourtBooking) :
    (statusBooking now st booking).ID = booking.ID := by
  unfold statusBooking
  split
  · rfl
  split
  · rfl
  split <;> rfl

/-- The ways `handlePaymentStatus` can end: an error with the store untouched, or the rows of
the booking rewritten by `Update`. -/
theorem handlePaymentStatus_cases (faults : Faults) (db : DB) (now : Nat) (bookingID : UUID)
    (paymentStatus : String) :
    (∃ msg, useCase.handlePaymentStatus faults db now bookingID paymentStatus
        = (.error msg, db))
      ∨ ∃ booking, bookingRepository.GetByID db bookingID = some booking
          ∧ useCase.handlePaymentStatus faults db now bookingID paymentStatus
            = (.ok (),
               { db with bookings :=
                  db.bookings.map (updateRow (statusBooking now paymentStatus booking)) }) := by
  rw [handlePaymentStatus_eq]
  cases h0 : faults 0
  swap
  · left; exact ⟨_, rfl⟩
  simp only [Bool.false_eq_true, if_false]
  cases hget : bookingRepository.GetByID db bookingID with
  | none => left; exact ⟨_, rfl⟩
  | some booking =>
    simp only
    cases h1 : faults 1
    swap
    · left; simp only [if_true]; exact ⟨_, rfl⟩
    right
    refine ⟨booking, rfl, ?_⟩
    have hrows : (db.bookings.filter
        (fun b => b.ID == (statusBooking now paymentStatus booking).ID)).length ≠ 0 := by
      rw [statusBooking_id, (getByID_some db bookingID booking hget).1]
      exact update_rows_of_getByID db bookingID booking hget
    simp only [Bool.false_eq_true, if_false, bookingRepository.Update, hrows]

theorem updatePayment_eq (faults : Faults) (db : DB) (now : Nat) (id userID : UUID)
    (req : UpdatePaymentRequest) :
    useCase.UpdatePayment faults db now id userID req
      = match (if faults 0 then none else bookingRepository.GetPayment db id) with
        | none => (.error "payment not found", db)
        | some payment =>
          if payment.UserID ≠ userID then (.error "unauthorized to update this payment", db)
          else if payment.Status ≠ PaymentStatusPending then
            (.error "payment already completed", db)
          else
            match (if faults 1 then (.error "persistence failure", db)
                   else bookingRepository.UpdatePayment db (updatedPayment now req payment)) with
            | (.panic, db1) => (.panic, db1)
            | (.error msg, db1) => (.error ("failed to update payment: " ++ msg), db1)
            | (.ok _, db1) =>
              match useCase.handlePaymentStatus (fun k => faults (k + 2)) db1 now
                  (updatedPayment now req payment).BookingID
                  (updatedPayment now req payment).Status with
              | (.panic, db2) => (.panic, db2)
              | (.error msg, db2) => (.error ("failed to update booking status: " ++ msg), db2)
              | (.ok _, db2) =>
                match paymentResponse (updatedPayment now req payment) with
                | .panic => (.panic, db2)
                | .error msg => (.error msg, db2)
                | .ok resp => (.ok resp, db2) := by
  rfl

theorem getPayment_some (db : DB) (bid : UUID) (p : Payment)
    (h : bookingRepository.GetPayment db bid = some p) :
    p ∈ db.payments ∧ p.BookingID = bid := by
  unfold bookingRepository.GetPayment at h
  have := List.mem_of_mem_head? h
  simpa [List.mem_filter] using this

theorem updatedPayment_fields (now : Nat) (req : UpdatePaymentRequest) (p : Payment) :
    (updatedPayment now req p).ID = p.ID ∧ (updatedPayment now req p).BookingID = p.BookingID
      ∧ (updatedPayment now req p).Status = (if req.Status ≠ "" then req.Status else p.Status)
      ∧ (updatedPayment now req p).UpdatedAt = now := by
  unfold updatedPayment
  split <;> exact ⟨rfl, rfl, rfl, rfl⟩

/-- The ways `UpdatePayment` can end: an error with the store untouched; or the guards passed
and the payment row was rewritten, after which either the booking update failed or the rows of
the booking were rewritten too and the response built. -/
theorem updatePayment_cases (faults : Faults) (db : DB) (now : Nat) (id userID : UUID)
    (req : UpdatePaymentRequest) :
    (∃ msg, useCase.UpdatePayment faults db now id userID req = (.error msg, db))
      ∨ ∃ payment, bookingRepository.GetPayment db id = some payment
          ∧ payment.UserID = userID ∧ payment.Status = PaymentStatusPending
          ∧ ((∃ msg, useCase.UpdatePayment faults db now id userID req
                = (.error msg,
                   { db with payments :=
                      db.payments.map (updatePaymentRow (updatedPayment now req payment)) }))
            ∨ ∃ booking,
                bookingRepository.GetByID
                    { db with payments :=
                        db.payments.map (updatePaymentRow (updatedPayment now req payment)) }
                    id = some booking
                ∧ useCase.UpdatePayment faults db now id userID req
                  = (paymentResponse (updatedPayment now req payment),
                     { db with
                        payments :=
                          db.payments.map (updatePaymentRow (updatedPayment now req payment)),
                        bookings := db.bookings.map (updateRow
                          (statusBooking now (updatedPayment now req payment).Status
                            booking)) })) := by
  have hresp : ∀ (p : Payment) (d : DB),
      (match paymentResponse p with
        | .panic => (Outcome.panic, d)
        | .error msg => (Outcome.error msg, d)
        | .ok resp => (Outcome.ok resp, d)) = (paymentResponse p, d) := by
    intro p d
    cases paymentResponse p <;> rfl
  rw [updatePayment_eq]
  cases h0 : faults 0
  swap
  · left; exact ⟨_, rfl⟩
  simp only [Bool.false_eq_true, if_false]
  cases hget : bookingRepository.GetPayment db id with
  | none => left; exact ⟨_, rfl⟩
  | some payment =>
    simp only
    by_cases hu : payment.UserID = userID
    swap
    · left; rw [if_pos hu]; exact ⟨_, rfl⟩
    rw [if_neg (not_not.mpr hu)]
    by_cases hs : payment.Status = PaymentStatusPending
    swap
    · left; rw [if_pos hs]; exact ⟨_, rfl⟩
    rw [if_neg (not_not.mpr hs)]
    cases h1 : faults 1
    swap
    · left; simp only [if_true]; exact ⟨_, rfl⟩
    right
    refine ⟨payment, rfl, hu, hs, ?_⟩
    obtain ⟨hmem, hbid⟩ := getPayment_some db id payment hget
    have hrows : (db.payments.filter
        (fun p => p.ID == (updatedPayment now req payment).ID)).length ≠ 0 := by
      rw [(updatedPayment_fields now req payment).1]
      intro h0
      rw [List.length_eq_zero] at h0
      have : payment ∈ db.payments.filter (fun p => p.ID == payment.ID) := by
        simp [List.mem_filter, hmem]
      rw [h0] at this
      cases this
    simp only [Bool.false_eq_true, if_false, bookingRepository.UpdatePayment, hrows,
      (updatedPayment_fields now req payment).2.1, hbid]
    rcases handlePaymentStatus_cases (fun k => faults (k + 2))
      { db with payments :=
          db.payments.map (updatePaymentRow (updatedPayment now req payment)) }
      now id (updatedPayment now req payment).Status with ⟨msg, hh⟩ | ⟨booking, hb, hh⟩
    · left
      rw [hh]
      exact ⟨_, rfl⟩
    · right
      refine ⟨booking, hb, ?_⟩
      rw [hh]
      exact hresp _ _

/-- C16: when the caller is not the user of the payment, or the payment is not pending,
`UpdatePayment` returns an error and the store (payment and booking included) is unchanged. -/
theorem updatePayment_rejects (faults : Faults) (db : DB) (now : Nat) (id userID : UUID)
    (req : UpdatePaymentRequest) (payment : Payment)
    (hget : bookingRepository.GetPayment db id = some payment)
    (h : payment.UserID ≠ userID ∨ payment.Status ≠ PaymentStatusPending) :
    ∃ msg, useCase.UpdatePayment faults db now id userID req = (.error msg, db) := by
  rcases updatePayment_cases faults db now id userID req with hrej | ⟨p, hp, hu, hs, -⟩
  · exact hrej
  · rw [hget] at hp
    injection hp with hp
    subst hp
    rcases h with h | h
    · exact absurd hu h
    · exact absurd hs h

/-- Witness of C16: user 8 tries to update the payment of user 7. -/
theorem updatePayment_rejects_witness :
    ∃ msg, useCase.UpdatePayment noFaults dbP (nowA + 5) 100 8 ⟨"", "completed"⟩
      = (.error msg, dbP) :=
  updatePayment_rejects noFaults dbP (nowA + 5) 100 8 ⟨"", "completed"⟩ paymentP
    (by decide!) (Or.inl (by decide))

theorem updatePaymentRow_bookingID (p0 p : Payment) :
    (updatePaymentRow p0 p).BookingID = p.BookingID := by
  unfold updatePaymentRow; split <;> rfl

/-- Reading the payment of a booking after a row update that keeps the booking identifier. -/
theorem getPayment_map (db db1 : DB) (g : Payment → Payment)
    (hg : ∀ p, (g p).BookingID = p.BookingID) (h1 : db1.payments = db.payments.map g)
    (bid : UUID) :
    bookingRepository.GetPayment db1 bid = (bookingRepository.GetPayment db bid).map g := by
  have hfilter : (fun p : Payment => p.BookingID == bid) ∘ g = fun p => p.BookingID == bid := by
    funext p
    simp [hg]
  unfold bookingRepository.GetPayment
  rw [h1, List.filter_map, hfilter, List.head?_map]

theorem statusBooking_status (now : Nat) (st : String) (booking : CourtBooking) :
    (st = PaymentStatusCompleted → (statusBooking now st booking).Status = BookingStatusConfirmed)
      ∧ (st = PaymentStatusFailed → (statusBooking now st booking).Status = BookingStatusPending)
      ∧ (st = PaymentStatusRefunded →
          (statusBooking now st booking).Status = BookingStatusCancelled)
      ∧ (st ≠ PaymentStatusCompleted → st ≠ PaymentStatusFailed → st ≠ PaymentStatusRefunded →
          (statusBooking now st booking).Status = booking.Status) := by
  refine ⟨?_, ?_, ?_, ?_⟩
  · intro h; subst h; rfl
  · intro h; subst h; rfl
  · intro h; subst h; rfl
  · intro h1 h2 h3
    unfold statusBooking
    rw [if_neg h1, if_neg h2, if_neg h3]

/-- C14: after a successful `UpdatePayment` (the payment was pending and belongs to the caller)
the payment read back has the new status, and the booking read back is `confirmed` when the
new payment status is `completed`, `pending` when it is `failed`, `cancelled` when it is
`refunded`, and keeps the status it had for any other value. -/
theorem updatePayment_sets_booking_status (faults : Faults) (db : DB) (now : Nat)
    (id userID : UUID) (req : UpdatePaymentRequest) (resp : PaymentResponse) (db2 : DB)
    (h : useCase.UpdatePayment faults db now id userID req = (.ok resp, db2)) :
    ∃ payment booking b2 p2 newStatus,
      bookingRepository.GetPayment db id = some payment
        ∧ payment.UserID = userID ∧ payment.Status = PaymentStatusPending
        ∧ newStatus = (if req.Status ≠ "" then req.Status else payment.Status)
        ∧ bookingRepository.GetByID db id = some booking
        ∧ bookingRepository.GetPayment db2 id = some p2 ∧ p2.Status = newStatus
        ∧ bookingRepository.GetByID db2 id = some b2
        ∧ (newStatus = PaymentStatusCompleted → b2.Status = BookingStatusConfirmed)
        ∧ (newStatus = PaymentStatusFailed → b2.Status = BookingStatusPending)
        ∧ (newStatus = PaymentStatusRefunded → b2.Status = BookingStatusCancelled)
        ∧ (newStatus ≠ PaymentStatusCompleted → newStatus ≠ PaymentStatusFailed →
            newStatus ≠ PaymentStatusRefunded → b2.Status = booking.Status) := by
  rcases updatePayment_cases faults db now id userID req with ⟨msg, hrej⟩ | hok
  · rw [hrej] at h; cases h
  obtain ⟨payment, hget, hu, hs, ⟨msg, herr⟩ | ⟨booking1, hb1, heq⟩⟩ := hok
  · rw [herr] at h; cases h
  rw [heq] at h
  injection h with h1 h2
  obtain ⟨hpid, hpbid, hpst, -⟩ := updatedPayment_fields now req payment
  -- the booking as read before the call
  have hg1 := getByID_payments db
    { db with payments :=
        db.payments.map (updatePaymentRow (updatedPayment now req payment)) }
    rfl rfl rfl rfl id
  rw [hb1] at hg1
  cases hg0 : bookingRepository.GetByID db id with
  | none => rw [hg0] at hg1; cases hg1
  | some booking =>
    rw [hg0] at hg1
    simp only [Option.map_some', Option.some.injEq] at hg1
    have hst1 : booking1.Status = booking.Status := by rw [hg1]; rfl
    have hid1 : booking1.ID = id := (getByID_some _ id booking1 hb1).1
    -- the payment read after the call
    have hgp2 : bookingRepository.GetPayment db2 id
        = some (updatePaymentRow (updatedPayment now req payment) payment) := by
      rw [getPayment_map db db2 (updatePaymentRow (updatedPayment now req payment))
        (updatePaymentRow_bookingID _) (by rw [← h2]) id, hget]
      rfl
    have hp2st : (updatePaymentRow (updatedPayment now req payment) payment).Status
        = (updatedPayment now req payment).Status := by
      unfold updatePaymentRow
      rw [hpid]
      simp
    -- the booking read after the call
    have hg2 := getByID_updateRow
      { db with payments :=
          db.payments.map (updatePaymentRow (updatedPayment now req payment)) }
      db2 (statusBooking now (updatedPayment now req payment).Status booking1)
      (by rw [← h2]) (by rw [← h2]) (by rw [← h2]) (by rw [← h2]) (by rw [← h2]) id
    rw [hb1] at hg2
    simp only [Option.map_some'] at hg2
    have hb2st : (updateRow (statusBooking now (updatedPayment now req payment).Status booking1)
        booking1).Status
        = (statusBooking now (updatedPayment now req payment).Status booking1).Status := by
      unfold updateRow
      rw [statusBooking_id]
      simp
    obtain ⟨s1, s2, s3, s4⟩ :=
      statusBooking_status now (updatedPayment now req payment).Status booking1
    refine ⟨payment, booking, _, _, (updatedPayment now req payment).Status, hget, hu, hs,
      hpst, rfl, hgp2, hp2st, hg2, ?_, ?_, ?_, ?_⟩
    · intro hc; rw [hb2st]; exact s1 hc
    · intro hc; rw [hb2st]; exact s2 hc
    · intro hc; rw [hb2st]; exact s3 hc
    · intro c1 c2 c3; rw [hb2st, s4 c1 c2 c3, hst1]

/-- Witness of C14: the owner completes the pending cash payment of the 14:00-16:00 booking. -/
theorem updatePayment_sets_booking_status_witness :
    useCase.UpdatePayment noFaults dbP (nowA + 5) 100 7 ⟨"", "completed"⟩
        = (.ok ⟨500, 200, "completed", "cash", "tx-2", nowA, nowA + 5⟩, dbCompleted)
      ∧ ∃ payment booking b2 p2 newStatus,
        bookingRepository.GetPayment dbP 100 = some payment
          ∧ payment.UserID = 7 ∧ payment.Status = PaymentStatusPending
          ∧ newStatus = (if (UpdatePaymentRequest.mk "" "completed").Status ≠ ""
              then (UpdatePaymentRequest.mk "" "completed").Status else payment.Status)
          ∧ bookingRepository.GetByID dbP 100 = some booking
          ∧ bookingRepository.GetPayment dbCompleted 100 = some p2 ∧ p2.Status = newStatus
          ∧ bookingRepository.GetByID dbCompleted 100 = some b2
          ∧ (newStatus = PaymentStatusCompleted → b2.Status = BookingStatusConfirmed)
          ∧ (newStatus = PaymentStatusFailed → b2.Status = BookingStatusPending)
          ∧ (newStatus = PaymentStatusRefunded → b2.Status = BookingStatusCancelled)
          ∧ (newStatus ≠ PaymentStatusCompleted → newStatus ≠ PaymentStatusFailed →
              newStatus ≠ PaymentStatusRefunded → b2.Status = booking.Status) :=
  ⟨by decide!,
    updatePayment_sets_booking_status noFaults dbP (nowA + 5) 100 7 ⟨"", "completed"⟩
      ⟨500, 200, "completed", "cash", "tx-2", nowA, nowA + 5⟩ dbCompleted (by decide!)⟩

/-- C15: the owner moves the pending payment of the 14:00-16:00 booking to `refunded`.  The
call succeeds and the booking read back is `cancelled`, but its `cancelled_at` is empty:
`handlePaymentStatus` sets the field on the struct and `Update` does not write the column.
Cancelling the same booking through `CancelBooking` does stamp `cancelled_at`. -/
theorem updatePayment_refund_leaves_cancelled_at_empty :
    useCase.UpdatePayment noFaults dbP (nowA + 5) 100 7 ⟨"", "refunded"⟩
        = (.ok ⟨500, 200, "refunded", "cash", "tx-2", nowA, nowA + 5⟩, dbRefunded)
      ∧ (statusBooking (nowA + 5) "refunded" bookingW1).CancelledAt = some (nowA + 5)
      ∧ (bookingRepository.GetByID dbRefunded 100).map (fun b => (b.Status, b.CancelledAt))
        = some ("cancelled", none)
      ∧ (bookingRepository.GetByID (useCase.CancelBooking noFaults dbP (nowA + 5) 100 7).2
          100).map (fun b => (b.Status, b.CancelledAt))
        = some ("cancelled", some (nowA + 5)) := by
  refine ⟨by decide!, by decide!, by decide!, by decide!⟩

theorem paymentResponse_ne_error (p : Payment) (msg : String) :
    paymentResponse p ≠ .error msg := by
  unfold paymentResponse
  split <;> simp

/-- Counterexample to C17: a card payment of the pending 14:00-16:00 booking whose confirming
`Update` fails.  `CreatePayment` returns an error, and the payment is stored: before the call
the booking has no payment, after it `GetPayment` finds one. -/
theorem createPayment_partial_state :
    useCase.CreatePayment failThird dbB nowA 500 100 7 requestCard
        = (.error "failed to update booking status: persistence failure",
           { dbB with payments := [newPayment nowA 500 100 7 requestCard] })
      ∧ bookingRepository.GetPayment dbB 100 = none
      ∧ bookingRepository.GetPayment
          (useCase.CreatePayment failThird dbB nowA 500 100 7 requestCard).2 100
        = some (newPayment nowA 500 100 7 requestCard) := by
  refine ⟨by decide!, by decide!, by decide!⟩

theorem createPayment_read_fails (faults : Faults) (db : DB) (now : Nat)
    (newID bookingID userID : UUID) (req : CreatePaymentRequest)
    (h : faults 0 = true ∨ bookingRepository.GetByID db bookingID = none) :
    useCase.CreatePayment faults db now newID bookingID userID req
      = (.error "booking not found", db) := by
  unfold useCase.CreatePayment
  rcases h with h | h
  · simp only [h, if_true]
  · cases h0 : faults 0
    · simp only [h, Bool.false_eq_true, if_false]
    · simp only [if_true]

theorem createPayment_insert_fails (faults : Faults) (db : DB) (now : Nat)
    (newID bookingID userID : UUID) (req : CreatePaymentRequest) (booking : CourtBooking)
    (h0 : faults 0 = false) (hget : bookingRepository.GetByID db bookingID = some booking)
    (hst : booking.Status = BookingStatusPending) (hpay : booking.Payment = none)
    (hamt : req.Amount = booking.TotalAmount) (h1 : faults 1 = true) :
    useCase.CreatePayment faults db now newID bookingID userID req
      = (.error "failed to create payment: persistence failure", db) := by
  have hs : "failed to create payment: " ++ "persistence failure"
      = "failed to create payment: persistence failure" := by decide
  unfold useCase.CreatePayment
  simp only [h0, Bool.false_eq_true, if_false, hget, hst, hpay, hamt, ne_eq,
    not_true_eq_false, Option.isSome_none, h1, if_true, hs]

theorem createPayment_stores (faults : Faults) (db : DB) (now : Nat)
    (newID bookingID userID : UUID) (req : CreatePaymentRequest) (booking : CourtBooking)
    (h0 : faults 0 = false) (hget : bookingRepository.GetByID db bookingID = some booking)
    (hst : booking.Status = BookingStatusPending) (hpay : booking.Payment = none)
    (hamt : req.Amount = booking.TotalAmount) (h1 : faults 1 = false) :
    (useCase.CreatePayment faults db now newID bookingID userID req).2.payments
      = db.payments ++ [newPayment now newID bookingID userID req] := by
  rcases createPayment_cases faults db now newID bookingID userID req with ⟨m, hrej⟩
    | ⟨b, -, -, -, -, ⟨-, heq⟩ | ⟨-, -, heq⟩ | ⟨-, -, heq⟩⟩
  · exfalso
    unfold useCase.CreatePayment at hrej
    simp only [h0, Bool.false_eq_true, if_false, hget, hst, hpay, ne_eq,
      not_true_eq_false, Option.isSome_none, h1, bookingRepository.CreatePayment,
      if_neg (not_not.mpr hamt)] at hrej
    generalize hX : (if ¬ req.PaymentMethod = PaymentMethodCash then _ else _) = X at hrej
    have hX2 : X.2.payments.length = db.payments.length + 1 := by
      rw [← hX]
      split
      · split
        · simp
        · unfold bookingRepository.Update
          split <;> simp
      · simp
    obtain ⟨o, d⟩ := X
    cases o with
    | panic => cases hrej
    | error msg =>
      injection hrej with hr1 hr2
      subst hr2
      simp at hX2
    | ok u =>
      simp only at hrej
      cases hpr : paymentResponse
          { ID := newID, BookingID := bookingID, UserID := userID, Amount := req.Amount,
            Status := PaymentStatusPending, PaymentMethod := req.PaymentMethod,
            TransactionID := req.TransactionID, CreatedAt := now, UpdatedAt := now } with
      | panic => rw [hpr] at hrej; cases hrej
      | ok resp => rw [hpr] at hrej; cases hrej
      | error msg =>
        rw [hpr] at hrej
        injection hrej with hr1 hr2
        subst hr2
        simp at hX2
  · rw [heq]
  · rw [heq]
  · rw [heq]

theorem append_payment_ne (l : List Payment) (p : Payment) : l ++ [p] ≠ l := by
  intro h
  have := congrArg List.length h
  simp at this

/-- C17 as amended: the state after an error of `CreatePayment`, by the step that failed.  When
the read of the booking fails or finds none, when a guard rejects the request, or when the
insert of the payment fails, the call returns an error and the store is as before.  When the
insert has succeeded, the method is not cash and the update of the booking fails, the call
returns an error and the store is the one before with the new payment added.  Every error of
`CreatePayment` is one of these two cases, and in both no booking row has changed. -/
theorem createPayment_error_state (faults : Faults) (db : DB) (now : Nat)
    (newID bookingID userID : UUID) (req : CreatePaymentRequest) :
    (faults 0 = true ∨ bookingRepository.GetByID db bookingID = none →
        useCase.CreatePayment faults db now newID bookingID userID req
          = (.error "booking not found", db))
      ∧ (∀ booking, bookingRepository.GetByID db bookingID = some booking →
          booking.Status ≠ BookingStatusPending ∨ booking.Payment ≠ none
            ∨ req.Amount ≠ booking.TotalAmount →
          ∃ msg, useCase.CreatePayment faults db now newID bookingID userID req
            = (.error msg, db))
      ∧ (∀ booking, faults 0 = false →
          bookingRepository.GetByID db bookingID = some booking →
          booking.Status = BookingStatusPending → booking.Payment = none →
          req.Amount = booking.TotalAmount → faults 1 = true →
          useCase.CreatePayment faults db now newID bookingID userID req
            = (.error "failed to create payment: persistence failure", db))
      ∧ (∀ booking, faults 0 = false →
          bookingRepository.GetByID db bookingID = some booking →
          booking.Status = BookingStatusPending → booking.Payment = none →
          req.Amount = booking.TotalAmount → faults 1 = false →
          req.PaymentMethod ≠ PaymentMethodCash → faults 2 = true →
          useCase.CreatePayment faults db now newID bookingID userID req
            = (.error "failed to update booking status: persistence failure",
               { db with payments :=
                   db.payments ++ [newPayment now newID bookingID userID req] }))
      ∧ (∀ msg db1,
          useCase.CreatePayment faults db now newID bookingID userID req = (.error msg, db1) →
          db1.bookings = db.bookings
            ∧ ((db1 = db
                ∧ (faults 0 = true ∨ bookingRepository.GetByID db bookingID = none
                  ∨ ∃ booking, bookingRepository.GetByID db bookingID = some booking
                      ∧ (booking.Status ≠ BookingStatusPending ∨ booking.Payment ≠ none
                        ∨ req.Amount ≠ booking.TotalAmount ∨ faults 1 = true)))
              ∨ (db1 = { db with payments :=
                    db.payments ++ [newPayment now newID bookingID userID req] }
                ∧ ∃ booking, bookingRepository.GetByID db bookingID = some booking
                    ∧ booking.Status = BookingStatusPending ∧ booking.Payment = none
                    ∧ req.Amount = booking.TotalAmount
                    ∧ faults 0 = false ∧ faults 1 = false
                    ∧ req.PaymentMethod ≠ PaymentMethodCash ∧ faults 2 = true))) := by
  have hupd : ∀ booking, faults 0 = false →
      bookingRepository.GetByID db bookingID = some booking →
      booking.Status = BookingStatusPending → booking.Payment = none →
      req.Amount = booking.TotalAmount → faults 1 = false →
      req.PaymentMethod ≠ PaymentMethodCash → faults 2 = true →
      useCase.CreatePayment faults db now newID bookingID userID req
        = (.error "failed to update booking status: persistence failure",
           { db with payments :=
               db.payments ++ [newPayment now newID bookingID userID req] }) := by
    intro booking h0 hget hst hpay hamt h1 hm h2
    rcases createPayment_cases faults db now newID bookingID userID req with ⟨m, hrej⟩
      | ⟨b, -, -, -, -, ⟨hc, -⟩ | ⟨-, -, heq⟩ | ⟨-, hf, -⟩⟩
    · exfalso
      have := createPayment_stores faults db now newID bookingID userID req booking h0 hget hst
        hpay hamt h1
      rw [hrej] at this
      exact append_payment_ne _ _ this.symm
    · exact absurd hc hm
    · exact heq
    · rw [h2] at hf; cases hf
  refine ⟨createPayment_read_fails faults db now newID bookingID userID req,
    fun booking hget h =>
      createPayment_rejects faults db now newID bookingID userID req booking hget h,
    createPayment_insert_fails faults db now newID bookingID userID req, hupd, ?_⟩
  intro msg db1 h
  cases h0 : faults 0 with
  | true =>
    rw [createPayment_read_fails faults db now newID bookingID userID req (Or.inl h0)] at h
    injection h with h1 h2
    subst h2
    exact ⟨rfl, Or.inl ⟨rfl, Or.inl rfl⟩⟩
  | false =>
    cases hget : bookingRepository.GetByID db bookingID with
    | none =>
      rw [createPayment_read_fails faults db now newID bookingID userID req (Or.inr hget)] at h
      injection h with h1 h2
      subst h2
      exact ⟨rfl, Or.inl ⟨rfl, Or.inr (Or.inl rfl)⟩⟩
    | some booking =>
      by_cases hg : booking.Status ≠ BookingStatusPending ∨ booking.Payment ≠ none
          ∨ req.Amount ≠ booking.TotalAmount
      · obtain ⟨m, hm⟩ :=
          createPayment_rejects faults db now newID bookingID userID req booking hget hg
        rw [hm] at h
        injection h with h1 h2
        subst h2
        refine ⟨rfl, Or.inl ⟨rfl, Or.inr (Or.inr ⟨booking, rfl, ?_⟩)⟩⟩
        rcases hg with hg | hg | hg
        · exact Or.inl hg
        · exact Or.inr (Or.inl hg)
        · exact Or.inr (Or.inr (Or.inl hg))
      · simp only [not_or, not_not, ne_eq] at hg
        obtain ⟨hst, hpay, hamt⟩ := hg
        cases h1 : faults 1 with
        | true =>
          rw [createPayment_insert_fails faults db now newID bookingID userID req booking h0
            hget hst hpay hamt h1] at h
          injection h with h3 h4
          subst h4
          exact ⟨rfl, Or.inl ⟨rfl, Or.inr (Or.inr ⟨booking, rfl,
            Or.inr (Or.inr (Or.inr rfl))⟩)⟩⟩
        | false =>
          rcases createPayment_cases faults db now newID bookingID userID req with ⟨m, hrej⟩
            | ⟨b, -, -, -, -, ⟨-, heq⟩ | ⟨hcash, hf, heq⟩ | ⟨-, -, heq⟩⟩
          · exfalso
            have := createPayment_stores faults db now newID bookingID userID req booking h0
              hget hst hpay hamt h1
            rw [hrej] at this
            exact append_payment_ne _ _ this.symm
          · rw [heq] at h
            injection h with h3 h4
            exact absurd h3 (paymentResponse_ne_error _ _)
          · rw [heq] at h
            injection h with h3 h4
            subst h4
            exact ⟨rfl, Or.inr ⟨rfl, booking, rfl, hst, hpay, hamt, rfl, rfl, hcash, hf⟩⟩
          · rw [heq] at h
            injection h with h3 h4
            exact absurd h3 (paymentResponse_ne_error _ _)

/-- Witness of amended C17: the failing confirmation of the card payment, and the failing
insert of the same payment. -/
theorem createPayment_error_state_witness :
    useCase.CreatePayment failThird dbB nowA 500 100 7 requestCard
        = (.error "failed to update booking status: persistence failure",
           { dbB with payments := dbB.payments ++ [newPayment nowA 500 100 7 requestCard] })
      ∧ useCase.CreatePayment (fun k => k == 1) dbB nowA 500 100 7 requestCard
        = (.error "failed to create payment: persistence failure", dbB) :=
  ⟨(createPayment_error_state failThird dbB nowA 500 100 7 requestCard).2.2.2.1
      (withPayment none (withJoin 100 bookingW1)) rfl (by decide!) rfl rfl (by decide!) rfl
      (by decide) rfl,
   (createPayment_error_state (fun k => k == 1) dbB nowA 500 100 7 requestCard).2.2.1
      (withPayment none (withJoin 100 bookingW1)) rfl (by decide!) rfl rfl (by decide!) rfl⟩

theorem canBeCancelled_iff (b : CourtBooking) :
    b.CanBeCancelled = true
      ↔ b.Status ≠ BookingStatusCancelled ∧ b.Status ≠ BookingStatusConfirmed := by
  unfold CourtBooking.CanBeCancelled
  split
  · rename_i h
    constructor
    · intro h1; cases h1
    · rintro ⟨h1, h2⟩
      rcases h with h | h
      · exact absurd h h1
      · exact absurd h h2
  · rename_i h
    constructor
    · intro _
      exact ⟨fun hc => h (Or.inl hc), fun hc => h (Or.inr hc)⟩
    · intro _; rfl

/-- The ways `CancelBooking` can end: an error with the store untouched; or the guards passed
and the rows of the booking were cancelled, after which the call succeeded (no completed
payment), or the refund update failed, or the completed payment was marked refunded. -/
theorem cancelBooking_cases (faults : Faults) (db : DB) (now : Nat) (id userID : UUID) :
    (∃ msg, useCase.CancelBooking faults db now id userID = (.error msg, db))
      ∨ ∃ booking user, bookingRepository.GetByID db id = some booking
          ∧ userRepository.GetByID db userID = some user
          ∧ (booking.UserID = userID ∨ user.Role = UserRoleAdmin)
          ∧ booking.CanBeCancelled = true
          ∧ (((booking.Payment = none
                  ∨ ∃ p, booking.Payment = some p ∧ p.Status ≠ PaymentStatusCompleted)
                ∧ useCase.CancelBooking faults db now id userID
                  = (.ok (), { db with bookings := db.bookings.map (cancelRow now id) }))
            ∨ (∃ p, booking.Payment = some p ∧ p.Status = PaymentStatusCompleted
                ∧ faults 3 = true
                ∧ useCase.CancelBooking faults db now id userID
                  = (.error "failed to update payment status: persistence failure",
                     { db with bookings := db.bookings.map (cancelRow now id) }))
            ∨ (∃ p, booking.Payment = some p ∧ p.Status = PaymentStatusCompleted
                ∧ useCase.CancelBooking faults db now id userID
                  = (.ok (),
                     { db with
                        bookings := db.bookings.map (cancelRow now id),
                        payments := db.payments.map (updatePaymentRow
                          { p with Status := PaymentStatusRefunded, UpdatedAt := now }) }))) := by
  unfold useCase.CancelBooking
  cases h0 : faults 0
  swap
  · left; exact ⟨_, rfl⟩
  simp only [Bool.false_eq_true, if_false]
  cases hget : bookingRepository.GetByID db id with
  | none => left; exact ⟨_, rfl⟩
  | some booking =>
    simp only
    cases h1 : faults 1
    swap
    · left; exact ⟨_, rfl⟩
    simp only [Bool.false_eq_true, if_false]
    cases huser : userRepository.GetByID db userID with
    | none => left; exact ⟨_, rfl⟩
    | some user =>
      simp only
      by_cases hauth : booking.UserID ≠ userID ∧ user.Role ≠ UserRoleAdmin
      · left; rw [if_pos hauth]; exact ⟨_, rfl⟩
      rw [if_neg hauth]
      have hauth1 : booking.UserID = userID ∨ user.Role = UserRoleAdmin := by
        by_contra hcon
        exact hauth ⟨fun h => hcon (Or.inl h), fun h => hcon (Or.inr h)⟩
      cases hcan : booking.CanBeCancelled
      · left; simp only [Bool.not_false, if_true]; exact ⟨_, rfl⟩
      simp only [Bool.not_true, Bool.false_eq_true, if_false]
      cases h2 : faults 2
      swap
      · left; simp only [if_true]; exact ⟨_, rfl⟩
      right
      refine ⟨booking, user, rfl, rfl, hauth1, hcan, ?_⟩
      have hrows := update_rows_of_getByID db id booking hget
      simp only [Bool.false_eq_true, if_false, bookingRepository.CancelBooking, hrows]
      cases hpay : booking.Payment with
      | none => left; exact ⟨Or.inl rfl, rfl⟩
      | some p =>
        simp only
        by_cases hcomp : p.Status = PaymentStatusCompleted
        swap
        · left; rw [if_neg hcomp]; exact ⟨Or.inr ⟨p, rfl, hcomp⟩, rfl⟩
        rw [if_pos hcomp]
        right
        cases h3 : faults 3
        · right
          refine ⟨p, rfl, hcomp, ?_⟩
          have hpm : p ∈ db.payments := by
            have := (getByID_some db id booking hget).2.1
            rw [hpay] at this
            exact (getPayment_some db id p this.symm).1
          have hprows : (db.payments.filter (fun q => q.ID == p.ID)).length ≠ 0 := by
            intro h0
            rw [List.length_eq_zero] at h0
            have : p ∈ db.payments.filter (fun q => q.ID == p.ID) := by
              simp [List.mem_filter, hpm]
            rw [h0] at this
            cases this
          simp only [Bool.false_eq_true, if_false, bookingRepository.UpdatePayment, hprows]
        · left
          exact ⟨p, rfl, hcomp, rfl, rfl⟩

/-- Counterexample to C18: user 7 owns the pending 14:00-16:00 booking and is set inactive.
With working persistence `CancelBooking` by user 7 is rejected with "user not found", although
the caller is the owner and the booking is neither cancelled nor confirmed. -/
theorem cancelBooking_inactive_owner_rejected :
    bookingRepository.GetByID dbInactive 100 = some { bookingW1 with PricePerHour := 100 }
      ∧ bookingW1.UserID = 7
      ∧ bookingW1.Status ≠ BookingStatusCancelled ∧ bookingW1.Status ≠ BookingStatusConfirmed
      ∧ useCase.CancelBooking noFaults dbInactive (nowA + 5) 100 7
        = (.error "user not found", dbInactive) := by
  refine ⟨by decide!, rfl, by decide, by decide, by decide!⟩

/-- C18 as amended: with working persistence, `CancelBooking` of an existing booking succeeds
exactly when the user lookup finds the caller (a `users` row that is not inactive), the caller
is the booking's owner or has the admin role, and the booking's status is neither `cancelled`
nor `confirmed`; whenever it does not succeed the store is unchanged. -/
theorem cancelBooking_ok_iff (db : DB) (now : Nat) (id userID : UUID) (booking : CourtBooking)
    (hget : bookingRepository.GetByID db id = some booking) :
    ((useCase.CancelBooking noFaults db now id userID).1 = .ok () ↔
        (∃ user, userRepository.GetByID db userID = some user
            ∧ (booking.UserID = userID ∨ user.Role = UserRoleAdmin))
          ∧ booking.Status ≠ BookingStatusCancelled
          ∧ booking.Status ≠ BookingStatusConfirmed)
      ∧ ((useCase.CancelBooking noFaults db now id userID).1 ≠ .ok () →
          (useCase.CancelBooking noFaults db now id userID).2 = db) := by
  rcases cancelBooking_cases noFaults db now id userID with ⟨msg, hrej⟩ | hok
  · refine ⟨⟨fun h => ?_, fun h => ?_⟩, fun _ => by rw [hrej]⟩
    · rw [hrej] at h; cases h
    · exfalso
      obtain ⟨⟨user, huser, hauth⟩, hc, hf⟩ := h
      have hcan := (canBeCancelled_iff booking).2 ⟨hc, hf⟩
      have hauth1 : ¬ (booking.UserID ≠ userID ∧ user.Role ≠ UserRoleAdmin) := by
        rintro ⟨h1, h2⟩
        rcases hauth with h | h
        · exact h1 h
        · exact h2 h
      have hrows := update_rows_of_getByID db id booking hget
      unfold useCase.CancelBooking at hrej
      simp only [noFaults, Bool.false_eq_true, if_false, hget, huser, hauth1, hcan,
        Bool.not_true, bookingRepository.CancelBooking, hrows] at hrej
      split at hrej
      · cases hrej
      · rename_i p hp
        split at hrej
        · rename_i hcomp
          have hpm : p ∈ db.payments := by
            have := (getByID_some db id booking hget).2.1
            rw [hp] at this
            exact (getPayment_some db id p this.symm).1
          have hprows : (db.payments.filter (fun q => q.ID == p.ID)).length ≠ 0 := by
            intro h0
            rw [List.length_eq_zero] at h0
            have : p ∈ db.payments.filter (fun q => q.ID == p.ID) := by
              simp [List.mem_filter, hpm]
            rw [h0] at this
            cases this
          simp only [bookingRepository.UpdatePayment, hprows, if_false] at hrej
          cases hrej
        · cases hrej
  · obtain ⟨b, user, hb, huser, hauth, hcan, hcase⟩ := hok
    rw [hget] at hb
    injection hb with hb
    subst hb
    obtain ⟨hc, hf⟩ := (canBeCancelled_iff booking).1 hcan
    have hcond : (∃ user, userRepository.GetByID db userID = some user
        ∧ (booking.UserID = userID ∨ user.Role = UserRoleAdmin))
        ∧ booking.Status ≠ BookingStatusCancelled
        ∧ booking.Status ≠ BookingStatusConfirmed := ⟨⟨user, huser, hauth⟩, hc, hf⟩
    rcases hcase with ⟨-, heq⟩ | ⟨p, -, -, h3, -⟩ | ⟨p, -, -, heq⟩
    · rw [heq]
      exact ⟨⟨fun _ => hcond, fun _ => rfl⟩, fun h => absurd rfl h⟩
    · cases h3
    · rw [heq]
      exact ⟨⟨fun _ => hcond, fun _ => rfl⟩, fun h => absurd rfl h⟩

/-- Witness of amended C18: the active owner cancels the pending booking of `dbP`. -/
theorem cancelBooking_ok_iff_witness :
    ((useCase.CancelBooking noFaults dbP (nowA + 5) 100 7).1 = .ok () ↔
        (∃ user, userRepository.GetByID dbP 7 = some user
            ∧ (({ bookingW1 with PricePerHour := 100, Payment := some paymentP }
                  : CourtBooking).UserID = 7 ∨ user.Role = UserRoleAdmin))
          ∧ ({ bookingW1 with PricePerHour := 100, Payment := some paymentP }
                : CourtBooking).Status ≠ BookingStatusCancelled
          ∧ ({ bookingW1 with PricePerHour := 100, Payment := some paymentP }
                : CourtBooking).Status ≠ BookingStatusConfirmed)
      ∧ ((useCase.CancelBooking noFaults dbP (nowA + 5) 100 7).1 ≠ .ok () →
          (useCase.CancelBooking noFaults dbP (nowA + 5) 100 7).2 = dbP) :=
  cancelBooking_ok_iff dbP (nowA + 5) 100 7
    { bookingW1 with PricePerHour := 100, Payment := some paymentP } (by decide!)

theorem cancelRow_fields (now : Nat) (id : UUID) (b : CourtBooking) (h : b.ID = id) :
    (cancelRow now id b).Status = BookingStatusCancelled
      ∧ (cancelRow now id b).CancelledAt = some now := by
  unfold cancelRow
  simp [h]
  rfl

/-- C19: after every successful `CancelBooking` each row of the booking, and the booking read
back, has status `cancelled` and `cancelled_at` set to the time of the call; a payment that was
`completed` is read back `refunded` (same identifier and amount), and otherwise the payments
table is unchanged and the booking's payment, if any, is as before. -/
theorem cancelBooking_success_state (faults : Faults) (db : DB) (now : Nat) (id userID : UUID)
    (db1 : DB) (h : useCase.CancelBooking faults db now id userID = (.ok (), db1)) :
    ∃ booking b1, bookingRepository.GetByID db id = some booking
      ∧ bookingRepository.GetByID db1 id = some b1
      ∧ b1.Status = BookingStatusCancelled ∧ b1.CancelledAt = some now
      ∧ (∀ b ∈ db1.bookings, b.ID = id →
          b.Status = BookingStatusCancelled ∧ b.CancelledAt = some now)
      ∧ (∀ p, booking.Payment = some p → p.Status = PaymentStatusCompleted →
          ∃ p1, b1.Payment = some p1 ∧ p1.Status = PaymentStatusRefunded ∧ p1.ID = p.ID
            ∧ p1.BookingID = p.BookingID ∧ p1.Amount = p.Amount)
      ∧ ((booking.Payment = none
            ∨ ∃ p, booking.Payment = some p ∧ p.Status ≠ PaymentStatusCompleted) →
          db1.payments = db.payments ∧ b1.Payment = booking.Payment) := by
  rcases cancelBooking_cases faults db now id userID with ⟨msg, hrej⟩ | hok
  · rw [hrej] at h; cases h
  obtain ⟨booking, user, hget, -, -, -, hcase⟩ := hok
  have hbid := (getByID_some db id booking hget).1
  have hrowsAll : ∀ d : DB, d.bookings = db.bookings.map (cancelRow now id) →
      ∀ b ∈ d.bookings, b.ID = id →
        b.Status = BookingStatusCancelled ∧ b.CancelledAt = some now := by
    intro d hd b hb hid
    rw [hd, List.mem_map] at hb
    obtain ⟨b0, -, rfl⟩ := hb
    rw [cancelRow_id] at hid
    exact cancelRow_fields now id b0 hid
  rcases hcase with ⟨hpay, heq⟩ | ⟨p, -, -, -, heq⟩ | ⟨p, hp, hcomp, heq⟩
  · rw [heq] at h
    injection h with h1 h2
    have hg1 := getByID_cancelRow db db1 now id (by rw [← h2]) (by rw [← h2]) (by rw [← h2])
      (by rw [← h2]) (by rw [← h2]) id
    rw [hget] at hg1
    refine ⟨booking, _, hget, hg1, (cancelRow_fields now id booking hbid).1,
      (cancelRow_fields now id booking hbid).2, hrowsAll db1 (by rw [← h2]), ?_, ?_⟩
    · intro q hq hqc
      rcases hpay with hnone | ⟨p, hp, hne⟩
      · rw [hnone] at hq; cases hq
      · rw [hp] at hq
        injection hq with hq
        subst hq
        exact absurd hqc hne
    · intro _
      refine ⟨by rw [← h2], ?_⟩
      unfold cancelRow
      split <;> rfl
  · rw [heq] at h; cases h
  · rw [heq] at h
    injection h with h1 h2
    have hgp : bookingRepository.GetPayment db id = some p := by
      rw [← (getByID_some db id booking hget).2.1]; exact hp
    have hgp1 := getPayment_map db db1
      (updatePaymentRow { p with Status := PaymentStatusRefunded, UpdatedAt := now })
      (updatePaymentRow_bookingID _) (by rw [← h2]) id
    rw [hgp] at hgp1
    have hg1 := getByID_map db db1 (cancelRow now id) (by rw [← h2]) (by rw [← h2])
      (by rw [← h2]) (by rw [← h2]) (cancelRow_id now id) (cancelRow_courtID now id)
      (cancelRow_userID now id) (cancelRow_withJoin now id)
      (fun b pay => by rw [cancelRow_withPayment]; rfl) id
    rw [hget, hgp1] at hg1
    refine ⟨booking, _, hget, hg1, ?_, ?_, hrowsAll db1 (by rw [← h2]), ?_, ?_⟩
    · exact (cancelRow_fields now id booking hbid).1
    · exact (cancelRow_fields now id booking hbid).2
    · intro q hq _
      rw [hp] at hq
      injection hq with hq
      subst hq
      refine ⟨_, rfl, ?_⟩
      unfold updatePaymentRow
      simp
    · intro hpay
      exfalso
      rcases hpay with hnone | ⟨q, hq, hne⟩
      · rw [hnone] at hp; cases hp
      · rw [hp] at hq
        injection hq with hq
        subst hq
        exact hne hcomp

/-- Witness of C19: the owner cancels the pending booking of `dbP`, whose cash payment is
pending and stays as it is; in `dbPaid`, where the payment is completed, it becomes refunded. -/
theorem cancelBooking_success_state_witness :
    (bookingRepository.GetPayment (useCase.CancelBooking noFaults dbPaid (nowA + 5) 100 7).2
        100).map (fun p => p.Status) = some "refunded"
      ∧ ∃ booking b1, bookingRepository.GetByID dbP 100 = some booking
        ∧ bookingRepository.GetByID dbCancelled 100 = some b1
        ∧ b1.Status = BookingStatusCancelled ∧ b1.CancelledAt = some (nowA + 5)
        ∧ (∀ b ∈ dbCancelled.bookings, b.ID = 100 →
            b.Status = BookingStatusCancelled ∧ b.CancelledAt = some (nowA + 5))
        ∧ (∀ p, booking.Payment = some p → p.Status = PaymentStatusCompleted →
            ∃ p1, b1.Payment = some p1 ∧ p1.Status = PaymentStatusRefunded ∧ p1.ID = p.ID
              ∧ p1.BookingID = p.BookingID ∧ p1.Amount = p.Amount)
        ∧ ((booking.Payment = none
              ∨ ∃ p, booking.Payment = some p ∧ p.Status ≠ PaymentStatusCompleted) →
            dbCancelled.payments = dbP.payments ∧ b1.Payment = booking.Payment) :=
  ⟨by decide!,
    cancelBooking_success_state noFaults dbP (nowA + 5) 100 7 dbCancelled (by decide!)⟩

theorem paymentCount_map_append (db db1 : DB) (g : Payment → Payment)
    (hg : ∀ p, (g p).BookingID = p.BookingID) (extra : List Payment)
    (h : db1.payments = db.payments.map g ++ extra) (bid : UUID) :
    paymentCount db1 bid
      = paymentCount db bid + (extra.filter (fun p => p.BookingID == bid)).length := by
  have hfilter : (fun p : Payment => p.BookingID == bid) ∘ g = fun p => p.BookingID == bid := by
    funext p
    simp [hg]
  unfold paymentCount
  rw [h, List.filter_append, List.length_append, List.filter_map, hfilter, List.length_map]

/-- What one call does to the payments table: rows keep their booking, and at most one row is
added, for a booking that had none. -/
theorem step_payments (db : DB) (op : Op) :
    ∃ (g : Payment → Payment) (extra : List Payment),
      (∀ p, (g p).BookingID = p.BookingID)
        ∧ (step db op).payments = db.payments.map g ++ extra
        ∧ (extra = [] ∨ ∃ p, extra = [p] ∧ paymentCount db p.BookingID = 0) := by
  have same : ∀ d : DB, d.payments = db.payments →
      ∃ (g : Payment → Payment) (extra : List Payment),
        (∀ p, (g p).BookingID = p.BookingID)
          ∧ d.payments = db.payments.map g ++ extra
          ∧ (extra = [] ∨ ∃ p, extra = [p] ∧ paymentCount db p.BookingID = 0) := by
    intro d hd
    exact ⟨fun p => p, [], fun _ => rfl, by rw [hd]; simp, Or.inl rfl⟩
  have mapped : ∀ (d : DB) (p0 : Payment),
      d.payments = db.payments.map (updatePaymentRow p0) →
      ∃ (g : Payment → Payment) (extra : List Payment),
        (∀ p, (g p).BookingID = p.BookingID)
          ∧ d.payments = db.payments.map g ++ extra
          ∧ (extra = [] ∨ ∃ p, extra = [p] ∧ paymentCount db p.BookingID = 0) := by
    intro d p0 hd
    exact ⟨updatePaymentRow p0, [], updatePaymentRow_bookingID p0, by rw [hd]; simp, Or.inl rfl⟩
  cases op with
  | createBooking now newID userID req =>
    apply same
    show (useCase.CreateBooking db now newID userID req).2.payments = db.payments
    rcases createBooking_cases db now newID userID req with ⟨-, h⟩ | ⟨_, _, _, _, _, b, h⟩
    · rw [h]
    · rw [h.2.2.2.2.2.2.2.2.2.2.2.2.2.2]
  | updateBooking faults now id req =>
    apply same
    show (useCase.UpdateBooking faults db now id req).2.payments = db.payments
    rcases updateBooking_cases faults db now id req with ⟨msg, h⟩ | ⟨b, -, -, -, h⟩
    · rw [h]
    · rw [h]
  | cancelBooking faults now id userID =>
    show ∃ (g : Payment → Payment) (extra : List Payment), _
      ∧ (useCase.CancelBooking faults db now id userID).2.payments = _ ∧ _
    rcases cancelBooking_cases faults db now id userID with ⟨msg, h⟩
      | ⟨b, u, -, -, -, -, ⟨-, h⟩ | ⟨p, -, -, -, h⟩ | ⟨p, -, -, h⟩⟩
    · rw [h]; exact same _ rfl
    · rw [h]; exact same _ rfl
    · rw [h]; exact same _ rfl
    · rw [h]; exact mapped _ _ rfl
  | createPayment faults now newID bookingID userID req =>
    show ∃ (g : Payment → Payment) (extra : List Payment), _
      ∧ (useCase.CreatePayment faults db now newID bookingID userID req).2.payments = _ ∧ _
    rcases createPayment_cases faults db now newID bookingID userID req with ⟨msg, h⟩
      | ⟨b, hget, -, hpay, -, hcase⟩
    · rw [h]; exact same _ rfl
    · have hcount : paymentCount db
          (newPayment now newID bookingID userID req).BookingID = 0 := by
        have hnone : bookingRepository.GetPayment db bookingID = none :=
          ((getByID_some db bookingID b hget).2.1).symm.trans hpay
        exact (getPayment_none_iff db bookingID).1 hnone
      have added : ∀ d : DB,
          d.payments = db.payments ++ [newPayment now newID bookingID userID req] →
          ∃ (g : Payment → Payment) (extra : List Payment),
            (∀ p, (g p).BookingID = p.BookingID)
              ∧ d.payments = db.payments.map g ++ extra
              ∧ (extra = [] ∨ ∃ p, extra = [p] ∧ paymentCount db p.BookingID = 0) := by
        intro d hd
        exact ⟨fun p => p, [newPayment now newID bookingID userID req], fun _ => rfl,
          by rw [hd]; simp, Or.inr ⟨_, rfl, hcount⟩⟩
      rcases hcase with ⟨-, h⟩ | ⟨-, -, h⟩ | ⟨-, -, h⟩
      · rw [h]; exact added _ rfl
      · rw [h]; exact added _ rfl
      · rw [h]; exact added _ rfl
  | updatePayment faults now id userID req =>
    show ∃ (g : Payment → Payment) (extra : List Payment), _
      ∧ (useCase.UpdatePayment faults db now id userID req).2.payments = _ ∧ _
    rcases updatePayment_cases faults db now id userID req with ⟨msg, h⟩
      | ⟨p, -, -, -, ⟨msg, h⟩ | ⟨b, -, h⟩⟩
    · rw [h]; exact same _ rfl
    · rw [h]; exact mapped _ _ rfl
    · rw [h]; exact mapped _ _ rfl

theorem step_paymentCount_le_one (db : DB) (op : Op)
    (h : ∀ bid, paymentCount db bid ≤ 1) (bid : UUID) :
    paymentCount (step db op) bid ≤ 1 := by
  obtain ⟨g, extra, hg, hp, hex⟩ := step_payments db op
  rw [paymentCount_map_append db (step db op) g hg extra hp bid]
  rcases hex with rfl | ⟨p, rfl, hcount⟩
  · simpa using h bid
  · by_cases hb : p.BookingID = bid
    · subst hb
      rw [hcount]
      simp
    · have : ([p].filter (fun q => q.BookingID == bid)).length = 0 := by
        simp [hb]
      rw [this]
      exact h bid

/-- C30: two requests that pass the guards of `CreatePayment` and carry no transaction
identifier, one in cash and one by card, on the pending booking without payment.  In both the
payment is stored (and for the card the booking confirmed) and the call then panics on
`*payment.TransactionID` instead of returning a response; with the identifier present the same
cash request returns its response. -/
theorem createPayment_response_dereferences_nil :
    useCase.CreatePayment noFaults dbB nowA 500 100 7 requestCashNoTx
        = (.panic, { dbB with payments := [newPayment nowA 500 100 7 requestCashNoTx] })
      ∧ (useCase.CreatePayment noFaults dbB nowA 500 100 7 requestCardNoTx).1 = .panic
      ∧ requestCashNoTx.TransactionID = none
      ∧ paymentResponse (newPayment nowA 500 100 7 requestCashNoTx) = .panic
      ∧ useCase.CreatePayment noFaults dbB nowA 500 100 7 requestCash = (.ok respCash, dbP) := by
  refine ⟨by decide!, by decide!, rfl, rfl, by decide!⟩

/-- C21: the pending booking 100 is paid in cash and cancelled by its owner, which leaves it
`cancelled`; the owner then reports the payment completed (or failed) and `UpdatePayment`
rewrites the booking's status to `confirmed` (or `pending`): the cancelled booking does not
stay cancelled. -/
theorem cancelled_booking_revived_by_updatePayment :
    (bookingRepository.GetByID (run dbB (opsRevive.take 2)) 100).map (fun b => b.Status)
        = some "cancelled"
      ∧ (bookingRepository.GetByID (run dbB opsRevive) 100).map (fun b => b.Status)
        = some "confirmed"
      ∧ (bookingRepository.GetByID
          (step (run dbB (opsRevive.take 2))
            (Op.updatePayment noFaults (nowA + 9) 100 7 ⟨"", "failed"⟩)) 100).map
          (fun b => b.Status)
        = some "pending"
      ∧ useCase.UpdateBooking noFaults (run dbB (opsRevive.take 2)) (nowA + 9) 100
          ⟨"confirmed", none⟩
        = (.error "cannot update cancelled booking", run dbB (opsRevive.take 2)) := by
  refine ⟨by decide!, by decide!, by decide!, by decide!⟩

/-- C28: from the store without bookings, the calls `opsDouble` reach a state with two
distinct non-cancelled bookings of court 10 on the same day, 14:00-16:00 confirmed and
15:00-17:00 pending, which overlap. -/
theorem reachable_double_booking :
    dbA.bookings = [] ∧ dbA.payments = []
      ∧ (run dbA opsDouble).bookings.map
          (fun b => (b.ID, b.CourtID, b.Date, b.StartTime, b.EndTime, b.Status))
        = [(100, 10, 738885, 840, 960, "confirmed"), (101, 10, 738885, 900, 1020, "pending")]
      ∧ (∃ a ∈ (run dbA opsDouble).bookings, ∃ b ∈ (run dbA opsDouble).bookings,
          a.ID ≠ b.ID ∧ a.Status ≠ BookingStatusCancelled ∧ b.Status ≠ BookingStatusCancelled
            ∧ a.IsOverlapping b = true) := by
  refine ⟨rfl, rfl, by decide!, by decide!⟩

theorem listBookings_eq (db : DB) (userID : UUID) (req : ListBookingsRequest)
    (h1 : req.CourtID ≠ .invalid) (h2 : req.VenueID ≠ .invalid)
    (h3 : req.DateFrom ≠ .invalid) (h4 : req.DateTo ≠ .invalid) :
    useCase.ListBookings db userID req
      = match bookingRepository.Count db userID (listFilters req) with
        | .panic => .panic
        | .error msg => .error ("failed to get total count: " ++ msg)
        | .ok total =>
          match bookingRepository.List db userID (listFilters req)
              (if req.Limit > 0 ∧ req.Limit ≤ 100 then req.Limit else 10)
              (if req.Offset > 0 then req.Offset else 0) with
          | .panic => .panic
          | .error msg => .error ("failed to list bookings: " ++ msg)
          | .ok bookings =>
            .ok { Bookings := bookings, Total := total,
                  Limit := (if req.Limit > 0 ∧ req.Limit ≤ 100 then req.Limit else 10),
                  Offset := (if req.Offset > 0 then req.Offset else 0) } := by
  obtain ⟨c, v, f, t, s, l, o⟩ := req
  cases c <;> cases v <;> cases f <;> cases t <;> first | (exact absurd rfl h1) | (exact absurd rfl h2) | (exact absurd rfl h3) | (exact absurd rfl h4) | rfl

theorem listBookings_invalid (db : DB) (userID : UUID) (req : ListBookingsRequest)
    (h : req.CourtID = .invalid ∨ req.VenueID = .invalid ∨ req.DateFrom = .invalid
      ∨ req.DateTo = .invalid) :
    ∃ msg, useCase.ListBookings db userID req = .error msg := by
  obtain ⟨c, v, f, t, s, l, o⟩ := req
  cases c <;> cases v <;> cases f <;> cases t <;> simp at h <;> exact ⟨_, rfl⟩

/-- C26: whenever `ListBookings` returns a response, the limit and offset echoed in it lie in
`1..100` and `0..`, the limit is the requested one when that lies in `1..100` and `10`
otherwise, the offset is the requested one when positive and `0` otherwise, and the returned
bookings and total are what the repository gives for exactly that limit and offset. -/
theorem listBookings_page_bounds (db : DB) (userID : UUID) (req : ListBookingsRequest)
    (resp : BookingListResponse) (h : useCase.ListBookings db userID req = .ok resp) :
    (1 ≤ resp.Limit ∧ resp.Limit ≤ 100 ∧ 0 ≤ resp.Offset)
      ∧ resp.Limit = (if 1 ≤ req.Limit ∧ req.Limit ≤ 100 then req.Limit else 10)
      ∧ resp.Offset = (if 0 < req.Offset then req.Offset else 0)
      ∧ bookingRepository.List db userID (listFilters req) resp.Limit resp.Offset
          = .ok resp.Bookings
      ∧ bookingRepository.Count db userID (listFilters req) = .ok resp.Total := by
  by_cases hinv : req.CourtID = .invalid ∨ req.VenueID = .invalid ∨ req.DateFrom = .invalid
      ∨ req.DateTo = .invalid
  · obtain ⟨msg, hmsg⟩ := listBookings_invalid db userID req hinv
    rw [hmsg] at h
    cases h
  · simp only [not_or] at hinv
    rw [listBookings_eq db userID req hinv.1 hinv.2.1 hinv.2.2.1 hinv.2.2.2] at h
    cases hc : bookingRepository.Count db userID (listFilters req) with
    | panic => rw [hc] at h; cases h
    | error msg => rw [hc] at h; cases h
    | ok total =>
      rw [hc] at h
      cases hl : bookingRepository.List db userID (listFilters req)
          (if req.Limit > 0 ∧ req.Limit ≤ 100 then req.Limit else 10)
          (if req.Offset > 0 then req.Offset else 0) with
      | panic => rw [hl] at h; cases h
      | error msg => rw [hl] at h; cases h
      | ok bookings =>
        rw [hl] at h
        simp only [Outcome.ok.injEq] at h
        subst h
        refine ⟨⟨?_, ?_, ?_⟩, ?_, rfl, hl, rfl⟩
        · show (1:Int) ≤ if req.Limit > 0 ∧ req.Limit ≤ 100 then req.Limit else 10
          split <;> omega
        · show (if req.Limit > 0 ∧ req.Limit ≤ 100 then req.Limit else 10) ≤ (100:Int)
          split <;> omega
        · show (0:Int) ≤ if req.Offset > 0 then req.Offset else 0
          split <;> omega
        · show (if req.Limit > 0 ∧ req.Limit ≤ 100 then req.Limit else 10) = _
          by_cases hq : req.Limit > 0 ∧ req.Limit ≤ 100
          · rw [if_pos hq, if_pos ⟨by omega, hq.2⟩]
          · rw [if_neg hq, if_neg (fun hh => hq ⟨by omega, hh.2⟩)]

theorem listBookings_page_bounds_witness :
    useCase.ListBookings dbB 7 { requestConfirmed with Status := "", Limit := 250, Offset := -3 }
        = .ok { Bookings := [withJoin 100 bookingW1], Total := 1, Limit := 10, Offset := 0 }
      ∧ ((1 : Int) ≤ 10 ∧ (10 : Int) ≤ 100 ∧ (0 : Int) ≤ 0) :=
  ⟨by decide!, (listBookings_page_bounds dbB 7
      { requestConfirmed with Status := "", Limit := 250, Offset := -3 }
      { Bookings := [withJoin 100 bookingW1], Total := 1, Limit := 10, Offset := 0 }
      (by decide!)).1⟩

/-- C27 (evaluation of the code): the owner asks for the confirmed bookings and receives a
pending one.  `ListBookings` stores the status in the filter map as a `models.BookingStatus`,
and `List` takes the filter only when the value has the dynamic type `string`; the same query
with the status stored as a `string` (as `ChangeCourtStatus` stores it) returns no booking. -/
theorem listBookings_status_filter_not_applied :
    useCase.ListBookings dbB 7 requestConfirmed
        = .ok { Bookings := [withJoin 100 bookingW1], Total := 1, Limit := 10, Offset := 0 }
      ∧ (withJoin 100 bookingW1).Status = "pending"
      ∧ requestConfirmed.Status = "confirmed"
      ∧ listFilters requestConfirmed = [("status", FilterValue.bookingStatus "confirmed")]
      ∧ bookingRepository.List dbB 7 [("status", FilterValue.bookingStatus "confirmed")] 10 0
          = .ok [withJoin 100 bookingW1]
      ∧ bookingRepository.List dbB 7 [("status", FilterValue.string "confirmed")] 10 0
          = .ok [] := by
  decide!

theorem tick_filters_eq (now zone : Int) :
    Filters.set (Filters.set [] "status" (.string BookingStatusConfirmed)) "date"
        (.dateString (localDate now zone))
      = [("date", FilterValue.dateString (localDate now zone)),
         ("status", FilterValue.string BookingStatusConfirmed)] := by
  simp [Filters.set]

theorem tick_list_eq (db : DB) (now zone : Int) :
    bookingRepository.List db uuidNil
        [("date", FilterValue.dateString (localDate now zone)),
         ("status", FilterValue.string BookingStatusConfirmed)] 0 0
      = .ok (todaysConfirmed db now zone) := by
  simp [bookingRepository.List, todaysConfirmed, Filters.getUUID, Filters.getString, Filters.get]

theorem updateStatus_eq (db : DB) (id : UUID) (s : String) :
    courtRepository.UpdateStatus db id s
      = if hasCourt db id then some { db with courts := db.courts.map (setCourtStatus id s) }
        else none := rfl

theorem setCourtStatus_id (id : UUID) (s : String) (c : Court) :
    (setCourtStatus id s c).ID = c.ID := by
  unfold setCourtStatus; split <;> rfl

theorem setCourtStatus_deleted (id : UUID) (s : String) (c : Court) :
    (setCourtStatus id s c).Deleted = c.Deleted := by
  unfold setCourtStatus; split <;> rfl

theorem setCourtStatus_venueID (id : UUID) (s : String) (c : Court) :
    (setCourtStatus id s c).VenueID = c.VenueID := by
  unfold setCourtStatus; split <;> rfl

theorem setCourtStatus_price (id : UUID) (s : String) (c : Court) :
    (setCourtStatus id s c).PricePerHour = c.PricePerHour := by
  unfold setCourtStatus; split <;> rfl

theorem paint_id (occ listed : List UUID) (c : Court) : (paint occ listed c).ID = c.ID := by
  unfold paint; split_ifs <;> rfl

theorem paint_deleted (occ listed : List UUID) (c : Court) :
    (paint occ listed c).Deleted = c.Deleted := by
  unfold paint; split_ifs <;> rfl

theorem paint_venueID (occ listed : List UUID) (c : Court) :
    (paint occ listed c).VenueID = c.VenueID := by
  unfold paint; split_ifs <;> rfl

theorem paint_nil (c : Court) : paint [] [] c = c := by
  unfold paint; simp

theorem paint_occ_cons (id : UUID) (done : List UUID) (c : Court) :
    paint done [] (setCourtStatus id CourtStatusOccupied c) = paint (id :: done) [] c := by
  obtain ⟨i, v, n, p, s, d⟩ := c
  by_cases h1 : i = id <;> cases d <;> by_cases h2 : i ∈ done <;>
    simp [paint, setCourtStatus, h1, h2, List.contains_cons]
  
theorem paint_rel_cons (id : UUID) (done : List UUID) (c : Court) :
    paint [] done (setCourtStatus id CourtStatusAvailable c) = paint [] (id :: done) c := by
  obtain ⟨i, v, n, p, s, d⟩ := c
  by_cases h1 : i = id <;> cases d <;> by_cases h2 : i ∈ done <;>
    simp [paint, setCourtStatus, h1, h2, List.contains_cons]

theorem hasCourt_map (db : DB) (f : Court → Court) (hid : ∀ c, (f c).ID = c.ID)
    (hdel : ∀ c, (f c).Deleted = c.Deleted) (id : UUID) :
    hasCourt { db with courts := db.courts.map f } id = hasCourt db id := by
  simp only [hasCourt, List.any_map]
  congr 1
  funext c
  simp [hid, hdel]

/-- The first loop of the tick: the courts written so far are a prefix of the courts of the
active bookings, and all of them when the loop ends without error. -/
theorem occupyLoop_spec (faults : Faults) (now : Int) :
    ∀ (bs : List CourtBooking) (k : Nat) (occ : List UUID) (db : DB) (r : Option String)
      (k1 : Nat) (occ1 : List UUID) (db1 : DB),
      occupyLoop faults now bs k occ db = (r, k1, occ1, db1) →
      ∃ done : List UUID, (∀ id ∈ done, id ∈ activeCourts now bs)
        ∧ occ1 = done.reverse ++ occ
        ∧ db1 = { db with courts := db.courts.map (paint done []) }
        ∧ (∀ id ∈ done, hasCourt db id = true)
        ∧ (r = none → done = activeCourts now bs)
        ∧ (done = [] → db1 = db) := by
  intro bs
  induction bs with
  | nil =>
    intro k occ db r k1 occ1 db1 h
    simp only [occupyLoop, Prod.mk.injEq] at h
    obtain ⟨h1, -, h3, h4⟩ := h
    subst h1 h3 h4
    refine ⟨[], by simp, by simp, ?_, by simp, fun _ => rfl, fun _ => rfl⟩
    simp [paint_nil, show paint [] [] = fun c => c from funext paint_nil]
  | cons b rest ih =>
    intro k occ db r k1 occ1 db1 h
    rw [occupyLoop] at h
    by_cases ha : isActive now b = true
    · rw [if_pos ha] at h
      by_cases hf : faults k = true
      · rw [if_pos hf] at h
        simp only [Prod.mk.injEq] at h
        obtain ⟨h1, -, h3, h4⟩ := h
        subst h1 h3 h4
        refine ⟨[], by simp, by simp, ?_, by simp, by simp, fun _ => rfl⟩
        simp [show paint [] [] = fun c => c from funext paint_nil]
      · rw [if_neg hf, updateStatus_eq] at h
        by_cases hc : hasCourt db b.CourtID = true
        · rw [if_pos hc] at h
          obtain ⟨done, hsub, hocc, hdb, hhas, hall, -⟩ := ih _ _ _ _ _ _ _ h
          refine ⟨b.CourtID :: done, ?_, ?_, ?_, ?_, ?_, by simp⟩
          · intro id hid
            simp only [activeCourts, List.filter_cons, ha, if_true, List.map_cons,
              List.mem_cons] at hid ⊢
            rcases hid with hid | hid
            · exact Or.inl hid
            · exact Or.inr (hsub id hid)
          · rw [hocc]; simp
          · rw [hdb]
            simp only [List.map_map]
            congr 2
            funext c
            exact paint_occ_cons _ _ c
          · intro id hid
            rcases List.mem_cons.1 hid with hid | hid
            · rw [hid]; exact hc
            · have := hhas id hid
              rwa [hasCourt_map db _ (setCourtStatus_id _ _) (setCourtStatus_deleted _ _)]
                at this
          · intro hr
            rw [hall hr]
            simp [activeCourts, List.filter_cons, ha]
        · rw [if_neg hc] at h
          simp only [Prod.mk.injEq] at h
          obtain ⟨h1, -, h3, h4⟩ := h
          subst h1 h3 h4
          refine ⟨[], by simp, by simp, ?_, by simp, by simp, fun _ => rfl⟩
          simp [show paint [] [] = fun c => c from funext paint_nil]
    · rw [if_neg ha] at h
      obtain ⟨done, hsub, hocc, hdb, hhas, hall, hnil⟩ := ih _ _ _ _ _ _ _ h
      refine ⟨done, ?_, hocc, hdb, hhas, ?_, hnil⟩
      · intro id hid
        have := hsub id hid
        simpa [activeCourts, List.filter_cons, ha] using this
      · intro hr
        rw [hall hr]
        simp [activeCourts, List.filter_cons, ha]

/-- The second loop of the tick: the courts written so far are listed courts outside
`occupiedCourts`, and all of those when the loop ends without error. -/
theorem releaseLoop_spec (faults : Faults) (occ : List UUID) :
    ∀ (cs : List Court) (k : Nat) (db : DB) (r : Option String) (db1 : DB),
      releaseLoop faults occ cs k db = (r, db1) →
      ∃ done : List UUID,
        (∀ id ∈ done, (∃ c ∈ cs, c.ID = id) ∧ occ.contains id = false)
        ∧ db1 = { db with courts := db.courts.map (paint [] done) }
        ∧ (r = none → ∀ c ∈ cs, occ.contains c.ID = false → c.ID ∈ done)
        ∧ (done = [] → db1 = db) := by
  intro cs
  induction cs with
  | nil =>
    intro k db r db1 h
    simp only [releaseLoop, Prod.mk.injEq] at h
    obtain ⟨h1, h2⟩ := h
    subst h1 h2
    refine ⟨[], by simp, ?_, by simp, fun _ => rfl⟩
    simp [show paint [] [] = fun c => c from funext paint_nil]
  | cons c rest ih =>
    intro k db r db1 h
    rw [releaseLoop] at h
    by_cases ho : occ.contains c.ID = true
    · rw [if_pos ho] at h
      obtain ⟨done, hsub, hdb, hall, hnil⟩ := ih _ _ _ _ h
      refine ⟨done, ?_, hdb, ?_, hnil⟩
      · intro id hid
        obtain ⟨⟨c1, hc1, hc1id⟩, hno⟩ := hsub id hid
        exact ⟨⟨c1, List.mem_cons_of_mem _ hc1, hc1id⟩, hno⟩
      · intro hr c1 hc1 hno
        rcases List.mem_cons.1 hc1 with hc1 | hc1
        · subst hc1; rw [ho] at hno; cases hno
        · exact hall hr c1 hc1 hno
    · rw [if_neg ho] at h
      by_cases hf : faults k = true
      · rw [if_pos hf] at h
        simp only [Prod.mk.injEq] at h
        obtain ⟨h1, h2⟩ := h
        subst h1 h2
        refine ⟨[], by simp, ?_, by simp, fun _ => rfl⟩
        simp [show paint [] [] = fun c => c from funext paint_nil]
      · rw [if_neg hf, updateStatus_eq] at h
        by_cases hc : hasCourt db c.ID = true
        · rw [if_pos hc] at h
          obtain ⟨done, hsub, hdb, hall, -⟩ := ih _ _ _ _ h
          refine ⟨c.ID :: done, ?_, ?_, ?_, by simp⟩
          · intro id hid
            rcases List.mem_cons.1 hid with hid | hid
            · subst hid
              exact ⟨⟨c, List.mem_cons_self _ _, rfl⟩, by simpa using ho⟩
            · obtain ⟨⟨c1, hc1, hc1id⟩, hno⟩ := hsub id hid
              exact ⟨⟨c1, List.mem_cons_of_mem _ hc1, hc1id⟩, hno⟩
          · rw [hdb]
            simp only [List.map_map]
            congr 2
            funext c1
            exact paint_rel_cons _ _ c1
          · intro hr c1 hc1 hno
            rcases List.mem_cons.1 hc1 with hc1 | hc1
            · subst hc1; exact List.mem_cons_self _ _
            · exact List.mem_cons_of_mem _ (hall hr c1 hc1 hno)
        · rw [if_neg hc] at h
          simp only [Prod.mk.injEq] at h
          obtain ⟨h1, h2⟩ := h
          subst h1 h2
          refine ⟨[], by simp, ?_, by simp, fun _ => rfl⟩
          simp [show paint [] [] = fun c => c from funext paint_nil]

theorem mem_courtList (db : DB) (c : Court) :
    c ∈ courtRepository.List db
      ↔ c ∈ db.courts ∧ c.Deleted = false ∧ ∃ v ∈ db.venues, v.ID = c.VenueID := by
  simp only [courtRepository.List, List.mem_flatMap, List.mem_filter, List.mem_map]
  constructor
  · rintro ⟨c1, ⟨hc1, hd⟩, v, ⟨hv, hvid⟩, rfl⟩
    exact ⟨hc1, by simpa using hd, v, hv, by simpa using hvid⟩
  · rintro ⟨hc, hd, v, hv, hvid⟩
    exact ⟨c, ⟨hc, by simpa using hd⟩, v, ⟨hv, by simpa using hvid⟩, rfl⟩

theorem courtList_map (db : DB) (f : Court → Court) (hdel : ∀ c, (f c).Deleted = c.Deleted)
    (hven : ∀ c, (f c).VenueID = c.VenueID) :
    courtRepository.List { db with courts := db.courts.map f }
      = (courtRepository.List db).map f := by
  simp only [courtRepository.List]
  induction db.courts with
  | nil => rfl
  | cons c rest ih =>
    simp only [List.map_cons, List.filter_cons, hdel]
    by_cases hd : c.Deleted = true
    · simp only [hd, Bool.not_true, Bool.false_eq_true, if_false]
      exact ih
    · have hd2 : c.Deleted = false := by simpa using hd
      simp only [hd2, Bool.not_false, if_true, List.flatMap_cons, List.map_append, ih, hven,
        List.map_map]
      rfl

theorem paint_comp (O L done : List UUID)
    (h1 : ∀ id ∈ done, id ∈ L ∧ O.contains id = false)
    (h2 : ∀ id ∈ L, O.contains id = false → id ∈ done) (c : Court) :
    paint [] done (paint O [] c) = paint O L c := by
  obtain ⟨i, v, n, p, s, d⟩ := c
  cases d
  · by_cases hO : O.contains i = true
    · have hd : ¬ i ∈ done := fun hi => by
        have := (h1 i hi).2
        rw [hO] at this; cases this
      have hO3 : i ∈ O := by simpa using hO
      simp [paint, hO3, hd]
    · have hO2 : O.contains i = false := by simpa using hO
      by_cases hL : i ∈ L
      · have hd : i ∈ done := h2 i hL hO2
        have hO3 : ¬ i ∈ O := by simpa using hO2
        simp [paint, hO3, hd, hL]
      · have hd : ¬ i ∈ done := fun hi => hL (h1 i hi).1
        have hO3 : ¬ i ∈ O := by simpa using hO2
        simp [paint, hO3, hd, hL]
  · simp [paint]

theorem changeCourtStatus_eq (faults : Faults) (db : DB) (now zone : Int) :
    useCase.ChangeCourtStatus faults db now zone
      = if faults 0 then (.error "failed to get all bookings", db)
        else
          match occupyLoop faults now (todaysConfirmed db now zone) 1 [] db with
          | (some msg, _, _, db1) => (.error msg, db1)
          | (none, k, occupiedCourts, db1) =>
            if faults k then (.error "failed to list all courts", db1)
            else
              match releaseLoop faults occupiedCourts (courtRepository.List db1) (k + 1) db1 with
              | (some msg, db2) => (.error msg, db2)
              | (none, db2) => (.ok (), db2) := by
  simp only [useCase.ChangeCourtStatus, tick_filters_eq, tick_list_eq]

theorem changeCourtStatus_ok (faults : Faults) (db : DB) (now zone : Int) (db2 : DB)
    (h : useCase.ChangeCourtStatus faults db now zone = (.ok (), db2)) :
    db2 = tickResult db now zone
      ∧ ∀ id ∈ activeCourts now (todaysConfirmed db now zone), hasCourt db id = true := by
  rw [changeCourtStatus_eq] at h
  by_cases hf0 : faults 0 = true
  · rw [if_pos hf0] at h; cases h
  · rw [if_neg hf0] at h
    rcases ho : occupyLoop faults now (todaysConfirmed db now zone) 1 [] db with ⟨r, k, occ, db1⟩
    rw [ho] at h
    obtain ⟨done, -, hocc, hdb1, hhas, hall, -⟩ := occupyLoop_spec _ _ _ _ _ _ _ _ _ _ ho
    cases r with
    | some msg => cases h
    | none =>
      have hdone := hall rfl
      subst hdone
      simp only at h
      by_cases hfk : faults k = true
      · rw [if_pos hfk] at h; cases h
      · rw [if_neg hfk] at h
        rcases hr : releaseLoop faults occ (courtRepository.List db1) (k + 1) db1 with ⟨r2, db3⟩
        rw [hr] at h
        obtain ⟨done2, hsub2, hdb3, hall2, -⟩ := releaseLoop_spec _ _ _ _ _ _ _ hr
        cases r2 with
        | some msg => cases h
        | none =>
          simp only [Prod.mk.injEq, true_and] at h
          subst h
          refine ⟨?_, hhas⟩
          have hlist : courtRepository.List db1
              = (courtRepository.List db).map
                  (paint (activeCourts now (todaysConfirmed db now zone)) []) := by
            rw [hdb1]
            exact courtList_map db _ (paint_deleted _ _) (paint_venueID _ _)
          have hcont : ∀ id, occ.contains id
              = (activeCourts now (todaysConfirmed db now zone)).contains id := by
            intro id
            rw [hocc]
            simp
          rw [hdb3, hdb1, tickResult]
          simp only [List.map_map]
          congr 2
          funext c
          apply paint_comp
          · intro id hid
            obtain ⟨⟨c1, hc1, hc1id⟩, hno⟩ := hsub2 id hid
            rw [hlist] at hc1
            obtain ⟨c0, hc0, rfl⟩ := List.mem_map.1 hc1
            refine ⟨List.mem_map.2 ⟨c0, hc0, ?_⟩, ?_⟩
            · rw [← hc1id, paint_id]
            · rw [← hcont]; exact hno
          · intro id hid hno
            obtain ⟨c0, hc0, rfl⟩ := List.mem_map.1 hid
            have := hall2 rfl (paint (activeCourts now (todaysConfirmed db now zone)) [] c0)
              (by rw [hlist]; exact List.mem_map.2 ⟨c0, hc0, rfl⟩)
              (by rw [paint_id, hcont]; exact hno)
            rwa [paint_id] at this

theorem mem_activeCourts (now : Int) (bs : List CourtBooking) (id : UUID) :
    id ∈ activeCourts now bs
      ↔ ∃ b ∈ bs, b.CourtID = id ∧ dateIn b.Date b.StartTime thailandTZ < now
          ∧ now < dateIn b.Date b.EndTime thailandTZ := by
  simp only [activeCourts, List.mem_map, List.mem_filter, isActive, Bool.and_eq_true,
    decide_eq_true_eq]
  constructor
  · rintro ⟨b, ⟨hb, h1, h2⟩, rfl⟩
    exact ⟨b, hb, rfl, h1, h2⟩
  · rintro ⟨b, hb, rfl, h1, h2⟩
    exact ⟨b, ⟨hb, h1, h2⟩, rfl⟩

theorem courtList_tickResult (db : DB) (now zone : Int) :
    courtRepository.List (tickResult db now zone)
      = (courtRepository.List db).map
          (paint (activeCourts now (todaysConfirmed db now zone))
            ((courtRepository.List db).map (fun c => c.ID))) :=
  courtList_map db _ (paint_deleted _ _) (paint_venueID _ _)

theorem paint_listed (O L : List UUID) (c : Court) (hd : c.Deleted = false) (hL : c.ID ∈ L) :
    paint O L c
      = { c with Status := if O.contains c.ID then CourtStatusOccupied
                           else CourtStatusAvailable } := by
  obtain ⟨i, v, n, p, s, d⟩ := c
  simp only at hd hL
  subst hd
  by_cases hO : i ∈ O <;> simp [paint, hO, hL]

theorem tick_listed (db : DB) (now zone : Int) (c : Court)
    (h : c ∈ courtRepository.List (tickResult db now zone)) :
    ∃ c0 ∈ courtRepository.List db,
      c = { c0 with Status :=
              if (activeCourts now (todaysConfirmed db now zone)).contains c0.ID
              then CourtStatusOccupied else CourtStatusAvailable } := by
  rw [courtList_tickResult] at h
  obtain ⟨c0, hc0, rfl⟩ := List.mem_map.1 h
  refine ⟨c0, hc0, ?_⟩
  exact paint_listed _ _ c0 ((mem_courtList db c0).1 hc0).2.1 (List.mem_map.2 ⟨c0, hc0, rfl⟩)

/-- C22: after a successful tick, a listed court is `occupied` when one of the confirmed
bookings of today that the tick read is on that court with `start < now < end` (start and end
being the booking's date with its hour and minute in the zone UTC+7), and `available`
otherwise; in particular it is `available` when every such booking on it starts at `now` or
later, or has ended. -/
theorem changeCourtStatus_occupied_iff (faults : Faults) (db : DB) (now zone : Int) (db2 : DB)
    (h : useCase.ChangeCourtStatus faults db now zone = (.ok (), db2)) :
    bookingRepository.List db uuidNil
        [("date", FilterValue.dateString (localDate now zone)),
         ("status", FilterValue.string BookingStatusConfirmed)] 0 0
        = .ok (todaysConfirmed db now zone)
      ∧ (∀ c ∈ courtRepository.List db2,
          (∃ b ∈ todaysConfirmed db now zone, b.CourtID = c.ID
              ∧ dateIn b.Date b.StartTime thailandTZ < now
              ∧ now < dateIn b.Date b.EndTime thailandTZ) →
          c.Status = CourtStatusOccupied)
      ∧ (∀ c ∈ courtRepository.List db2,
          (¬ ∃ b ∈ todaysConfirmed db now zone, b.CourtID = c.ID
              ∧ dateIn b.Date b.StartTime thailandTZ < now
              ∧ now < dateIn b.Date b.EndTime thailandTZ) →
          c.Status = CourtStatusAvailable)
      ∧ (∀ c ∈ courtRepository.List db2,
          (∀ b ∈ todaysConfirmed db now zone, b.CourtID = c.ID →
              now ≤ dateIn b.Date b.StartTime thailandTZ
                ∨ dateIn b.Date b.EndTime thailandTZ ≤ now) →
          c.Status = CourtStatusAvailable) := by
  have hdb := (changeCourtStatus_ok faults db now zone db2 h).1
  subst hdb
  have key : ∀ c ∈ courtRepository.List (tickResult db now zone),
      ((∃ b ∈ todaysConfirmed db now zone, b.CourtID = c.ID
              ∧ dateIn b.Date b.StartTime thailandTZ < now
              ∧ now < dateIn b.Date b.EndTime thailandTZ) → c.Status = CourtStatusOccupied)
      ∧ ((¬ ∃ b ∈ todaysConfirmed db now zone, b.CourtID = c.ID
              ∧ dateIn b.Date b.StartTime thailandTZ < now
              ∧ now < dateIn b.Date b.EndTime thailandTZ) → c.Status = CourtStatusAvailable) := by
    intro c hc
    obtain ⟨c0, -, rfl⟩ := tick_listed db now zone c hc
    constructor
    · intro hex
      have hmem := (mem_activeCourts now _ c0.ID).2 hex
      show (if _ then _ else _) = _
      rw [if_pos (by simpa using hmem)]
    · intro hex
      have hmem : ¬ c0.ID ∈ activeCourts now (todaysConfirmed db now zone) :=
        fun hm => hex ((mem_activeCourts now _ c0.ID).1 hm)
      show (if _ then _ else _) = _
      rw [if_neg (by simpa using hmem)]
  refine ⟨tick_list_eq db now zone, fun c hc => (key c hc).1, fun c hc => (key c hc).2, ?_⟩
  intro c hc hall
  apply (key c hc).2
  rintro ⟨b, hb, hid, h1, h2⟩
  rcases hall b hb hid with h3 | h3 <;> omega

theorem changeCourtStatus_occupied_iff_witness :
    useCase.ChangeCourtStatus noFaults dbTick nowStart thailandTZ
        = (.ok (), { dbTick with courts := [courtC, { courtM with Status := "available" }] })
      ∧ (∀ c ∈ courtRepository.List
            { dbTick with courts := [courtC, { courtM with Status := "available" }] },
          (∀ b ∈ todaysConfirmed dbTick nowStart thailandTZ, b.CourtID = c.ID →
              nowStart ≤ dateIn b.Date b.StartTime thailandTZ
                ∨ dateIn b.Date b.EndTime thailandTZ ≤ nowStart) →
          c.Status = CourtStatusAvailable)
      ∧ (todaysConfirmed dbTick nowStart thailandTZ).map
            (fun b => (b.CourtID, dateIn b.Date b.StartTime thailandTZ))
          = [(10, nowStart)] :=
  ⟨by decide!,
   (changeCourtStatus_occupied_iff noFaults dbTick nowStart thailandTZ
      { dbTick with courts := [courtC, { courtM with Status := "available" }] }
      (by decide!)).2.2.2,
   by decide!⟩

/-- C24: after a successful tick every listed court is `available` or `occupied`, so none is
in `maintenance`; every court listed before the tick is listed after it with one of these
two statuses and its other fields unchanged, whatever its status was. -/
theorem changeCourtStatus_clears_maintenance (faults : Faults) (db : DB) (now zone : Int)
    (db2 : DB) (h : useCase.ChangeCourtStatus faults db now zone = (.ok (), db2)) :
    (∀ c ∈ courtRepository.List db2,
        c.Status = CourtStatusAvailable ∨ c.Status = CourtStatusOccupied)
      ∧ (∀ c ∈ courtRepository.List db2, c.Status ≠ CourtStatusMaintenance)
      ∧ (∀ c ∈ courtRepository.List db,
          ∃ s, (s = CourtStatusAvailable ∨ s = CourtStatusOccupied)
            ∧ { c with Status := s } ∈ courtRepository.List db2) := by
  have hdb := (changeCourtStatus_ok faults db now zone db2 h).1
  subst hdb
  have key : ∀ c ∈ courtRepository.List (tickResult db now zone),
      c.Status = CourtStatusAvailable ∨ c.Status = CourtStatusOccupied := by
    intro c hc
    obtain ⟨c0, -, rfl⟩ := tick_listed db now zone c hc
    show (if _ then _ else _) = _ ∨ (if _ then _ else _) = _
    split
    · exact Or.inr rfl
    · exact Or.inl rfl
  refine ⟨key, ?_, ?_⟩
  · intro c hc hm
    rcases key c hc with h1 | h1 <;> rw [h1] at hm <;> revert hm <;> decide
  · intro c hc
    refine ⟨if (activeCourts now (todaysConfirmed db now zone)).contains c.ID
        then CourtStatusOccupied else CourtStatusAvailable, ?_, ?_⟩
    · split
      · exact Or.inr rfl
      · exact Or.inl rfl
    · rw [courtList_tickResult]
      refine List.mem_map.2 ⟨c, hc, ?_⟩
      exact paint_listed _ _ c ((mem_courtList db c).1 hc).2.1 (List.mem_map.2 ⟨c, hc, rfl⟩)

theorem changeCourtStatus_clears_maintenance_witness :
    courtM ∈ courtRepository.List dbTick ∧ courtM.Status = CourtStatusMaintenance
      ∧ useCase.ChangeCourtStatus noFaults dbTick (nowStart + 2) thailandTZ
        = (.ok (), { dbTick with
            courts := [{ courtC with Status := "occupied" },
                       { courtM with Status := "available" }] })
      ∧ ∀ c ∈ courtRepository.List
            { dbTick with
              courts := [{ courtC with Status := "occupied" },
                         { courtM with Status := "available" }] },
          c.Status ≠ CourtStatusMaintenance :=
  ⟨by decide!, by decide, by decide!,
   (changeCourtStatus_clears_maintenance noFaults dbTick (nowStart + 2) thailandTZ
      { dbTick with
        courts := [{ courtC with Status := "occupied" },
                   { courtM with Status := "available" }] }
      (by decide!)).2.1⟩

theorem isSome_getByID_payments (db db1 : DB)
    (hu : db1.users = db.users) (hv : db1.venues = db.venues) (hc : db1.courts = db.courts)
    (hb : db1.bookings = db.bookings) (id : UUID) :
    (bookingRepository.GetByID db1 id).isSome = (bookingRepository.GetByID db id).isSome := by
  rw [getByID_payments db db1 hu hv hc hb id, Option.isSome_map']

theorem isSome_getByID_updateRow (db db1 : DB) (bk : CourtBooking)
    (hu : db1.users = db.users) (hv : db1.venues = db.venues) (hc : db1.courts = db.courts)
    (hb : db1.bookings = db.bookings.map (updateRow bk)) (id : UUID) :
    (bookingRepository.GetByID db1 id).isSome = (bookingRepository.GetByID db id).isSome := by
  rw [isSome_getByID_payments { db1 with payments := db.payments } db1 rfl rfl rfl rfl id,
    getByID_updateRow db { db1 with payments := db.payments } bk hu hv hc rfl hb id,
    Option.isSome_map']

theorem isSome_getByID_cancelRow (db db1 : DB) (now : Nat) (cid : UUID)
    (hu : db1.users = db.users) (hv : db1.venues = db.venues) (hc : db1.courts = db.courts)
    (hb : db1.bookings = db.bookings.map (cancelRow now cid)) (id : UUID) :
    (bookingRepository.GetByID db1 id).isSome = (bookingRepository.GetByID db id).isSome := by
  rw [isSome_getByID_payments { db1 with payments := db.payments } db1 rfl rfl rfl rfl id,
    getByID_cancelRow db { db1 with payments := db.payments } now cid hu hv hc rfl hb id,
    Option.isSome_map']

theorem isSome_getByID_append (db : DB) (b : CourtBooking) (id : UUID)
    (h : (bookingRepository.GetByID db id).isSome = true) :
    (bookingRepository.GetByID { db with bookings := db.bookings ++ [b] } id).isSome = true := by
  rw [getByID_eq, Option.isSome_map'] at h ⊢
  have hj : bookingJoin { db with bookings := db.bookings ++ [b] } = bookingJoin db :=
    funext (fun x => bookingJoin_congr db _ rfl rfl rfl x)
  simp only [hj, List.flatMap_append, List.filter_append]
  cases hl : (db.bookings.flatMap (bookingJoin db)).filter (fun b => b.ID == id) with
  | nil => rw [hl] at h; cases h
  | cons x xs => rfl

theorem payment_unique (db : DB) (bid : UUID) (h : paymentCount db bid ≤ 1) (p q : Payment)
    (hp : p ∈ db.payments) (hq : q ∈ db.payments) (hpb : p.BookingID = bid)
    (hqb : q.BookingID = bid) : p = q := by
  unfold paymentCount at h
  have hp1 : p ∈ db.payments.filter (fun x => x.BookingID == bid) := by
    simp [List.mem_filter, hp, hpb]
  have hq1 : q ∈ db.payments.filter (fun x => x.BookingID == bid) := by
    simp [List.mem_filter, hq, hqb]
  cases hl : db.payments.filter (fun x => x.BookingID == bid) with
  | nil => rw [hl] at hp1; cases hp1
  | cons x xs =>
    rw [hl] at h hp1 hq1
    cases xs with
    | nil =>
      rw [List.mem_singleton] at hp1 hq1
      rw [hp1, hq1]
    | cons y ys => simp at h

/-- With working persistence, `UpdatePayment` either leaves the store as it was, or fails to
read the booking of the payment it has updated, or updates the payment and the booking. -/
theorem updatePayment_noFaults_cases (db : DB) (now : Nat) (id userID : UUID)
    (req : UpdatePaymentRequest) :
    (useCase.UpdatePayment noFaults db now id userID req).2 = db
      ∨ ∃ payment, bookingRepository.GetPayment db id = some payment
          ∧ payment.Status = PaymentStatusPending
          ∧ (bookingRepository.GetByID db id = none
            ∨ ∃ booking,
                bookingRepository.GetByID
                    { db with payments :=
                        db.payments.map (updatePaymentRow (updatedPayment now req payment)) }
                    id = some booking
                ∧ (useCase.UpdatePayment noFaults db now id userID req).2
                  = { db with
                      payments :=
                        db.payments.map (updatePaymentRow (updatedPayment now req payment)),
                      bookings := db.bookings.map (updateRow
                        (statusBooking now (updatedPayment now req payment).Status
                          booking)) }) := by
  rcases updatePayment_cases noFaults db now id userID req with ⟨msg, h⟩
    | ⟨p, hp, hu, hs, ⟨msg, h⟩ | ⟨b, hb, h⟩⟩
  · left; rw [h]
  · right
    refine ⟨p, hp, hs, ?_⟩
    cases hget : bookingRepository.GetByID db id with
    | none => exact Or.inl rfl
    | some booking =>
      exfalso
      have hsome : ∃ b1, bookingRepository.GetByID
          { db with payments :=
              db.payments.map (updatePaymentRow (updatedPayment now req p)) } id = some b1 := by
        have := isSome_getByID_payments db
          { db with payments :=
              db.payments.map (updatePaymentRow (updatedPayment now req p)) } rfl rfl rfl rfl id
        rw [hget] at this
        exact Option.isSome_iff_exists.1 this
      obtain ⟨b1, hb1⟩ := hsome
      obtain ⟨hmem, hbid⟩ := getPayment_some db id p hp
      have hrows : (db.payments.filter
          (fun q => q.ID == (updatedPayment now req p).ID)).length ≠ 0 := by
        rw [(updatedPayment_fields now req p).1]
        intro h0
        rw [List.length_eq_zero] at h0
        have : p ∈ db.payments.filter (fun q => q.ID == p.ID) := by
          simp [List.mem_filter, hmem]
        rw [h0] at this
        cases this
      have hrows1 := update_rows_of_getByID _ id b1 hb1
      have hx : (useCase.UpdatePayment noFaults db now id userID req).1
          = paymentResponse (updatedPayment now req p) := by
        rw [updatePayment_eq]
        simp only [noFaults, Bool.false_eq_true, if_false, hp, hs, hu, not_true, ne_eq,
          bookingRepository.UpdatePayment, hrows, handlePaymentStatus_eq,
          (updatedPayment_fields now req p).2.1, hbid, hb1, bookingRepository.Update,
          statusBooking_id, (getByID_some _ id b1 hb1).1, hrows1]
        cases paymentResponse (updatedPayment now req p) <;> rfl
      rw [h] at hx
      exact paymentResponse_ne_error _ _ hx.symm
  · right
    exact ⟨p, hp, hs, Or.inr ⟨b, hb, by rw [h]⟩⟩

theorem updatedBooking_id (now : Nat) (req : UpdateBookingRequest) (booking : CourtBooking) :
    (updatedBooking now req booking).ID = booking.ID := by
  unfold updatedBooking
  split <;> split <;> rfl

theorem updatePaymentRow_id (p0 p : Payment) : (updatePaymentRow p0 p).ID = p.ID := by
  unfold updatePaymentRow; split <;> rfl

theorem updateRow_of_ne (bk b : CourtBooking) (h : b.ID ≠ bk.ID) : updateRow bk b = b := by
  unfold updateRow
  rw [if_neg (by simpa using h)]

theorem updateRow_status_of_eq (bk b : CourtBooking) (h : b.ID = bk.ID) :
    (updateRow bk b).Status = bk.Status := by
  unfold updateRow
  rw [if_pos (by simpa using h)]

theorem cancelRow_of_ne (now : Nat) (id : UUID) (b : CourtBooking) (h : b.ID ≠ id) :
    cancelRow now id b = b := by
  unfold cancelRow
  rw [if_neg (by simpa using h)]

/-- Under the invariant, a booking that can be cancelled has no completed payment. -/
theorem no_completed_of_cancellable (db : DB) (hinv : paidInv db) (id : UUID)
    (booking : CourtBooking) (p : Payment)
    (hget : bookingRepository.GetByID db id = some booking)
    (hpay : booking.Payment = some p) (hc : p.Status = PaymentStatusCompleted) :
    booking.Status = BookingStatusConfirmed := by
  obtain ⟨-, hp, b0, hb0, hid, hst, -⟩ := getByID_some db id booking hget
  rw [hpay] at hp
  obtain ⟨hmem, hbid⟩ := getPayment_some db id p hp.symm
  rw [← hst]
  exact hinv.1 p hmem hc b0 hb0 (hid.trans hbid.symm)

theorem paidInv_createBooking (db : DB) (now : Nat) (newID userID : UUID)
    (req : CreateBookingRequest) (hinv : paidInv db)
    (hfresh : ∀ b ∈ db.bookings, b.ID ≠ newID) :
    paidInv (useCase.CreateBooking db now newID userID req).2 := by
  rcases createBooking_cases db now newID userID req with ⟨-, h⟩ | ⟨_, _, _, _, _, b, h⟩
  · rw [h]; exact hinv
  · rw [h.2.2.2.2.2.2.2.2.2.2.2.2.2.2]
    have hbid : b.ID = newID := h.2.2.2.2.2.1
    obtain ⟨hI, hJ, hK, hU⟩ := hinv
    refine ⟨?_, ?_, hK, hU⟩
    · intro p hp hc b1 hb1 hid
      rcases List.mem_append.1 hb1 with hb1 | hb1
      · exact hI p hp hc b1 hb1 hid
      · exfalso
        rw [List.mem_singleton] at hb1
        subst hb1
        obtain ⟨r, hr⟩ := Option.isSome_iff_exists.1 (hJ p hp)
        obtain ⟨-, -, b0, hb0, hid0, -⟩ := getByID_some db _ r hr
        exact hfresh b0 hb0 (hid0.trans (hid.symm.trans hbid))
    · intro p hp
      exact isSome_getByID_append db b _ (hJ p hp)

theorem paidInv_updateBooking (db : DB) (now : Nat) (id : UUID) (req : UpdateBookingRequest)
    (hinv : paidInv db) :
    paidInv (useCase.UpdateBooking noFaults db now id req).2 := by
  rcases updateBooking_cases noFaults db now id req with ⟨msg, h⟩ | ⟨booking, hget, -, hnc, h⟩
  · rw [h]; exact hinv
  · rw [h]
    have hinv0 := hinv
    obtain ⟨hI, hJ, hK, hU⟩ := hinv
    have hbid : booking.ID = id := (getByID_some db id booking hget).1
    refine ⟨?_, ?_, hK, hU⟩
    · intro p hp hc b1 hb1 hid
      obtain ⟨b0, hb0, rfl⟩ := List.mem_map.1 hb1
      rw [updateRow_id] at hid
      by_cases hx : b0.ID = id
      · exfalso
        apply hnc
        have hgp : bookingRepository.GetPayment db id = some p := by
          cases hg : bookingRepository.GetPayment db id with
          | none =>
            have := (getPayment_none_iff db id).1 hg
            unfold paymentCount at this
            rw [List.length_eq_zero] at this
            have hm : p ∈ db.payments.filter (fun q => q.BookingID == id) := by
              simp [List.mem_filter, hp, ← hid, hx]
            rw [this] at hm
            cases hm
          | some q =>
            obtain ⟨hq, hqb⟩ := getPayment_some db id q hg
            rw [payment_unique db id (hU id) q p hq hp hqb (hid.symm.trans hx)]
        exact no_completed_of_cancellable db hinv0 id booking p hget
          (((getByID_some db id booking hget).2.1).trans hgp) hc
      · rw [updateRow_of_ne _ _ (by rw [updatedBooking_id, hbid]; exact hx)]
        exact hI p hp hc b0 hb0 hid
    · intro p hp
      exact (isSome_getByID_updateRow db
        { db with bookings := db.bookings.map (updateRow (updatedBooking now req booking)) }
        (updatedBooking now req booking) rfl rfl rfl rfl p.BookingID).trans (hJ p hp)

theorem paidInv_cancelBooking (db : DB) (now : Nat) (id userID : UUID) (hinv : paidInv db) :
    paidInv (useCase.CancelBooking noFaults db now id userID).2 := by
  have hinv0 := hinv
  obtain ⟨hI, hJ, hK, hU⟩ := hinv
  rcases cancelBooking_cases noFaults db now id userID with ⟨msg, h⟩
    | ⟨booking, u, hget, -, -, hcan, ⟨-, h⟩ | ⟨p, -, -, h3, -⟩ | ⟨p, hpay, hc, -⟩⟩
  · rw [h]; exact hinv0
  · rw [h]
    have hnc := ((canBeCancelled_iff booking).1 hcan).2
    obtain ⟨-, -, b00, hb00, hid00, hst00, -⟩ := getByID_some db id booking hget
    refine ⟨?_, ?_, hK, hU⟩
    · intro p hp hc b1 hb1 hid
      obtain ⟨b0, hb0, rfl⟩ := List.mem_map.1 hb1
      rw [cancelRow_id] at hid
      by_cases hx : b0.ID = id
      · exfalso
        apply hnc
        rw [← hst00]
        exact hI p hp hc b00 hb00 (hid00.trans (hx.symm.trans hid))
      · rw [cancelRow_of_ne _ _ _ hx]
        exact hI p hp hc b0 hb0 hid
    · intro p hp
      exact (isSome_getByID_cancelRow db
        { db with bookings := db.bookings.map (cancelRow now id) }
        now id rfl rfl rfl rfl p.BookingID).trans (hJ p hp)
  · exact absurd h3 (by simp [noFaults])
  · exfalso
    exact ((canBeCancelled_iff booking).1 hcan).2
      (no_completed_of_cancellable db hinv0 id booking p hget hpay hc)

theorem paidInv_createPayment (db : DB) (now : Nat) (newID bookingID userID : UUID)
    (req : CreatePaymentRequest) (hinv : paidInv db)
    (hfresh : ∀ p ∈ db.payments, p.ID ≠ newID) :
    paidInv (useCase.CreatePayment noFaults db now newID bookingID userID req).2 := by
  have hU1 : ∀ bid, paymentCount
      (useCase.CreatePayment noFaults db now newID bookingID userID req).2 bid ≤ 1 :=
    fun bid => step_paymentCount_le_one db
      (Op.createPayment noFaults now newID bookingID userID req) hinv.2.2.2 bid
  have hinv0 := hinv
  obtain ⟨hI, hJ, hK, hU⟩ := hinv
  have hnp : (newPayment now newID bookingID userID req).Status ≠ PaymentStatusCompleted := by
    show PaymentStatusPending ≠ PaymentStatusCompleted
    decide
  have hK1 : ∀ p ∈ db.payments ++ [newPayment now newID bookingID userID req],
      ∀ q ∈ db.payments ++ [newPayment now newID bookingID userID req],
      p.ID = q.ID → p.BookingID = q.BookingID := by
    intro p hp q hq hpq
    rcases List.mem_append.1 hp with hp | hp <;> rcases List.mem_append.1 hq with hq | hq
    · exact hK p hp q hq hpq
    · rw [List.mem_singleton] at hq
      subst hq
      exact absurd hpq (hfresh p hp)
    · rw [List.mem_singleton] at hp
      subst hp
      exact absurd hpq.symm (hfresh q hq)
    · rw [List.mem_singleton] at hp hq
      rw [hp, hq]
  rcases createPayment_cases noFaults db now newID bookingID userID req with ⟨msg, h⟩
    | ⟨booking, hget, -, -, -, ⟨-, h⟩ | ⟨-, h2, -⟩ | ⟨-, -, h⟩⟩
  · rw [h]; exact hinv0
  · refine ⟨?_, ?_, ?_, hU1⟩
    · rw [h]
      intro p hp hc b1 hb1 hid
      rcases List.mem_append.1 hp with hp | hp
      · exact hI p hp hc b1 hb1 hid
      · rw [List.mem_singleton] at hp
        subst hp
        exact absurd hc hnp
    · rw [h]
      intro p hp
      refine (isSome_getByID_payments db
        { db with payments := db.payments ++ [newPayment now newID bookingID userID req] }
        rfl rfl rfl rfl p.BookingID).trans ?_
      rcases List.mem_append.1 hp with hp | hp
      · exact hJ p hp
      · rw [List.mem_singleton] at hp
        subst hp
        show (bookingRepository.GetByID db bookingID).isSome = true
        rw [hget]; rfl
    · rw [h]
      exact hK1
  · exact absurd h2 (by simp [noFaults])
  · refine ⟨?_, ?_, ?_, hU1⟩
    · rw [h]
      intro p hp hc b1 hb1 hid
      rcases List.mem_append.1 hp with hp | hp
      · obtain ⟨b0, hb0, rfl⟩ := List.mem_map.1 hb1
        rw [updateRow_id] at hid
        by_cases hx : b0.ID = booking.ID
        · exact updateRow_status_of_eq
            { booking with Status := BookingStatusConfirmed, UpdatedAt := now } b0 hx
        · rw [updateRow_of_ne
            { booking with Status := BookingStatusConfirmed, UpdatedAt := now } b0 hx]
          exact hI p hp hc b0 hb0 hid
      · rw [List.mem_singleton] at hp
        subst hp
        exact absurd hc hnp
    · rw [h]
      intro p hp
      refine (isSome_getByID_updateRow db
        { db with
          payments := db.payments ++ [newPayment now newID bookingID userID req],
          bookings := db.bookings.map (updateRow
            { booking with Status := BookingStatusConfirmed, UpdatedAt := now }) }
        { booking with Status := BookingStatusConfirmed, UpdatedAt := now }
        rfl rfl rfl rfl p.BookingID).trans ?_
      rcases List.mem_append.1 hp with hp | hp
      · exact hJ p hp
      · rw [List.mem_singleton] at hp
        subst hp
        show (bookingRepository.GetByID db bookingID).isSome = true
        rw [hget]; rfl
    · rw [h]
      exact hK1

theorem paidInv_updatePayment (db : DB) (now : Nat) (id userID : UUID)
    (req : UpdatePaymentRequest) (hinv : paidInv db) :
    paidInv (useCase.UpdatePayment noFaults db now id userID req).2 := by
  have hU1 : ∀ bid, paymentCount
      (useCase.UpdatePayment noFaults db now id userID req).2 bid ≤ 1 :=
    fun bid => step_paymentCount_le_one db
      (Op.updatePayment noFaults now id userID req) hinv.2.2.2 bid
  have hinv0 := hinv
  obtain ⟨hI, hJ, hK, hU⟩ := hinv
  rcases updatePayment_noFaults_cases db now id userID req with h
    | ⟨P, hP, -, hnone | ⟨booking, hget, h⟩⟩
  · rw [h]; exact hinv0
  · exfalso
    obtain ⟨hPm, hPb⟩ := getPayment_some db id P hP
    have := hJ P hPm
    rw [hPb, hnone] at this
    cases this
  · obtain ⟨hPm, hPb⟩ := getPayment_some db id P hP
    obtain ⟨hid1, hbk1, hst1, -⟩ := updatedPayment_fields now req P
    have hbid : booking.ID = id := (getByID_some _ id booking hget).1
    refine ⟨?_, ?_, ?_, hU1⟩
    · rw [h]
      intro q1 hq1 hc b1 hb1 hid
      obtain ⟨q, hq, rfl⟩ := List.mem_map.1 hq1
      obtain ⟨b0, hb0, rfl⟩ := List.mem_map.1 hb1
      rw [updateRow_id, updatePaymentRow_bookingID] at hid
      by_cases hqP : q.ID = P.ID
      · have hqb : q.BookingID = id := (hK q hq P hPm hqP).trans hPb
        have hcs : (updatedPayment now req P).Status = PaymentStatusCompleted := by
          unfold updatePaymentRow at hc
          rw [if_pos (by rw [hid1]; simpa using hqP)] at hc
          exact hc
        rw [updateRow_status_of_eq _ b0
          (by rw [statusBooking_id, hbid, hid, hqb])]
        exact (statusBooking_status now _ booking).1 hcs
      · have hq1 : updatePaymentRow (updatedPayment now req P) q = q := by
          unfold updatePaymentRow
          rw [if_neg (by rw [hid1]; simpa using hqP)]
        rw [hq1] at hc
        have hqb : q.BookingID ≠ id := fun hqb =>
          hqP (by rw [payment_unique db id (hU id) q P hq hPm hqb hPb])
        rw [updateRow_of_ne _ _ (by rw [statusBooking_id, hbid, hid]; exact hqb)]
        exact hI q hq hc b0 hb0 hid
    · rw [h]
      intro q1 hq1
      obtain ⟨q, hq, rfl⟩ := List.mem_map.1 hq1
      rw [updatePaymentRow_bookingID]
      exact (isSome_getByID_updateRow db
        { db with
          payments := db.payments.map (updatePaymentRow (updatedPayment now req P)),
          bookings := db.bookings.map (updateRow
            (statusBooking now (updatedPayment now req P).Status booking)) }
        (statusBooking now (updatedPayment now req P).Status booking)
        rfl rfl rfl rfl q.BookingID).trans (hJ q hq)
    · rw [h]
      intro q1 hq1 q2 hq2 hqq
      obtain ⟨q3, hq3, rfl⟩ := List.mem_map.1 hq1
      obtain ⟨q4, hq4, rfl⟩ := List.mem_map.1 hq2
      rw [updatePaymentRow_id, updatePaymentRow_id] at hqq
      rw [updatePaymentRow_bookingID, updatePaymentRow_bookingID]
      exact hK q3 hq3 q4 hq4 hqq

theorem step_paidInv (db : DB) (op : Op) (hinv : paidInv db) (hff : op.faultFree)
    (hfr : op.fresh db) : paidInv (step db op) := by
  cases op with
  | createBooking now newID userID req => exact paidInv_createBooking db now newID userID req hinv hfr
  | updateBooking faults now id req =>
    have hf : faults = noFaults := hff
    subst hf
    exact paidInv_updateBooking db now id req hinv
  | cancelBooking faults now id userID =>
    have hf : faults = noFaults := hff
    subst hf
    exact paidInv_cancelBooking db now id userID hinv
  | createPayment faults now newID bookingID userID req =>
    have hf : faults = noFaults := hff
    subst hf
    exact paidInv_createPayment db now newID bookingID userID req hinv hfr
  | updatePayment faults now id userID req =>
    have hf : faults = noFaults := hff
    subst hf
    exact paidInv_updatePayment db now id userID req hinv

theorem run_paidInv (ops : List Op) :
    ∀ db : DB, paidInv db → admissible db ops → paidInv (run db ops) := by
  induction ops with
  | nil => intro db h _; exact h
  | cons op rest ih =>
    intro db h hadm
    obtain ⟨hff, hfr, hrest⟩ := hadm
    exact ih (step db op) (step_paidInv db op h hff hfr) hrest

theorem paidInv_of_no_payments (db : DB) (h : db.payments = []) : paidInv db := by
  refine ⟨?_, ?_, ?_, ?_⟩
  · intro p hp; rw [h] at hp; cases hp
  · intro p hp; rw [h] at hp; cases hp
  · intro p hp; rw [h] at hp; cases hp
  · intro bid; unfold paymentCount; rw [h]; simp

/-- C29: in every state reached from a store without payments by booking and payment calls in
which no persistence call fails and every generated identifier is new, every booking row of a
completed payment is confirmed, so a booking read with a completed payment is confirmed and
cannot be cancelled; consequently no `CancelBooking` call on such a state reaches the branch
that marks a completed payment refunded: it leaves the payments as they are. -/
theorem completed_payment_confirmed (db0 : DB) (ops : List Op) (h0 : db0.payments = [])
    (hadm : admissible db0 ops) :
    (∀ p ∈ (run db0 ops).payments, p.Status = PaymentStatusCompleted →
        ∀ b ∈ (run db0 ops).bookings, b.ID = p.BookingID → b.Status = BookingStatusConfirmed)
      ∧ (∀ id b p, bookingRepository.GetByID (run db0 ops) id = some b → b.Payment = some p →
          p.Status = PaymentStatusCompleted →
          b.Status = BookingStatusConfirmed ∧ b.CanBeCancelled = false)
      ∧ (∀ faults now id userID,
          (useCase.CancelBooking faults (run db0 ops) now id userID).2.payments
            = (run db0 ops).payments) := by
  have hinv := run_paidInv ops db0 (paidInv_of_no_payments db0 h0) hadm
  have key : ∀ id b p, bookingRepository.GetByID (run db0 ops) id = some b →
      b.Payment = some p → p.Status = PaymentStatusCompleted →
      b.Status = BookingStatusConfirmed ∧ b.CanBeCancelled = false := by
    intro id b p hget hpay hc
    have hs := no_completed_of_cancellable (run db0 ops) hinv id b p hget hpay hc
    refine ⟨hs, ?_⟩
    cases hcan : b.CanBeCancelled with
    | false => rfl
    | true => exact absurd hs ((canBeCancelled_iff b).1 hcan).2
  refine ⟨hinv.1, key, ?_⟩
  intro faults now id userID
  rcases cancelBooking_cases faults (run db0 ops) now id userID with ⟨msg, h⟩
    | ⟨booking, u, hget, -, -, hcan, ⟨-, h⟩ | ⟨p, -, -, -, h⟩ | ⟨p, hpay, hc, -⟩⟩
  · rw [h]
  · rw [h]
  · rw [h]
  · exfalso
    have := (key id booking p hget hpay hc).2
    rw [hcan] at this
    cases this

theorem completed_payment_confirmed_witness :
    dbA.payments = []
      ∧ (run dbA opsPaid).payments.map (fun p => (p.BookingID, p.Status)) = [(100, "completed")]
      ∧ (run dbA opsPaid).bookings.map (fun b => (b.ID, b.Status)) = [(100, "confirmed")]
      ∧ (∀ faults now id userID,
          (useCase.CancelBooking faults (run dbA opsPaid) now id userID).2.payments
            = (run dbA opsPaid).payments) :=
  ⟨rfl, by decide!, by decide!,
   (completed_payment_confirmed dbA opsPaid rfl
      ⟨trivial, (by show ∀ b ∈ dbA.bookings, b.ID ≠ 100; decide),
       rfl, (by show ∀ p ∈ (step dbA (Op.createBooking nowA 100 7 requestA)).payments,
                  p.ID ≠ 500; decide!),
       rfl, trivial, trivial⟩).2.2⟩

end BadBuddy
